import Mathlib

/-! # Order manager of relay-cluster

A shallow embedding of `ordermanager/manager/manager.go`: the event handlers of
`OrderManagerImpl`, the persisted tables they read and write, the cutoff cache and
the subscriptions of the event bus.

Go values are embedded as follows.

* `*big.Int` is `Int`; `common.Hash` and `common.Address` are `Nat`.
* A Go `error` is `Option Err`, `none` being `nil`.
* A handler takes the manager and the event and returns a `Result`: the manager
  afterwards, the returned error, the notifications published through `notify`
  and what was passed to `log.Errorf`.
* Calls that can fail for reasons outside the handler (a write to the store, a
  conversion between `dao.Order` and `types.OrderState`) fail when the matching
  flag of `Faults` is set; a failed write leaves the table as it was.
* Functions of the repository that the handlers call but that live in other files
  (status settlement, order construction, the cutoff queries, the fork processor)
  are fields of `Env`.
-/

/-! ## Basic types -/

/-- The type `common.Hash` of go-ethereum. -/
abbrev common.Hash := Nat

/-- The type `common.Address` of go-ethereum. -/
abbrev common.Address := Nat

/-- The type `types.TxStatus`: the status of the transaction an event comes from. -/
inductive types.TxStatus where
  | TX_STATUS_UNKNOWN
  | TX_STATUS_PENDING
  | TX_STATUS_SUCCESS
  | TX_STATUS_FAILED
deriving DecidableEq, Repr

/-- The type `types.OrderStatus`: the lifecycle status of an order. -/
inductive types.OrderStatus where
  | ORDER_UNKNOWN
  | ORDER_NEW
  | ORDER_PARTIAL
  | ORDER_FINISHED
  | ORDER_CANCEL
  | ORDER_CUTOFF
  | ORDER_EXPIRE
  | ORDER_PENDING
deriving DecidableEq, Repr

/-- The value of `x.Int64()` for a `*big.Int`: the low 64 bits, read as a signed number. -/
def Int64 (x : Int) : Int :=
  (x + 2 ^ 63) % 2 ^ 64 - 2 ^ 63

/-- The errors a handler can return or log. -/
inductive Err where
  | notFound
  | convertFailed
  | storeFailed
  | alreadyExist
  | buildFailed
deriving DecidableEq, Repr

/-! ## Events (package `types`) -/

/-- The immutable terms of an order, `types.Order`. -/
structure types.Order where
  Hash : common.Hash
  Owner : common.Address
  TokenS : common.Address
  TokenB : common.Address
  AmountS : Int
  AmountB : Int
  BuyNoMoreThanAmountB : Bool
  OrderType : String
deriving DecidableEq, Repr

/-- The in-memory projection of an order used while one event is handled, `types.OrderState`. -/
structure types.OrderState where
  RawOrder : types.Order
  UpdatedBlock : Int
  DealtAmountS : Int
  DealtAmountB : Int
  SplitAmountS : Int
  SplitAmountB : Int
  CancelledAmountS : Int
  CancelledAmountB : Int
  Status : types.OrderStatus
deriving DecidableEq, Repr

/-- The event `types.OrderFilledEvent`. -/
structure types.OrderFilledEvent where
  TxHash : common.Hash
  Status : types.TxStatus
  BlockNumber : Int
  FillIndex : Int
  OrderHash : common.Hash
  TokenS : common.Address
  TokenB : common.Address
  AmountS : Int
  AmountB : Int
  SplitS : Int
  SplitB : Int
deriving DecidableEq, Repr

/-- The event `types.OrderCancelledEvent`. -/
structure types.OrderCancelledEvent where
  TxHash : common.Hash
  Status : types.TxStatus
  BlockNumber : Int
  OrderHash : common.Hash
  AmountCancelled : Int
deriving DecidableEq, Repr

/-- The event `types.CutoffEvent`. -/
structure types.CutoffEvent where
  TxHash : common.Hash
  Status : types.TxStatus
  BlockNumber : Int
  Protocol : common.Address
  Owner : common.Address
  Cutoff : Int
  OrderHashList : List common.Hash
deriving DecidableEq, Repr

/-- The event `types.CutoffPairEvent`. -/
structure types.CutoffPairEvent where
  TxHash : common.Hash
  Status : types.TxStatus
  BlockNumber : Int
  Protocol : common.Address
  Owner : common.Address
  Token1 : common.Address
  Token2 : common.Address
  Cutoff : Int
  OrderHashList : List common.Hash
deriving DecidableEq, Repr

/-- The event `types.RingMinedEvent`. -/
structure types.RingMinedEvent where
  TxHash : common.Hash
  Status : types.TxStatus
  BlockNumber : Int
  Ringhash : common.Hash
deriving DecidableEq, Repr

/-- The event `types.SubmitRingMethodEvent`. -/
structure types.SubmitRingMethodEvent where
  TxHash : common.Hash
  Status : types.TxStatus
  BlockNumber : Int
deriving DecidableEq, Repr

/-- The event `types.ForkedEvent`: the range of blocks a fork invalidates. -/
structure types.ForkedEvent where
  ForkBlock : Int
  DetectedBlock : Int
deriving DecidableEq, Repr

/-! ## Persisted rows (package `dao`) -/

/-- Modelled from the spec: the row type `dao.Order`, declared outside this file. An order is
keyed by its hash and carries the immutable terms, the accumulators, the status and the block
of the last update. -/
structure dao.Order where
  OrderHash : common.Hash
  Owner : common.Address
  TokenS : common.Address
  TokenB : common.Address
  AmountS : Int
  AmountB : Int
  BuyNoMoreThanAmountB : Bool
  OrderType : String
  DealtAmountS : Int
  DealtAmountB : Int
  SplitAmountS : Int
  SplitAmountB : Int
  CancelledAmountS : Int
  CancelledAmountB : Int
  Status : types.OrderStatus
  UpdatedBlock : Int
deriving DecidableEq, Repr

/-- Modelled from the spec: the row type `dao.FillEvent`, keyed by transaction hash and fill
index, with the derived side and market and a fork flag. -/
structure dao.FillEvent where
  TxHash : common.Hash
  FillIndex : Int
  Status : types.TxStatus
  BlockNumber : Int
  OrderHash : common.Hash
  TokenS : common.Address
  TokenB : common.Address
  AmountS : Int
  AmountB : Int
  SplitS : Int
  SplitB : Int
  OrderType : String
  Side : String
  Market : String
  Fork : Bool
deriving DecidableEq, Repr

/-- Modelled from the spec: the row type `dao.CancelEvent`, keyed by transaction hash. -/
structure dao.CancelEvent where
  TxHash : common.Hash
  Status : types.TxStatus
  BlockNumber : Int
  OrderHash : common.Hash
  AmountCancelled : Int
  Fork : Bool
deriving DecidableEq, Repr

/-- Modelled from the spec: the row type `dao.CutOffEvent`, keyed by transaction hash. -/
structure dao.CutOffEvent where
  TxHash : common.Hash
  Status : types.TxStatus
  BlockNumber : Int
  Protocol : common.Address
  Owner : common.Address
  Cutoff : Int
  OrderHashList : List common.Hash
  Fork : Bool
deriving DecidableEq, Repr

/-- Modelled from the spec: the row type `dao.CutOffPairEvent`, keyed by transaction hash. -/
structure dao.CutOffPairEvent where
  TxHash : common.Hash
  Status : types.TxStatus
  BlockNumber : Int
  Protocol : common.Address
  Owner : common.Address
  Token1 : common.Address
  Token2 : common.Address
  Cutoff : Int
  OrderHashList : List common.Hash
  Fork : Bool
deriving DecidableEq, Repr

/-- Modelled from the spec: the row type `dao.RingMinedEvent`, keyed by transaction hash. It
holds both what a ring-mined event and what a submit-ring method call report. -/
structure dao.RingMinedEvent where
  TxHash : common.Hash
  Status : types.TxStatus
  BlockNumber : Int
  RingHash : common.Hash
  Fork : Bool
deriving DecidableEq, Repr

/-- Modelled from the spec: the store `dao.RdsService`, declared outside this file. Each table
is the list of its rows in insertion order; the position of a row is its primary key. -/
structure dao.RdsService where
  orders : List dao.Order
  fillEvents : List dao.FillEvent
  cancelEvents : List dao.CancelEvent
  cutoffEvents : List dao.CutOffEvent
  cutoffPairEvents : List dao.CutOffPairEvent
  ringMinedEvents : List dao.RingMinedEvent
deriving DecidableEq, Repr

/-- The store calls and conversions that fail during one handler invocation. -/
structure Faults where
  Add : Bool
  Save : Bool
  UpdateOrderWhileFill : Bool
  UpdateOrderWhileCancel : Bool
  SetCutOffOrders : Bool
  GetCutoffOrders : Bool
  ConvertUp : Bool
  ConvertDown : Bool
deriving DecidableEq, Repr

/-- No call fails. -/
def Faults.none : Faults :=
  { Add := false, Save := false, UpdateOrderWhileFill := false, UpdateOrderWhileCancel := false,
    SetCutOffOrders := false, GetCutoffOrders := false, ConvertUp := false, ConvertDown := false }

/-! ## Store operations -/

/-- The first row of a table that satisfies `p`, with its position. -/
def dao.findRow {α : Type} (p : α → Bool) : List α → Option (Nat × α)
  | [] => none
  | x :: xs => if p x then some (0, x) else (dao.findRow p xs).map (fun r => (r.1 + 1, r.2))

/-- A value of any of the row types, as passed to `Add` and `Save`. -/
inductive dao.Model where
  | Order (m : dao.Order)
  | FillEvent (m : dao.FillEvent)
  | CancelEvent (m : dao.CancelEvent)
  | CutOffEvent (m : dao.CutOffEvent)
  | CutOffPairEvent (m : dao.CutOffPairEvent)
  | RingMinedEvent (m : dao.RingMinedEvent)
deriving DecidableEq, Repr

/-- Modelled from the spec: `RdsService.Add`, the insert of the persisted-store contract. The
row is appended to its table; no uniqueness is enforced by the store. -/
def dao.RdsService.Add (f : Faults) (s : dao.RdsService) (m : dao.Model) : Except Err dao.RdsService :=
  if f.Add then .error Err.storeFailed
  else match m with
    | .Order o => .ok { s with orders := s.orders ++ [o] }
    | .FillEvent r => .ok { s with fillEvents := s.fillEvents ++ [r] }
    | .CancelEvent r => .ok { s with cancelEvents := s.cancelEvents ++ [r] }
    | .CutOffEvent r => .ok { s with cutoffEvents := s.cutoffEvents ++ [r] }
    | .CutOffPairEvent r => .ok { s with cutoffPairEvents := s.cutoffPairEvents ++ [r] }
    | .RingMinedEvent r => .ok { s with ringMinedEvents := s.ringMinedEvents ++ [r] }

/-- Modelled from the spec: `RdsService.Save`, the full-row save of the persisted-store
contract. The row with primary key `id` is overwritten. -/
def dao.RdsService.Save (f : Faults) (s : dao.RdsService) (id : Nat) (m : dao.Model) : Except Err dao.RdsService :=
  if f.Save then .error Err.storeFailed
  else match m with
    | .Order o => .ok { s with orders := s.orders.set id o }
    | .FillEvent r => .ok { s with fillEvents := s.fillEvents.set id r }
    | .CancelEvent r => .ok { s with cancelEvents := s.cancelEvents.set id r }
    | .CutOffEvent r => .ok { s with cutoffEvents := s.cutoffEvents.set id r }
    | .CutOffPairEvent r => .ok { s with cutoffPairEvents := s.cutoffPairEvents.set id r }
    | .RingMinedEvent r => .ok { s with ringMinedEvents := s.ringMinedEvents.set id r }

/-- Modelled from the spec: `RdsService.FindFillEvent`, the point lookup of a fill by
transaction hash and fill index. `none` is the error result. -/
def dao.RdsService.FindFillEvent (s : dao.RdsService) (txhash : common.Hash) (fillIndex : Int) : Option dao.FillEvent :=
  (dao.findRow (fun r => decide (r.TxHash = txhash ∧ r.FillIndex = fillIndex)) s.fillEvents).map (fun r => r.2)

/-- Modelled from the spec: `RdsService.GetOrderByHash`, the point lookup of an order. -/
def dao.RdsService.GetOrderByHash (s : dao.RdsService) (orderhash : common.Hash) : Option dao.Order :=
  (dao.findRow (fun o => decide (o.OrderHash = orderhash)) s.orders).map (fun r => r.2)

/-- Modelled from the spec: `RdsService.FindRingMined`, the point lookup by transaction hash. -/
def dao.RdsService.FindRingMined (s : dao.RdsService) (txhash : common.Hash) : Option (Nat × dao.RingMinedEvent) :=
  dao.findRow (fun r => decide (r.TxHash = txhash)) s.ringMinedEvents

/-- Modelled from the spec: `RdsService.GetCancelEvent`, the point lookup by transaction hash. -/
def dao.RdsService.GetCancelEvent (s : dao.RdsService) (txhash : common.Hash) : Option (Nat × dao.CancelEvent) :=
  dao.findRow (fun r => decide (r.TxHash = txhash)) s.cancelEvents

/-- Modelled from the spec: `RdsService.GetCutoffEvent`, the point lookup by transaction hash. -/
def dao.RdsService.GetCutoffEvent (s : dao.RdsService) (txhash : common.Hash) : Option (Nat × dao.CutOffEvent) :=
  dao.findRow (fun r => decide (r.TxHash = txhash)) s.cutoffEvents

/-- Modelled from the spec: `RdsService.GetCutoffPairEvent`, the point lookup by transaction
hash. -/
def dao.RdsService.GetCutoffPairEvent (s : dao.RdsService) (txhash : common.Hash) : Option (Nat × dao.CutOffPairEvent) :=
  dao.findRow (fun r => decide (r.TxHash = txhash)) s.cutoffPairEvents

/-- Modelled from the spec: `RdsService.UpdateOrderWhileFill`, the fill-path partial update of
(status, dealtAmountS, dealtAmountB, splitAmountS, splitAmountB, updatedBlock) of the order
with the given hash. -/
def dao.RdsService.UpdateOrderWhileFill (f : Faults) (s : dao.RdsService) (hash : common.Hash)
    (status : types.OrderStatus) (dealtAmountS dealtAmountB splitAmountS splitAmountB blockNumber : Int) :
    Except Err dao.RdsService :=
  if f.UpdateOrderWhileFill then .error Err.storeFailed
  else .ok { s with orders := s.orders.map (fun o =>
    if o.OrderHash = hash then
      { o with Status := status, DealtAmountS := dealtAmountS, DealtAmountB := dealtAmountB,
               SplitAmountS := splitAmountS, SplitAmountB := splitAmountB, UpdatedBlock := blockNumber }
    else o) }

/-- Modelled from the spec: `RdsService.UpdateOrderWhileCancel`, the cancel-path partial update
of (status, cancelledAmountS, cancelledAmountB, updatedBlock) of the order with the given
hash. -/
def dao.RdsService.UpdateOrderWhileCancel (f : Faults) (s : dao.RdsService) (hash : common.Hash)
    (status : types.OrderStatus) (cancelledAmountS cancelledAmountB blockNumber : Int) :
    Except Err dao.RdsService :=
  if f.UpdateOrderWhileCancel then .error Err.storeFailed
  else .ok { s with orders := s.orders.map (fun o =>
    if o.OrderHash = hash then
      { o with Status := status, CancelledAmountS := cancelledAmountS,
               CancelledAmountB := cancelledAmountB, UpdatedBlock := blockNumber }
    else o) }

/-- Modelled from the spec: `RdsService.SetCutOffOrders`, the bulk update that tags every order
whose hash is listed as cutoff at the given block. -/
def dao.RdsService.SetCutOffOrders (f : Faults) (s : dao.RdsService) (orderHashList : List common.Hash)
    (blockNumber : Int) : Except Err dao.RdsService :=
  if f.SetCutOffOrders then .error Err.storeFailed
  else .ok { s with orders := s.orders.map (fun o =>
    if o.OrderHash ∈ orderHashList then
      { o with Status := types.OrderStatus.ORDER_CUTOFF, UpdatedBlock := blockNumber }
    else o) }

/-! ## Conversions between rows, states and events -/

/-- Modelled from the spec: `Order.ConvertUp`, the expansion of a row into an order state. It
fills every field of the state it is given. -/
def dao.Order.ConvertUp (f : Faults) (o : dao.Order) : Option types.OrderState :=
  if f.ConvertUp then none
  else some
    { RawOrder :=
        { Hash := o.OrderHash, Owner := o.Owner, TokenS := o.TokenS, TokenB := o.TokenB,
          AmountS := o.AmountS, AmountB := o.AmountB,
          BuyNoMoreThanAmountB := o.BuyNoMoreThanAmountB, OrderType := o.OrderType },
      UpdatedBlock := o.UpdatedBlock,
      DealtAmountS := o.DealtAmountS, DealtAmountB := o.DealtAmountB,
      SplitAmountS := o.SplitAmountS, SplitAmountB := o.SplitAmountB,
      CancelledAmountS := o.CancelledAmountS, CancelledAmountB := o.CancelledAmountB,
      Status := o.Status }

/-- Modelled from the spec: `Order.ConvertDown`, the compression of an order state into the
row held in memory. -/
def dao.Order.ConvertDown (f : Faults) (_o : dao.Order) (state : types.OrderState) : Option dao.Order :=
  if f.ConvertDown then none
  else some
    { OrderHash := state.RawOrder.Hash, Owner := state.RawOrder.Owner,
      TokenS := state.RawOrder.TokenS, TokenB := state.RawOrder.TokenB,
      AmountS := state.RawOrder.AmountS, AmountB := state.RawOrder.AmountB,
      BuyNoMoreThanAmountB := state.RawOrder.BuyNoMoreThanAmountB,
      OrderType := state.RawOrder.OrderType,
      DealtAmountS := state.DealtAmountS, DealtAmountB := state.DealtAmountB,
      SplitAmountS := state.SplitAmountS, SplitAmountB := state.SplitAmountB,
      CancelledAmountS := state.CancelledAmountS, CancelledAmountB := state.CancelledAmountB,
      Status := state.Status, UpdatedBlock := state.UpdatedBlock }

/-- The zero value of `dao.FillEvent`. -/
def dao.FillEvent.zero : dao.FillEvent :=
  { TxHash := 0, FillIndex := 0, Status := types.TxStatus.TX_STATUS_UNKNOWN, BlockNumber := 0,
    OrderHash := 0, TokenS := 0, TokenB := 0, AmountS := 0, AmountB := 0, SplitS := 0, SplitB := 0,
    OrderType := "", Side := "", Market := "", Fork := false }

/-- Modelled from the spec: `FillEvent.ConvertDown`, which copies the event into the row. The
fill index is stored as a 64-bit integer, the form `FindFillEvent` is asked for. -/
def dao.FillEvent.ConvertDown (m : dao.FillEvent) (src : types.OrderFilledEvent) : dao.FillEvent :=
  { m with TxHash := src.TxHash, FillIndex := Int64 src.FillIndex, Status := src.Status,
           BlockNumber := src.BlockNumber, OrderHash := src.OrderHash, TokenS := src.TokenS,
           TokenB := src.TokenB, AmountS := src.AmountS, AmountB := src.AmountB,
           SplitS := src.SplitS, SplitB := src.SplitB }

/-- The zero value of `dao.CancelEvent`. -/
def dao.CancelEvent.zero : dao.CancelEvent :=
  { TxHash := 0, Status := types.TxStatus.TX_STATUS_UNKNOWN, BlockNumber := 0, OrderHash := 0,
    AmountCancelled := 0, Fork := false }

/-- Modelled from the spec: `CancelEvent.ConvertDown`, which copies the event into the row. -/
def dao.CancelEvent.ConvertDown (m : dao.CancelEvent) (src : types.OrderCancelledEvent) : dao.CancelEvent :=
  { m with TxHash := src.TxHash, Status := src.Status, BlockNumber := src.BlockNumber,
           OrderHash := src.OrderHash, AmountCancelled := src.AmountCancelled }

/-- The zero value of `dao.CutOffEvent`. -/
def dao.CutOffEvent.zero : dao.CutOffEvent :=
  { TxHash := 0, Status := types.TxStatus.TX_STATUS_UNKNOWN, BlockNumber := 0, Protocol := 0,
    Owner := 0, Cutoff := 0, OrderHashList := [], Fork := false }

/-- Modelled from the spec: `CutOffEvent.ConvertDown`, which copies the event into the row. -/
def dao.CutOffEvent.ConvertDown (m : dao.CutOffEvent) (src : types.CutoffEvent) : dao.CutOffEvent :=
  { m with TxHash := src.TxHash, Status := src.Status, BlockNumber := src.BlockNumber,
           Protocol := src.Protocol, Owner := src.Owner, Cutoff := src.Cutoff,
           OrderHashList := src.OrderHashList }

/-- The zero value of `dao.CutOffPairEvent`. -/
def dao.CutOffPairEvent.zero : dao.CutOffPairEvent :=
  { TxHash := 0, Status := types.TxStatus.TX_STATUS_UNKNOWN, BlockNumber := 0, Protocol := 0,
    Owner := 0, Token1 := 0, Token2 := 0, Cutoff := 0, OrderHashList := [], Fork := false }

/-- Modelled from the spec: `CutOffPairEvent.ConvertDown`, which copies the event into the
row. -/
def dao.CutOffPairEvent.ConvertDown (m : dao.CutOffPairEvent) (src : types.CutoffPairEvent) : dao.CutOffPairEvent :=
  { m with TxHash := src.TxHash, Status := src.Status, BlockNumber := src.BlockNumber,
           Protocol := src.Protocol, Owner := src.Owner, Token1 := src.Token1,
           Token2 := src.Token2, Cutoff := src.Cutoff, OrderHashList := src.OrderHashList }

/-- The zero value of `dao.RingMinedEvent`. -/
def dao.RingMinedEvent.zero : dao.RingMinedEvent :=
  { TxHash := 0, Status := types.TxStatus.TX_STATUS_UNKNOWN, BlockNumber := 0, RingHash := 0,
    Fork := false }

/-- Modelled from the spec: `RingMinedEvent.ConvertDown`, which copies the event into the
row. -/
def dao.RingMinedEvent.ConvertDown (m : dao.RingMinedEvent) (src : types.RingMinedEvent) : dao.RingMinedEvent :=
  { m with TxHash := src.TxHash, Status := src.Status, BlockNumber := src.BlockNumber,
           RingHash := src.Ringhash }

/-- Modelled from the spec: `RingMinedEvent.FromSubmitRingMethod`, which copies what a
submit-ring method event carries (transaction hash, status, block) into the row. -/
def dao.RingMinedEvent.FromSubmitRingMethod (m : dao.RingMinedEvent) (src : types.SubmitRingMethodEvent) : dao.RingMinedEvent :=
  { m with TxHash := src.TxHash, Status := src.Status, BlockNumber := src.BlockNumber }

/-! ## Cutoff cache (package `ordermanager/common`) -/

/-- Modelled from the spec: `omcm.CutoffCache`, declared outside this file. Two independent
mappings to the latest known cutoff timestamp, one per (protocol, owner) and one per
(protocol, owner, token pair); an absent key reads as zero. -/
structure omcm.CutoffCache where
  cutoff : common.Address → common.Address → Int
  cutoffPair : common.Address → common.Address → common.Address → common.Address → Int

/-- Modelled from the spec: `omcm.NewCutoffCache`, the empty cache. -/
def omcm.NewCutoffCache : omcm.CutoffCache :=
  { cutoff := fun _ _ => 0, cutoffPair := fun _ _ _ _ => 0 }

/-- Modelled from the spec: `CutoffCache.GetCutoff`, `get(key)`. -/
def omcm.CutoffCache.GetCutoff (c : omcm.CutoffCache) (protocol owner : common.Address) : Int :=
  c.cutoff protocol owner

/-- Modelled from the spec: `CutoffCache.UpdateCutoff`, `update(key, timestamp)`, which
overwrites unconditionally. -/
def omcm.CutoffCache.UpdateCutoff (c : omcm.CutoffCache) (protocol owner : common.Address) (cutoff : Int) :
    omcm.CutoffCache :=
  { c with cutoff := fun p o => if p = protocol ∧ o = owner then cutoff else c.cutoff p o }

/-- Modelled from the spec: `CutoffCache.GetCutoffPair`; the two tokens are normalized so that
both orders of the pair read the same slot. -/
def omcm.CutoffCache.GetCutoffPair (c : omcm.CutoffCache) (protocol owner token1 token2 : common.Address) : Int :=
  c.cutoffPair protocol owner (min token1 token2) (max token1 token2)

/-- Modelled from the spec: `CutoffCache.UpdateCutoffPair`, which overwrites the slot of the
normalized pair unconditionally. -/
def omcm.CutoffCache.UpdateCutoffPair (c : omcm.CutoffCache) (protocol owner token1 token2 : common.Address)
    (cutoff : Int) : omcm.CutoffCache :=
  { c with cutoffPair := fun p o a b =>
      if p = protocol ∧ o = owner ∧ a = min token1 token2 ∧ b = max token1 token2 then cutoff
      else c.cutoffPair p o a b }

/-! ## Event bus (package `eventemitter`) -/

/-- The topics the manager subscribes to. -/
inductive eventemitter.Topic where
  | NewOrder
  | RingMined
  | OrderFilled
  | CancelOrder
  | CutoffAll
  | CutoffPair
  | ChainForkDetected
  | ExtractorWarning
  | Miner_SubmitRing_Method
deriving DecidableEq, Repr

/-- The method of the manager a watcher calls. -/
inductive Handler where
  | handleGatewayOrder
  | handleRingMined
  | handleOrderFilled
  | handleOrderCancelled
  | handleCutoff
  | handleCutoffPair
  | handleFork
  | handleWarning
  | handleSubmitRingMethod
deriving DecidableEq, Repr

/-- A `*eventemitter.Watcher`: the address of the allocated watcher with its contents. -/
structure eventemitter.Watcher where
  addr : Nat
  Concurrent : Bool
  Handle : Handler
deriving DecidableEq, Repr

/-- The registrations of the bus: the (topic, watcher) pairs, in the order they were made. -/
abbrev eventemitter.Registry := List (eventemitter.Topic × eventemitter.Watcher)

/-- The call `eventemitter.On(topic, watcher)` of relay-lib: the watcher is appended to the
watchers of the topic. -/
def eventemitter.On (reg : eventemitter.Registry) (topic : eventemitter.Topic) (watcher : eventemitter.Watcher) :
    eventemitter.Registry :=
  reg ++ [(topic, watcher)]

/-- The call `eventemitter.Un(topic, watcher)` of relay-lib: every registration of that watcher
(the same pointer) on the topic is removed. A nil watcher removes nothing. -/
def eventemitter.Un (reg : eventemitter.Registry) (topic : eventemitter.Topic)
    (watcher : Option eventemitter.Watcher) : eventemitter.Registry :=
  match watcher with
  | none => reg
  | some w => reg.filter (fun r => !(decide (r.1 = topic) && decide (r.2.addr = w.addr)))

/-! ## The manager -/

/-- The notifications published through package `notify`. -/
inductive Notification where
  | OrderUpdate (state : types.OrderState)
  | OrderFilled (fill : dao.FillEvent)
  | Cutoff (event : types.CutoffEvent)
  | CutoffPair (event : types.CutoffPairEvent)
deriving DecidableEq, Repr

/-- The functions the handlers call that are declared in other files: status settlement (with
its market-cap provider), order construction, the two cutoff queries of the store, the fork
processor and the market utilities. `none` is the error result. -/
structure Env where
  SettleOrderStatus : types.OrderState → Bool → types.OrderStatus
  NewOrderEntity : types.OrderState → Option dao.Order
  GetCutoffOrders : List dao.Order → common.Address → Int → List dao.Order
  GetCutoffPairOrders : List dao.Order → common.Address → common.Address → common.Address → Int → List dao.Order
  Fork : dao.RdsService → types.ForkedEvent → Option dao.RdsService
  GetSide : common.Address → common.Address → String
  WrapMarketByAddress : common.Address → common.Address → String

/-- The struct `OrderManagerImpl`: the store, the cutoff cache and the nine watchers, nil
until `Start` allocates them. -/
structure OrderManagerImpl where
  rds : dao.RdsService
  cutoffCache : omcm.CutoffCache
  newOrderWatcher : Option eventemitter.Watcher
  ringMinedWatcher : Option eventemitter.Watcher
  fillOrderWatcher : Option eventemitter.Watcher
  cancelOrderWatcher : Option eventemitter.Watcher
  cutoffOrderWatcher : Option eventemitter.Watcher
  cutoffPairWatcher : Option eventemitter.Watcher
  forkWatcher : Option eventemitter.Watcher
  warningWatcher : Option eventemitter.Watcher
  submitRingMethodWatcher : Option eventemitter.Watcher

/-- The constructor `NewOrderManager`. -/
def NewOrderManager (rds : dao.RdsService) : OrderManagerImpl :=
  { rds := rds, cutoffCache := omcm.NewCutoffCache,
    newOrderWatcher := none, ringMinedWatcher := none, fillOrderWatcher := none,
    cancelOrderWatcher := none, cutoffOrderWatcher := none, cutoffPairWatcher := none,
    forkWatcher := none, warningWatcher := none, submitRingMethodWatcher := none }

/-- What a handler leaves behind: the manager, the returned error, the notifications published
and the errors written with `log.Errorf`. -/
structure Result where
  om : OrderManagerImpl
  err : Option Err
  notified : List Notification
  logged : List Err

/-- The process: the manager, the registrations of the bus and the next free address. -/
structure Process where
  om : OrderManagerImpl
  registry : eventemitter.Registry
  nextAddr : Nat

/-- The method `Start`: nine fresh watchers are allocated, stored in the manager and
registered, one per topic. -/
def Process.Start (p : Process) : Process :=
  let a := p.nextAddr
  let newOrderWatcher : eventemitter.Watcher := { addr := a, Concurrent := false, Handle := Handler.handleGatewayOrder }
  let ringMinedWatcher : eventemitter.Watcher := { addr := a + 1, Concurrent := false, Handle := Handler.handleRingMined }
  let fillOrderWatcher : eventemitter.Watcher := { addr := a + 2, Concurrent := false, Handle := Handler.handleOrderFilled }
  let cancelOrderWatcher : eventemitter.Watcher := { addr := a + 3, Concurrent := false, Handle := Handler.handleOrderCancelled }
  let cutoffOrderWatcher : eventemitter.Watcher := { addr := a + 4, Concurrent := false, Handle := Handler.handleCutoff }
  let cutoffPairWatcher : eventemitter.Watcher := { addr := a + 5, Concurrent := false, Handle := Handler.handleCutoffPair }
  let forkWatcher : eventemitter.Watcher := { addr := a + 6, Concurrent := false, Handle := Handler.handleFork }
  let warningWatcher : eventemitter.Watcher := { addr := a + 7, Concurrent := false, Handle := Handler.handleWarning }
  let submitRingMethodWatcher : eventemitter.Watcher := { addr := a + 8, Concurrent := false, Handle := Handler.handleSubmitRingMethod }
  let reg := p.registry
  let reg := eventemitter.On reg eventemitter.Topic.NewOrder newOrderWatcher
  let reg := eventemitter.On reg eventemitter.Topic.RingMined ringMinedWatcher
  let reg := eventemitter.On reg eventemitter.Topic.OrderFilled fillOrderWatcher
  let reg := eventemitter.On reg eventemitter.Topic.CancelOrder cancelOrderWatcher
  let reg := eventemitter.On reg eventemitter.Topic.CutoffAll cutoffOrderWatcher
  let reg := eventemitter.On reg eventemitter.Topic.CutoffPair cutoffPairWatcher
  let reg := eventemitter.On reg eventemitter.Topic.ChainForkDetected forkWatcher
  let reg := eventemitter.On reg eventemitter.Topic.ExtractorWarning warningWatcher
  let reg := eventemitter.On reg eventemitter.Topic.Miner_SubmitRing_Method submitRingMethodWatcher
  { om := { p.om with
      newOrderWatcher := some newOrderWatcher, ringMinedWatcher := some ringMinedWatcher,
      fillOrderWatcher := some fillOrderWatcher, cancelOrderWatcher := some cancelOrderWatcher,
      cutoffOrderWatcher := some cutoffOrderWatcher, cutoffPairWatcher := some cutoffPairWatcher,
      forkWatcher := some forkWatcher, warningWatcher := some warningWatcher,
      submitRingMethodWatcher := some submitRingMethodWatcher },
    registry := reg,
    nextAddr := a + 9 }

/-- The method `Stop`: the eight `Un` calls of the source, in its order. -/
def Process.Stop (p : Process) : Process :=
  let reg := p.registry
  let reg := eventemitter.Un reg eventemitter.Topic.NewOrder p.om.newOrderWatcher
  let reg := eventemitter.Un reg eventemitter.Topic.RingMined p.om.ringMinedWatcher
  let reg := eventemitter.Un reg eventemitter.Topic.OrderFilled p.om.fillOrderWatcher
  let reg := eventemitter.Un reg eventemitter.Topic.CancelOrder p.om.cancelOrderWatcher
  let reg := eventemitter.Un reg eventemitter.Topic.CutoffAll p.om.cutoffOrderWatcher
  let reg := eventemitter.Un reg eventemitter.Topic.ChainForkDetected p.om.forkWatcher
  let reg := eventemitter.Un reg eventemitter.Topic.ExtractorWarning p.om.warningWatcher
  let reg := eventemitter.Un reg eventemitter.Topic.Miner_SubmitRing_Method p.om.submitRingMethodWatcher
  { p with registry := reg }

/-- The method `handleFork`: stop, run the fork processor, start again. An error of the fork
processor is fatal (`log.Fatalf` ends the process), which is the result `none`. -/
def Process.handleFork (env : Env) (p : Process) (input : types.ForkedEvent) : Option (Process × Option Err) :=
  let p := p.Stop
  match env.Fork p.om.rds input with
  | none => none
  | some rds => some (Process.Start { p with om := { p.om with rds := rds } }, none)

/-- The method `handleWarning`: stop, and do not start again. -/
def Process.handleWarning (p : Process) : Process × Option Err :=
  (p.Stop, none)

/-! ## Persisting event records -/

/-- A handler result that returns `nil`, publishes nothing and logs nothing. -/
def Result.ok (om : OrderManagerImpl) : Result :=
  { om := om, err := none, notified := [], logged := [] }

/-- A handler result that returns the error `e`, publishes nothing and logs nothing. -/
def Result.fail (om : OrderManagerImpl) (e : Err) : Result :=
  { om := om, err := some e, notified := [], logged := [] }

/-- The result of a store write inside a `save…` helper: the manager with the new store, or
the manager as it was together with the error. -/
def OrderManagerImpl.written (om : OrderManagerImpl) (r : Except Err dao.RdsService) : OrderManagerImpl × Option Err :=
  match r with
  | .ok rds => ({ om with rds := rds }, none)
  | .error e => (om, some e)

/-- The method `saveSubmitRingEvent`: insert when no record has the transaction hash, update
when the record has another status, and the error "already exist" otherwise. -/
def OrderManagerImpl.saveSubmitRingEvent (f : Faults) (om : OrderManagerImpl)
    (event : types.SubmitRingMethodEvent) : OrderManagerImpl × Option Err :=
  match om.rds.FindRingMined event.TxHash with
  | none =>
    let model := dao.RingMinedEvent.zero.FromSubmitRingMethod event
    om.written (om.rds.Add f (dao.Model.RingMinedEvent model))
  | some (id, model) =>
    if model.Status ≠ event.Status then
      let model := model.FromSubmitRingMethod event
      om.written (om.rds.Save f id (dao.Model.RingMinedEvent model))
    else (om, some Err.alreadyExist)

/-- The method `saveRingMinedEvent`: the same protocol for a ring-mined event. -/
def OrderManagerImpl.saveRingMinedEvent (f : Faults) (om : OrderManagerImpl)
    (event : types.RingMinedEvent) : OrderManagerImpl × Option Err :=
  match om.rds.FindRingMined event.TxHash with
  | none =>
    let model := dao.RingMinedEvent.zero.ConvertDown event
    om.written (om.rds.Add f (dao.Model.RingMinedEvent model))
  | some (id, model) =>
    if model.Status ≠ event.Status then
      let model := model.ConvertDown event
      om.written (om.rds.Save f id (dao.Model.RingMinedEvent model))
    else (om, some Err.alreadyExist)

/-- The method `saveCancelEvent`: the same protocol for a cancel event; an inserted row has
its fork flag cleared. -/
def OrderManagerImpl.saveCancelEvent (f : Faults) (om : OrderManagerImpl)
    (event : types.OrderCancelledEvent) : OrderManagerImpl × Option Err :=
  match om.rds.GetCancelEvent event.TxHash with
  | none =>
    let model := dao.CancelEvent.zero.ConvertDown event
    let model := { model with Fork := false }
    om.written (om.rds.Add f (dao.Model.CancelEvent model))
  | some (id, model) =>
    if model.Status ≠ event.Status then
      let model := model.ConvertDown event
      om.written (om.rds.Save f id (dao.Model.CancelEvent model))
    else (om, some Err.alreadyExist)

/-- The loop of `saveCutoffEvent` over the orders the query returned: each order's hash is
appended to a local list, and the event's list is set to that local list in every round. -/
def collectCutoffOrders (orders : List dao.Order) (event : types.CutoffEvent) : types.CutoffEvent :=
  (orders.foldl
    (fun (acc : List common.Hash × types.CutoffEvent) v =>
      let orderhashlist := acc.1 ++ [v.OrderHash]
      (orderhashlist, { acc.2 with OrderHashList := orderhashlist }))
    ([], event)).2

/-- The loop of `saveCutoffPairEvent` over the orders the query returned. -/
def collectCutoffPairOrders (orders : List dao.Order) (event : types.CutoffPairEvent) : types.CutoffPairEvent :=
  (orders.foldl
    (fun (acc : List common.Hash × types.CutoffPairEvent) v =>
      let orderHashList := acc.1 ++ [v.OrderHash]
      (orderHashList, { acc.2 with OrderHashList := orderHashList }))
    ([], event)).2

/-- The method `saveCutoffEvent`. It returns the event as well, because the insert branch
rewrites the event's order hash list through the pointer it was given. The error of the
query is discarded; a failed query yields no orders. -/
def OrderManagerImpl.saveCutoffEvent (env : Env) (f : Faults) (om : OrderManagerImpl)
    (event : types.CutoffEvent) : OrderManagerImpl × types.CutoffEvent × Option Err :=
  match om.rds.GetCutoffEvent event.TxHash with
  | some (id, model) =>
    if model.Status = event.Status then (om, event, some Err.alreadyExist)
    else
      let model := model.ConvertDown event
      let w := om.written (om.rds.Save f id (dao.Model.CutOffEvent model))
      (w.1, event, w.2)
  | none =>
    let orders := if f.GetCutoffOrders then [] else env.GetCutoffOrders om.rds.orders event.Owner event.Cutoff
    let event := collectCutoffOrders orders event
    let model := dao.CutOffEvent.zero.ConvertDown event
    let model := { model with Fork := false }
    let w := om.written (om.rds.Add f (dao.Model.CutOffEvent model))
    (w.1, event, w.2)

/-- The method `saveCutoffPairEvent`, the same for a cutoff of one token pair. -/
def OrderManagerImpl.saveCutoffPairEvent (env : Env) (f : Faults) (om : OrderManagerImpl)
    (event : types.CutoffPairEvent) : OrderManagerImpl × types.CutoffPairEvent × Option Err :=
  match om.rds.GetCutoffPairEvent event.TxHash with
  | some (id, model) =>
    if model.Status = event.Status then (om, event, some Err.alreadyExist)
    else
      let model := model.ConvertDown event
      let w := om.written (om.rds.Save f id (dao.Model.CutOffPairEvent model))
      (w.1, event, w.2)
  | none =>
    let orders := if f.GetCutoffOrders then []
      else env.GetCutoffPairOrders om.rds.orders event.Owner event.Token1 event.Token2 event.Cutoff
    let event := collectCutoffPairOrders orders event
    let model := dao.CutOffPairEvent.zero.ConvertDown event
    let model := { model with Fork := false }
    let w := om.written (om.rds.Add f (dao.Model.CutOffPairEvent model))
    (w.1, event, w.2)

/-! ## Event handlers -/

/-- The method `handleSubmitRingMethod`: only failed and pending events are recorded; an error
of the save is logged and `nil` is returned. -/
def OrderManagerImpl.handleSubmitRingMethod (f : Faults) (om : OrderManagerImpl)
    (event : types.SubmitRingMethodEvent) : Result :=
  if event.Status ≠ types.TxStatus.TX_STATUS_FAILED ∧ event.Status ≠ types.TxStatus.TX_STATUS_PENDING then
    Result.ok om
  else
    match om.saveSubmitRingEvent f event with
    | (om, some err) => { om := om, err := none, notified := [], logged := [err] }
    | (om, none) => Result.ok om

/-- The method `handleGatewayOrder`: build the row, insert it, publish the order update. -/
def OrderManagerImpl.handleGatewayOrder (env : Env) (f : Faults) (om : OrderManagerImpl)
    (state : types.OrderState) : Result :=
  match env.NewOrderEntity state with
  | none => { om := om, err := some Err.buildFailed, notified := [], logged := [Err.buildFailed] }
  | some model =>
    match om.rds.Add f (dao.Model.Order model) with
    | .error err => Result.fail om err
    | .ok rds => { om := { om with rds := rds }, err := none, notified := [Notification.OrderUpdate state], logged := [] }

/-- The method `handleRingMined`: only successful events are recorded; an error of the save is
logged and `nil` is returned. -/
def OrderManagerImpl.handleRingMined (f : Faults) (om : OrderManagerImpl)
    (event : types.RingMinedEvent) : Result :=
  if event.Status ≠ types.TxStatus.TX_STATUS_SUCCESS then Result.ok om
  else
    match om.saveRingMinedEvent f event with
    | (om, some err) => { om := om, err := none, notified := [], logged := [err] }
    | (om, none) => Result.ok om

/-- The method `handleOrderFilled`. -/
def OrderManagerImpl.handleOrderFilled (env : Env) (f : Faults) (om : OrderManagerImpl)
    (event : types.OrderFilledEvent) : Result :=
  if event.Status ≠ types.TxStatus.TX_STATUS_SUCCESS then Result.ok om
  else
    match om.rds.FindFillEvent event.TxHash (Int64 event.FillIndex) with
    | some _ => Result.ok om
    | none =>
      match om.rds.GetOrderByHash event.OrderHash with
      | none => Result.fail om Err.notFound
      | some model =>
        match model.ConvertUp f with
        | none => Result.fail om Err.convertFailed
        | some state =>
          let newFillModel := dao.FillEvent.zero.ConvertDown event
          let newFillModel := { newFillModel with
            Fork := false,
            OrderType := state.RawOrder.OrderType,
            Side := env.GetSide event.TokenS event.TokenB,
            Market := env.WrapMarketByAddress event.TokenB event.TokenS }
          match om.rds.Add f (dao.Model.FillEvent newFillModel) with
          | .error err => Result.fail om err
          | .ok rds =>
            let om := { om with rds := rds }
            if state.Status = types.OrderStatus.ORDER_CUTOFF ∨ state.Status = types.OrderStatus.ORDER_FINISHED
                ∨ state.Status = types.OrderStatus.ORDER_UNKNOWN then
              Result.ok om
            else
              let state := { state with
                UpdatedBlock := event.BlockNumber,
                DealtAmountS := state.DealtAmountS + event.AmountS,
                DealtAmountB := state.DealtAmountB + event.AmountB,
                SplitAmountS := state.SplitAmountS + event.SplitS,
                SplitAmountB := state.SplitAmountB + event.SplitB }
              let state := { state with Status := env.SettleOrderStatus state false }
              match model.ConvertDown f state with
              | none => { om := om, err := some Err.convertFailed, notified := [], logged := [Err.convertFailed] }
              | some _ =>
                match om.rds.UpdateOrderWhileFill f state.RawOrder.Hash state.Status state.DealtAmountS
                    state.DealtAmountB state.SplitAmountS state.SplitAmountB state.UpdatedBlock with
                | .error err => Result.fail om err
                | .ok rds =>
                  { om := { om with rds := rds }, err := none,
                    notified := [Notification.OrderFilled newFillModel], logged := [] }

/-- The method `handleOrderCancelled`. -/
def OrderManagerImpl.handleOrderCancelled (env : Env) (f : Faults) (om : OrderManagerImpl)
    (event : types.OrderCancelledEvent) : Result :=
  match om.saveCancelEvent f event with
  | (om, some err) => { om := om, err := none, notified := [], logged := [err] }
  | (om, none) =>
    match om.rds.GetOrderByHash event.OrderHash with
    | none => Result.fail om Err.notFound
    | some orderentity =>
      match orderentity.ConvertUp f with
      | none => Result.fail om Err.convertFailed
      | some state =>
        let state :=
          if state.RawOrder.BuyNoMoreThanAmountB then
            { state with CancelledAmountB := state.CancelledAmountB + event.AmountCancelled }
          else
            { state with CancelledAmountS := state.CancelledAmountS + event.AmountCancelled }
        let state := { state with Status := env.SettleOrderStatus state true }
        let state := { state with UpdatedBlock := event.BlockNumber }
        match orderentity.ConvertDown f state with
        | none => Result.fail om Err.convertFailed
        | some _ =>
          match om.rds.UpdateOrderWhileCancel f state.RawOrder.Hash state.Status state.CancelledAmountS
              state.CancelledAmountB state.UpdatedBlock with
          | .error err => Result.fail om err
          | .ok rds =>
            { om := { om with rds := rds }, err := none,
              notified := [Notification.OrderUpdate state], logged := [] }

/-- The call `om.rds.SetCutOffOrders(...)` of the two cutoff handlers, whose returned error is
not looked at. -/
def OrderManagerImpl.setCutOffOrders (f : Faults) (om : OrderManagerImpl)
    (orderHashList : List common.Hash) (blockNumber : Int) : OrderManagerImpl :=
  match om.rds.SetCutOffOrders f orderHashList blockNumber with
  | .ok rds => { om with rds := rds }
  | .error _ => om

/-- The method `handleCutoff`. -/
def OrderManagerImpl.handleCutoff (env : Env) (f : Faults) (om : OrderManagerImpl)
    (event : types.CutoffEvent) : Result :=
  match om.saveCutoffEvent env f event with
  | (om, _, some err) => { om := om, err := none, notified := [], logged := [err] }
  | (om, event, none) =>
    if event.Status ≠ types.TxStatus.TX_STATUS_SUCCESS then Result.ok om
    else
      let lastCutoff := om.cutoffCache.GetCutoff event.Protocol event.Owner
      if event.Cutoff < lastCutoff then Result.ok om
      else
        let om := { om with cutoffCache := om.cutoffCache.UpdateCutoff event.Protocol event.Owner event.Cutoff }
        let om := om.setCutOffOrders f event.OrderHashList event.BlockNumber
        { om := om, err := none, notified := [Notification.Cutoff event], logged := [] }

/-- The method `handleCutoffPair`. -/
def OrderManagerImpl.handleCutoffPair (env : Env) (f : Faults) (om : OrderManagerImpl)
    (event : types.CutoffPairEvent) : Result :=
  match om.saveCutoffPairEvent env f event with
  | (om, _, some err) => { om := om, err := none, notified := [], logged := [err] }
  | (om, event, none) =>
    if event.Status ≠ types.TxStatus.TX_STATUS_SUCCESS then Result.ok om
    else
      let last := om.cutoffCache.GetCutoffPair event.Protocol event.Owner event.Token1 event.Token2
      if event.Cutoff < last then Result.ok om
      else
        let om := { om with cutoffCache :=
          om.cutoffCache.UpdateCutoffPair event.Protocol event.Owner event.Token1 event.Token2 event.Cutoff }
        let om := om.setCutOffOrders f event.OrderHashList event.BlockNumber
        { om := om, err := none, notified := [Notification.CutoffPair event], logged := [] }

/-! ## Records that make a redelivered event a duplicate -/

/-- A ring-mined record with the given transaction hash is stored, and the one the lookup
returns has the given status. -/
def RingRecorded (om : OrderManagerImpl) (txhash : common.Hash) (status : types.TxStatus) : Prop :=
  (om.rds.FindRingMined txhash).map (fun r => r.2.Status) = some status

instance (om : OrderManagerImpl) (txhash : common.Hash) (status : types.TxStatus) :
    Decidable (RingRecorded om txhash status) := by
  unfold RingRecorded
  infer_instance

/-- A cancel record with the given transaction hash is stored, and the one the lookup returns
has the given status. -/
def CancelRecorded (om : OrderManagerImpl) (txhash : common.Hash) (status : types.TxStatus) : Prop :=
  (om.rds.GetCancelEvent txhash).map (fun r => r.2.Status) = some status

instance (om : OrderManagerImpl) (txhash : common.Hash) (status : types.TxStatus) :
    Decidable (CancelRecorded om txhash status) := by
  unfold CancelRecorded
  infer_instance

/-- A cutoff record with the given transaction hash is stored, and the one the lookup returns
has the given status. -/
def CutoffRecorded (om : OrderManagerImpl) (txhash : common.Hash) (status : types.TxStatus) : Prop :=
  (om.rds.GetCutoffEvent txhash).map (fun r => r.2.Status) = some status

instance (om : OrderManagerImpl) (txhash : common.Hash) (status : types.TxStatus) :
    Decidable (CutoffRecorded om txhash status) := by
  unfold CutoffRecorded
  infer_instance

/-- A cutoff-pair record with the given transaction hash is stored, and the one the lookup
returns has the given status. -/
def CutoffPairRecorded (om : OrderManagerImpl) (txhash : common.Hash) (status : types.TxStatus) : Prop :=
  (om.rds.GetCutoffPairEvent txhash).map (fun r => r.2.Status) = some status

instance (om : OrderManagerImpl) (txhash : common.Hash) (status : types.TxStatus) :
    Decidable (CutoffPairRecorded om txhash status) := by
  unfold CutoffPairRecorded
  infer_instance

/-! ## Counting registrations -/

/-- The number of watchers registered on a topic. -/
def eventemitter.count (reg : eventemitter.Registry) (topic : eventemitter.Topic) : Nat :=
  reg.countP (fun r => decide (r.1 = topic))

/-- The process after handling the given fork events one after the other, `none` when the fork
processor failed on one of them. -/
def Process.handleForks (env : Env) (p : Process) : List types.ForkedEvent → Option Process
  | [] => some p
  | input :: rest =>
    match p.handleFork env input with
    | none => none
    | some r => Process.handleForks env r.1 rest

/-! ## Sequences of ring-mined and submit-ring invocations -/

/-- One invocation of one of the two handlers that write ring-mined records, with the store
calls that fail during it. -/
inductive RingCall where
  | ringMined (f : Faults) (event : types.RingMinedEvent)
  | submitRing (f : Faults) (event : types.SubmitRingMethodEvent)

/-- The manager after one invocation. -/
def RingCall.run (om : OrderManagerImpl) : RingCall → OrderManagerImpl
  | RingCall.ringMined f event => (om.handleRingMined f event).om
  | RingCall.submitRing f event => (om.handleSubmitRingMethod f event).om

/-- The invocation is `handleSubmitRingMethod` on a pending event for the transaction `h`. -/
def RingCall.isPendingSubmit (h : common.Hash) : RingCall → Bool
  | RingCall.ringMined _ _ => false
  | RingCall.submitRing _ event =>
    decide (event.TxHash = h ∧ event.Status = types.TxStatus.TX_STATUS_PENDING)

/-- The manager after a sequence of invocations. -/
def OrderManagerImpl.runRingCalls (om : OrderManagerImpl) (cs : List RingCall) : OrderManagerImpl :=
  cs.foldl RingCall.run om

/-! ## Sequences of fill and cancel invocations -/

/-- The manager after `handleOrderFilled` has handled the given events one after the other,
each with the store calls that fail during it. -/
def OrderManagerImpl.runFills (env : Env) (om : OrderManagerImpl) :
    List (Faults × types.OrderFilledEvent) → OrderManagerImpl
  | [] => om
  | step :: rest => OrderManagerImpl.runFills env (om.handleOrderFilled env step.1 step.2).om rest

/-- The manager after `handleOrderCancelled` has handled the given events one after the other,
each with the store calls that fail during it. -/
def OrderManagerImpl.runCancels (env : Env) (om : OrderManagerImpl) :
    List (Faults × types.OrderCancelledEvent) → OrderManagerImpl
  | [] => om
  | step :: rest => OrderManagerImpl.runCancels env (om.handleOrderCancelled env step.1 step.2).om rest

/-! ## Concrete inputs for the examples -/

/-- An environment for the examples: an order with nothing dealt or cancelled is new, one whose
sold amount is used up is finished (cancelled when settling a cancel), any other is partially
filled; the cutoff queries return no order; orders are built from the submitted state; the fork
processor leaves the store as it is. -/
def exampleEnv : Env :=
  { SettleOrderStatus := fun st isCancel =>
      if st.DealtAmountS + st.CancelledAmountS = 0 ∧ st.DealtAmountB + st.CancelledAmountB = 0 then
        types.OrderStatus.ORDER_NEW
      else if st.RawOrder.AmountS ≤ st.DealtAmountS + st.CancelledAmountS then
        (if isCancel then types.OrderStatus.ORDER_CANCEL else types.OrderStatus.ORDER_FINISHED)
      else types.OrderStatus.ORDER_PARTIAL,
    NewOrderEntity := fun st => (dao.Order.ConvertDown Faults.none
      { OrderHash := 0, Owner := 0, TokenS := 0, TokenB := 0, AmountS := 0, AmountB := 0,
        BuyNoMoreThanAmountB := false, OrderType := "", DealtAmountS := 0, DealtAmountB := 0,
        SplitAmountS := 0, SplitAmountB := 0, CancelledAmountS := 0, CancelledAmountB := 0,
        Status := types.OrderStatus.ORDER_NEW, UpdatedBlock := 0 } st),
    GetCutoffOrders := fun _ _ _ => [],
    GetCutoffPairOrders := fun _ _ _ _ _ => [],
    Fork := fun rds _ => some rds,
    GetSide := fun _ _ => "sell",
    WrapMarketByAddress := fun _ _ => "LRC-WETH" }

/-- An order that sells 100 for 200, with the given hash, status and flag, nothing dealt. -/
def exampleOrder (hash : common.Hash) (status : types.OrderStatus) (buyNoMoreThanAmountB : Bool) : dao.Order :=
  { OrderHash := hash, Owner := 1, TokenS := 10, TokenB := 20, AmountS := 100, AmountB := 200,
    BuyNoMoreThanAmountB := buyNoMoreThanAmountB, OrderType := "market_order",
    DealtAmountS := 0, DealtAmountB := 0, SplitAmountS := 0, SplitAmountB := 0,
    CancelledAmountS := 0, CancelledAmountB := 0, Status := status, UpdatedBlock := 5 }

/-- A store that holds the given orders and no event record. -/
def exampleStore (orders : List dao.Order) : dao.RdsService :=
  { orders := orders, fillEvents := [], cancelEvents := [], cutoffEvents := [],
    cutoffPairEvents := [], ringMinedEvents := [] }

/-- A fill of 40 sold for 80 bought on order 7, in transaction 900 at block 12. -/
def exampleFill : types.OrderFilledEvent :=
  { TxHash := 900, Status := types.TxStatus.TX_STATUS_SUCCESS, BlockNumber := 12, FillIndex := 0,
    OrderHash := 7, TokenS := 10, TokenB := 20, AmountS := 40, AmountB := 80, SplitS := 1, SplitB := 2 }

/-- The manager of the fill example: a fresh manager over a store that holds order 7, new. -/
def exampleOm : OrderManagerImpl :=
  NewOrderManager (exampleStore [exampleOrder 7 types.OrderStatus.ORDER_NEW false])

/-- The manager of the terminal-order example: order 7 is finished, order 8 is new. -/
def exampleOmFinished : OrderManagerImpl :=
  NewOrderManager (exampleStore
    [exampleOrder 7 types.OrderStatus.ORDER_FINISHED false, exampleOrder 8 types.OrderStatus.ORDER_NEW false])

/-- A successful cutoff of owner 1 on protocol 100. -/
def exampleCutoff (txHash : common.Hash) (cutoff blockNumber : Int) (orderHashList : List common.Hash) :
    types.CutoffEvent :=
  { TxHash := txHash, Status := types.TxStatus.TX_STATUS_SUCCESS, BlockNumber := blockNumber,
    Protocol := 100, Owner := 1, Cutoff := cutoff, OrderHashList := orderHashList }

/-- A successful cutoff of owner 1 on protocol 100 for the token pair (10, 20). -/
def exampleCutoffPair (txHash : common.Hash) (cutoff blockNumber : Int) (orderHashList : List common.Hash) :
    types.CutoffPairEvent :=
  { TxHash := txHash, Status := types.TxStatus.TX_STATUS_SUCCESS, BlockNumber := blockNumber,
    Protocol := 100, Owner := 1, Token1 := 10, Token2 := 20, Cutoff := cutoff,
    OrderHashList := orderHashList }

/-- Three new orders 1, 2 and 3 and an empty cache. -/
def exampleOmThree : OrderManagerImpl :=
  NewOrderManager (exampleStore
    [exampleOrder 1 types.OrderStatus.ORDER_NEW false, exampleOrder 2 types.OrderStatus.ORDER_NEW false,
     exampleOrder 3 types.OrderStatus.ORDER_NEW false])

/-- The manager after CutoffAll(cutoff = 1000, orders 1 and 2) at block 50. -/
def exampleAfterCutoff : OrderManagerImpl :=
  (exampleOmThree.handleCutoff exampleEnv Faults.none (exampleCutoff 500 1000 50 [1, 2])).om

/-- The manager after CutoffPair(cutoff = 1000, orders 1 and 2) at block 50. -/
def exampleAfterCutoffPair : OrderManagerImpl :=
  (exampleOmThree.handleCutoffPair exampleEnv Faults.none (exampleCutoffPair 500 1000 50 [1, 2])).om

/-- A process whose manager was just constructed: nothing is registered. -/
def exampleProcess : Process :=
  { om := NewOrderManager (exampleStore []), registry := [], nextAddr := 0 }

/-- A fork event. -/
def exampleFork : types.ForkedEvent :=
  { ForkBlock := 10, DetectedBlock := 12 }

/-- A fresh manager over an empty store. -/
def exampleOmEmpty : OrderManagerImpl :=
  NewOrderManager (exampleStore [])

/-- The event RingMined(T = 77, status) of ring 3 at block 30. -/
def exampleRingMined (status : types.TxStatus) : types.RingMinedEvent :=
  { TxHash := 77, Status := status, BlockNumber := 30, Ringhash := 3 }

/-- The event SubmitRingMethod(T = 77, status) at block 29. -/
def exampleSubmitRing (status : types.TxStatus) : types.SubmitRingMethodEvent :=
  { TxHash := 77, Status := status, BlockNumber := 29 }

/-- The manager after SubmitRingMethod(T = 77, pending) on an empty store. -/
def exampleAfterSubmit : OrderManagerImpl :=
  (exampleOmEmpty.handleSubmitRingMethod Faults.none (exampleSubmitRing types.TxStatus.TX_STATUS_PENDING)).om

/-- The manager after SubmitRingMethod(T, pending) and then RingMined(T, success). -/
def exampleAfterMined : OrderManagerImpl :=
  (exampleAfterSubmit.handleRingMined Faults.none (exampleRingMined types.TxStatus.TX_STATUS_SUCCESS)).om

/-- A cancel of 30 on order 7 in transaction 901 at block 15. -/
def exampleCancel (status : types.TxStatus) : types.OrderCancelledEvent :=
  { TxHash := 901, Status := status, BlockNumber := 15, OrderHash := 7, AmountCancelled := 30 }

/-- A fresh manager over a store that holds order 7, whose flag "buy no more than amountB" is
as given. -/
def exampleOmFlag (buyNoMoreThanAmountB : Bool) : OrderManagerImpl :=
  NewOrderManager (exampleStore [exampleOrder 7 types.OrderStatus.ORDER_NEW buyNoMoreThanAmountB])

/-- The record SubmitRingMethod(T = 77, pending) leaves. -/
def exampleRowPending : dao.RingMinedEvent :=
  { TxHash := 77, Status := types.TxStatus.TX_STATUS_PENDING, BlockNumber := 29, RingHash := 0,
    Fork := false }

/-- The record RingMined(T = 77, success) leaves. -/
def exampleRowSuccess : dao.RingMinedEvent :=
  { TxHash := 77, Status := types.TxStatus.TX_STATUS_SUCCESS, BlockNumber := 30, RingHash := 3,
    Fork := false }

/-- A second fill on order 7: 10 sold for 20 bought, in transaction 902 at block 13. -/
def exampleFill2 : types.OrderFilledEvent :=
  { TxHash := 902, Status := types.TxStatus.TX_STATUS_SUCCESS, BlockNumber := 13, FillIndex := 1,
    OrderHash := 7, TokenS := 10, TokenB := 20, AmountS := 10, AmountB := 20, SplitS := 0, SplitB := 0 }

/-- A second cancel on order 7: 5 in transaction 903 at block 16. -/
def exampleCancel2 : types.OrderCancelledEvent :=
  { TxHash := 903, Status := types.TxStatus.TX_STATUS_SUCCESS, BlockNumber := 16, OrderHash := 7,
    AmountCancelled := 5 }

/-- A cutoff of owner 1 on protocol 100 with the given transaction status. -/
def exampleCutoffWith (status : types.TxStatus) (txHash : common.Hash) (cutoff blockNumber : Int)
    (orderHashList : List common.Hash) : types.CutoffEvent :=
  { exampleCutoff txHash cutoff blockNumber orderHashList with Status := status }

/-- A cutoff of owner 1 on protocol 100 for the pair (10, 20) with the given transaction
status. -/
def exampleCutoffPairWith (status : types.TxStatus) (txHash : common.Hash) (cutoff blockNumber : Int)
    (orderHashList : List common.Hash) : types.CutoffPairEvent :=
  { exampleCutoffPair txHash cutoff blockNumber orderHashList with Status := status }

/-- The manager after a pending CutoffAll(cutoff = 1200, order 3) in transaction 504, handled
after the successful cutoff of the earlier example. -/
def exampleAfterPendingCutoff : OrderManagerImpl :=
  (exampleAfterCutoff.handleCutoff exampleEnv Faults.none
    (exampleCutoffWith types.TxStatus.TX_STATUS_PENDING 504 1200 80 [3])).om

/-- The record the pending cutoff of transaction 504 leaves. -/
def exampleRowPendingCutoff : dao.CutOffEvent :=
  { TxHash := 504, Status := types.TxStatus.TX_STATUS_PENDING, BlockNumber := 80, Protocol := 100,
    Owner := 1, Cutoff := 1200, OrderHashList := [3], Fork := false }

/-- Every insert into the store fails; nothing else does. -/
def exampleFaultsAdd : Faults :=
  { Faults.none with Add := true }

/-- Every full-row save fails; nothing else does. -/
def exampleFaultsSave : Faults :=
  { Faults.none with Save := true }

/-- The fill-path update of an order fails; nothing else does. -/
def exampleFaultsUpdateFill : Faults :=
  { Faults.none with UpdateOrderWhileFill := true }

/-- The cancel-path update of an order fails; nothing else does. -/
def exampleFaultsUpdateCancel : Faults :=
  { Faults.none with UpdateOrderWhileCancel := true }

/-- The compression of an order state into its row fails; nothing else does. -/
def exampleFaultsConvertDown : Faults :=
  { Faults.none with ConvertDown := true }

/-- The bulk cutoff update fails; nothing else does. -/
def exampleFaultsSetCutOff : Faults :=
  { Faults.none with SetCutOffOrders := true }

/-- A submitted order 9 that sells 100 for 200, as it arrives from the gateway. -/
def exampleState : types.OrderState :=
  { RawOrder :=
      { Hash := 9, Owner := 1, TokenS := 10, TokenB := 20, AmountS := 100, AmountB := 200,
        BuyNoMoreThanAmountB := false, OrderType := "market_order" },
    UpdatedBlock := 5, DealtAmountS := 0, DealtAmountB := 0, SplitAmountS := 0, SplitAmountB := 0,
    CancelledAmountS := 0, CancelledAmountB := 0, Status := types.OrderStatus.ORDER_NEW }

/-- An environment in which no order can be built from a submission. -/
def exampleEnvNoBuild : Env :=
  { exampleEnv with NewOrderEntity := fun _ => none }

/-- An environment whose cutoff queries return every stored order of the owner. -/
def exampleEnvQuery : Env :=
  { exampleEnv with
    GetCutoffOrders := fun orders owner _ => orders.filter (fun o => decide (o.Owner = owner)),
    GetCutoffPairOrders := fun orders owner _ _ _ => orders.filter (fun o => decide (o.Owner = owner)) }

/-- A fill event on order 7 whose amounts are negative: -7 sold, -9 bought, in transaction 904
at block 14. -/
def exampleFillNegative : types.OrderFilledEvent :=
  { TxHash := 904, Status := types.TxStatus.TX_STATUS_SUCCESS, BlockNumber := 14, FillIndex := 2,
    OrderHash := 7, TokenS := 10, TokenB := 20, AmountS := -7, AmountB := -9, SplitS := 0, SplitB := 0 }

/-- A cancel event on order 7 whose amount is negative: -30, in transaction 905 at block 17. -/
def exampleCancelNegative : types.OrderCancelledEvent :=
  { TxHash := 905, Status := types.TxStatus.TX_STATUS_SUCCESS, BlockNumber := 17, OrderHash := 7,
    AmountCancelled := -30 }

/-! ## Lemmas on table lookups -/

theorem dao.findRow_prop {α : Type} (p : α → Bool) (l : List α) (r : Nat × α)
    (h : dao.findRow p l = some r) : p r.2 = true := by
  induction l generalizing r with
  | nil => simp [dao.findRow] at h
  | cons x xs ih =>
    unfold dao.findRow at h
    by_cases hx : p x = true
    · simp [hx] at h
      subst h
      exact hx
    · simp [hx] at h
      obtain ⟨a, b, hab, rfl⟩ := h
      exact ih (a, b) hab

theorem dao.findRow_map {α : Type} (p : α → Bool) (g : α → α) (hg : ∀ x, p (g x) = p x) (l : List α) :
    dao.findRow p (l.map g) = (dao.findRow p l).map (fun r => (r.1, g r.2)) := by
  induction l with
  | nil => simp [dao.findRow]
  | cons x xs ih =>
    simp only [List.map_cons, dao.findRow, hg]
    by_cases hx : p x = true
    · simp [hx]
    · simp [hx, ih, Option.map_map, Function.comp_def]

theorem dao.findRow_append_of_some {α : Type} (p : α → Bool) (l l' : List α) (r : Nat × α)
    (h : dao.findRow p l = some r) : dao.findRow p (l ++ l') = some r := by
  induction l generalizing r with
  | nil => simp [dao.findRow] at h
  | cons x xs ih =>
    simp only [List.cons_append, dao.findRow] at h ⊢
    by_cases hx : p x = true
    · simpa [hx] using h
    · simp only [hx] at h ⊢
      simp only [Bool.false_eq_true, if_false, Option.map_eq_some'] at h ⊢
      obtain ⟨a, ha, rfl⟩ := h
      exact ⟨a, ih a ha, rfl⟩

theorem dao.findRow_append_of_none {α : Type} (p : α → Bool) (l : List α) (x : α)
    (h : dao.findRow p l = none) :
    dao.findRow p (l ++ [x]) = if p x then some (l.length, x) else none := by
  induction l with
  | nil => simp [dao.findRow]
  | cons y ys ih =>
    simp only [List.cons_append, dao.findRow] at h ⊢
    by_cases hy : p y = true
    · simp [hy] at h
    · simp only [hy, Bool.false_eq_true, if_false, Option.map_eq_none'] at h ⊢
      have e : ys.append [x] = ys ++ [x] := rfl
      rw [e, ih h]
      by_cases hx : p x = true <;> simp [hx]

theorem dao.findRow_set_same {α : Type} (p : α → Bool) (l : List α) (i : Nat) (r m : α)
    (h : dao.findRow p l = some (i, r)) (hm : p m = true) :
    dao.findRow p (l.set i m) = some (i, m) := by
  induction l generalizing i with
  | nil => simp [dao.findRow] at h
  | cons x xs ih =>
    simp only [dao.findRow] at h
    by_cases hx : p x = true
    · simp only [hx, if_true, Option.some.injEq, Prod.mk.injEq] at h
      obtain ⟨rfl, rfl⟩ := h
      simp [dao.findRow, hm]
    · simp only [hx, Bool.false_eq_true, if_false, Option.map_eq_some'] at h
      obtain ⟨a, ha, hi⟩ := h
      obtain ⟨j, y⟩ := a
      simp only [Prod.mk.injEq] at hi
      obtain ⟨rfl, rfl⟩ := hi
      simp [dao.findRow, hx, ih j ha]

theorem dao.findRow_set_other {α : Type} (p q : α → Bool) (l : List α) (i : Nat) (r m : α)
    (h : dao.findRow p l = some (i, r)) (hr : q r = false) (hm : q m = false) :
    dao.findRow q (l.set i m) = dao.findRow q l := by
  induction l generalizing i with
  | nil => simp [dao.findRow] at h
  | cons x xs ih =>
    simp only [dao.findRow] at h
    by_cases hx : p x = true
    · simp only [hx, if_true, Option.some.injEq, Prod.mk.injEq] at h
      obtain ⟨rfl, rfl⟩ := h
      simp [dao.findRow, hm, hr]
    · simp only [hx, Bool.false_eq_true, if_false, Option.map_eq_some'] at h
      obtain ⟨a, ha, hi⟩ := h
      obtain ⟨j, y⟩ := a
      simp only [Prod.mk.injEq] at hi
      obtain ⟨rfl, rfl⟩ := hi
      simp [dao.findRow, ih j ha]

/-! ## The loop over the orders a cutoff query returns -/

theorem collectCutoffOrders_eq (orders : List dao.Order) (event : types.CutoffEvent) :
    collectCutoffOrders orders event =
      if orders = [] then event else { event with OrderHashList := orders.map (fun v => v.OrderHash) } := by
  have key : ∀ (l : List dao.Order) (acc : List common.Hash) (ev : types.CutoffEvent),
      l.foldl
        (fun (acc : List common.Hash × types.CutoffEvent) v =>
          (acc.1 ++ [v.OrderHash], { acc.2 with OrderHashList := acc.1 ++ [v.OrderHash] }))
        (acc, ev) =
      (acc ++ l.map (fun v => v.OrderHash),
        if l = [] then ev else { ev with OrderHashList := acc ++ l.map (fun v => v.OrderHash) }) := by
    intro l
    induction l with
    | nil => intro acc ev; simp
    | cons x xs ih =>
      intro acc ev
      rw [List.foldl_cons, ih]
      by_cases hxs : xs = [] <;> simp [hxs]
  unfold collectCutoffOrders
  rw [key]
  simp

theorem collectCutoffPairOrders_eq (orders : List dao.Order) (event : types.CutoffPairEvent) :
    collectCutoffPairOrders orders event =
      if orders = [] then event else { event with OrderHashList := orders.map (fun v => v.OrderHash) } := by
  have key : ∀ (l : List dao.Order) (acc : List common.Hash) (ev : types.CutoffPairEvent),
      l.foldl
        (fun (acc : List common.Hash × types.CutoffPairEvent) v =>
          (acc.1 ++ [v.OrderHash], { acc.2 with OrderHashList := acc.1 ++ [v.OrderHash] }))
        (acc, ev) =
      (acc ++ l.map (fun v => v.OrderHash),
        if l = [] then ev else { ev with OrderHashList := acc ++ l.map (fun v => v.OrderHash) }) := by
    intro l
    induction l with
    | nil => intro acc ev; simp
    | cons x xs ih =>
      intro acc ev
      rw [List.foldl_cons, ih]
      by_cases hxs : xs = [] <;> simp [hxs]
  unfold collectCutoffPairOrders
  rw [key]
  simp

theorem collectCutoffOrders_fields (orders : List dao.Order) (event : types.CutoffEvent) :
    (collectCutoffOrders orders event).TxHash = event.TxHash ∧
    (collectCutoffOrders orders event).Status = event.Status ∧
    (collectCutoffOrders orders event).BlockNumber = event.BlockNumber ∧
    (collectCutoffOrders orders event).Protocol = event.Protocol ∧
    (collectCutoffOrders orders event).Owner = event.Owner ∧
    (collectCutoffOrders orders event).Cutoff = event.Cutoff := by
  rw [collectCutoffOrders_eq]
  by_cases h : orders = [] <;> simp [h]

theorem collectCutoffPairOrders_fields (orders : List dao.Order) (event : types.CutoffPairEvent) :
    (collectCutoffPairOrders orders event).TxHash = event.TxHash ∧
    (collectCutoffPairOrders orders event).Status = event.Status ∧
    (collectCutoffPairOrders orders event).BlockNumber = event.BlockNumber ∧
    (collectCutoffPairOrders orders event).Protocol = event.Protocol ∧
    (collectCutoffPairOrders orders event).Owner = event.Owner ∧
    (collectCutoffPairOrders orders event).Token1 = event.Token1 ∧
    (collectCutoffPairOrders orders event).Token2 = event.Token2 ∧
    (collectCutoffPairOrders orders event).Cutoff = event.Cutoff := by
  rw [collectCutoffPairOrders_eq]
  by_cases h : orders = [] <;> simp [h]

/-! ## Stored records -/

theorem RingRecorded_iff (om : OrderManagerImpl) (txhash : common.Hash) (status : types.TxStatus) :
    RingRecorded om txhash status ↔
      ∃ id m, om.rds.FindRingMined txhash = some (id, m) ∧ m.Status = status := by
  unfold RingRecorded
  cases om.rds.FindRingMined txhash with
  | none => simp
  | some r =>
    obtain ⟨id, m⟩ := r
    constructor
    · intro h
      exact ⟨id, m, rfl, by simpa using h⟩
    · rintro ⟨i, n, h1, h2⟩
      simp only [Option.some.injEq, Prod.mk.injEq] at h1
      obtain ⟨rfl, rfl⟩ := h1
      simpa using h2

theorem CancelRecorded_iff (om : OrderManagerImpl) (txhash : common.Hash) (status : types.TxStatus) :
    CancelRecorded om txhash status ↔
      ∃ id m, om.rds.GetCancelEvent txhash = some (id, m) ∧ m.Status = status := by
  unfold CancelRecorded
  cases om.rds.GetCancelEvent txhash with
  | none => simp
  | some r =>
    obtain ⟨id, m⟩ := r
    constructor
    · intro h
      exact ⟨id, m, rfl, by simpa using h⟩
    · rintro ⟨i, n, h1, h2⟩
      simp only [Option.some.injEq, Prod.mk.injEq] at h1
      obtain ⟨rfl, rfl⟩ := h1
      simpa using h2

theorem CutoffRecorded_iff (om : OrderManagerImpl) (txhash : common.Hash) (status : types.TxStatus) :
    CutoffRecorded om txhash status ↔
      ∃ id m, om.rds.GetCutoffEvent txhash = some (id, m) ∧ m.Status = status := by
  unfold CutoffRecorded
  cases om.rds.GetCutoffEvent txhash with
  | none => simp
  | some r =>
    obtain ⟨id, m⟩ := r
    constructor
    · intro h
      exact ⟨id, m, rfl, by simpa using h⟩
    · rintro ⟨i, n, h1, h2⟩
      simp only [Option.some.injEq, Prod.mk.injEq] at h1
      obtain ⟨rfl, rfl⟩ := h1
      simpa using h2

theorem CutoffPairRecorded_iff (om : OrderManagerImpl) (txhash : common.Hash) (status : types.TxStatus) :
    CutoffPairRecorded om txhash status ↔
      ∃ id m, om.rds.GetCutoffPairEvent txhash = some (id, m) ∧ m.Status = status := by
  unfold CutoffPairRecorded
  cases om.rds.GetCutoffPairEvent txhash with
  | none => simp
  | some r =>
    obtain ⟨id, m⟩ := r
    constructor
    · intro h
      exact ⟨id, m, rfl, by simpa using h⟩
    · rintro ⟨i, n, h1, h2⟩
      simp only [Option.some.injEq, Prod.mk.injEq] at h1
      obtain ⟨rfl, rfl⟩ := h1
      simpa using h2

theorem dao.findRow_append_new {α : Type} (p : α → Bool) (l : List α) (x : α)
    (h : dao.findRow p l = none) (hx : p x = true) :
    dao.findRow p (l ++ [x]) = some (l.length, x) := by
  rw [dao.findRow_append_of_none p l x h, if_pos hx]

/-! ## Fills -/

/-- C1: a successful fill that has no persisted record yet, on an existing order whose status
is not cutoff, finished or unknown, with no failing store call, persists each of the four dealt
and split amounts as the previous value plus the event's amount and sets the updated block to
the event's block; the handler returns no error and the cancelled amounts stay. -/
theorem handleOrderFilled_accumulates (env : Env) (om : OrderManagerImpl)
    (event : types.OrderFilledEvent) (o : dao.Order)
    (hs : event.Status = types.TxStatus.TX_STATUS_SUCCESS)
    (hnew : om.rds.FindFillEvent event.TxHash (Int64 event.FillIndex) = none)
    (ho : om.rds.GetOrderByHash event.OrderHash = some o)
    (hst : o.Status ≠ types.OrderStatus.ORDER_CUTOFF ∧ o.Status ≠ types.OrderStatus.ORDER_FINISHED
      ∧ o.Status ≠ types.OrderStatus.ORDER_UNKNOWN) :
    (om.handleOrderFilled env Faults.none event).err = none ∧
    ∃ o', (om.handleOrderFilled env Faults.none event).om.rds.GetOrderByHash event.OrderHash = some o' ∧
      o'.DealtAmountS = o.DealtAmountS + event.AmountS ∧
      o'.DealtAmountB = o.DealtAmountB + event.AmountB ∧
      o'.SplitAmountS = o.SplitAmountS + event.SplitS ∧
      o'.SplitAmountB = o.SplitAmountB + event.SplitB ∧
      o'.UpdatedBlock = event.BlockNumber ∧
      o'.CancelledAmountS = o.CancelledAmountS ∧
      o'.CancelledAmountB = o.CancelledAmountB := by
  obtain ⟨h1, h2, h3⟩ := hst
  have hkey : o.OrderHash = event.OrderHash := by
    unfold dao.RdsService.GetOrderByHash at ho
    cases hf : dao.findRow (fun o => decide (o.OrderHash = event.OrderHash)) om.rds.orders with
    | none => simp [hf] at ho
    | some r =>
      have hp := dao.findRow_prop _ _ r hf
      simp [hf] at ho
      subst ho
      simpa using hp
  unfold dao.RdsService.GetOrderByHash at ho
  simp only [OrderManagerImpl.handleOrderFilled, hs, hnew, dao.RdsService.GetOrderByHash, ho,
    dao.Order.ConvertUp, Faults.none, dao.RdsService.Add, dao.Order.ConvertDown,
    dao.RdsService.UpdateOrderWhileFill, h1, h2, h3, ne_eq, not_true_eq_false, if_false,
    Bool.false_eq_true, or_self, true_and, hkey]
  rw [dao.findRow_map _ _ (by intro x; by_cases hx : x.OrderHash = event.OrderHash <;> simp [hx])]
  rw [Option.map_map]
  cases hf : dao.findRow (fun o => decide (o.OrderHash = event.OrderHash)) om.rds.orders with
  | none => simp [hf] at ho
  | some r =>
    simp [hf] at ho
    subst ho
    simp [hkey]

/-- C1, at a concrete input: order 7 with nothing dealt receives Fill(amountS = 40,
amountB = 80) and ends with dealtAmountS = 40 and dealtAmountB = 80. -/
theorem handleOrderFilled_accumulates_witness :
    (exampleFill.Status = types.TxStatus.TX_STATUS_SUCCESS ∧
      exampleOm.rds.FindFillEvent exampleFill.TxHash (Int64 exampleFill.FillIndex) = none ∧
      exampleOm.rds.GetOrderByHash exampleFill.OrderHash
        = some (exampleOrder 7 types.OrderStatus.ORDER_NEW false)) ∧
    ((exampleOm.handleOrderFilled exampleEnv Faults.none exampleFill).err = none ∧
      ∃ o', (exampleOm.handleOrderFilled exampleEnv Faults.none exampleFill).om.rds.GetOrderByHash
          exampleFill.OrderHash = some o' ∧
        o'.DealtAmountS = (exampleOrder 7 types.OrderStatus.ORDER_NEW false).DealtAmountS + exampleFill.AmountS ∧
        o'.DealtAmountB = (exampleOrder 7 types.OrderStatus.ORDER_NEW false).DealtAmountB + exampleFill.AmountB ∧
        o'.SplitAmountS = (exampleOrder 7 types.OrderStatus.ORDER_NEW false).SplitAmountS + exampleFill.SplitS ∧
        o'.SplitAmountB = (exampleOrder 7 types.OrderStatus.ORDER_NEW false).SplitAmountB + exampleFill.SplitB ∧
        o'.UpdatedBlock = exampleFill.BlockNumber ∧
        o'.CancelledAmountS = (exampleOrder 7 types.OrderStatus.ORDER_NEW false).CancelledAmountS ∧
        o'.CancelledAmountB = (exampleOrder 7 types.OrderStatus.ORDER_NEW false).CancelledAmountB) ∧
    ((exampleOm.handleOrderFilled exampleEnv Faults.none exampleFill).om.rds.GetOrderByHash 7).map
        (fun o => (o.DealtAmountS, o.DealtAmountB)) = some (40, 80) :=
  ⟨⟨by decide, by decide, by decide⟩,
    handleOrderFilled_accumulates exampleEnv exampleOm exampleFill
      (exampleOrder 7 types.OrderStatus.ORDER_NEW false) (by decide) (by decide) (by decide)
      ⟨by decide, by decide, by decide⟩,
    by decide⟩

/-! ## Redelivery of an event -/

theorem OrderManagerImpl.written_rds_of_error (om : OrderManagerImpl) (r : Except Err dao.RdsService)
    (e : Err) (h : (om.written r).2 = some e) : (om.written r).1 = om := by
  cases r with
  | ok rds => simp [OrderManagerImpl.written] at h
  | error e' => simp [OrderManagerImpl.written]

/-- Once a fill record for the event's key is stored, `handleOrderFilled` leaves the manager
as it is. -/
theorem handleOrderFilled_of_recorded (env : Env) (f : Faults) (om : OrderManagerImpl)
    (event : types.OrderFilledEvent)
    (h : (om.rds.FindFillEvent event.TxHash (Int64 event.FillIndex)).isSome = true) :
    om.handleOrderFilled env f event = Result.ok om := by
  unfold OrderManagerImpl.handleOrderFilled
  cases hf : om.rds.FindFillEvent event.TxHash (Int64 event.FillIndex) with
  | none => simp [hf] at h
  | some r => simp

/-- The handler `handleOrderFilled` either leaves the manager as it is or leaves a fill record
for the event's key in the store. -/
theorem handleOrderFilled_unchanged_or_recorded (env : Env) (f : Faults) (om : OrderManagerImpl)
    (event : types.OrderFilledEvent) :
    (om.handleOrderFilled env f event).om = om ∨
    ((om.handleOrderFilled env f event).om.rds.FindFillEvent event.TxHash (Int64 event.FillIndex)).isSome = true := by
  unfold OrderManagerImpl.handleOrderFilled
  by_cases hs : event.Status = types.TxStatus.TX_STATUS_SUCCESS
  swap
  · simp [hs, Result.ok]
  simp only [hs, ne_eq, not_true_eq_false, if_false]
  cases hfind : om.rds.FindFillEvent event.TxHash (Int64 event.FillIndex) with
  | some r => simp [Result.ok]
  | none =>
    simp only []
    cases ho : om.rds.GetOrderByHash event.OrderHash with
    | none => simp [Result.fail]
    | some model =>
      simp only []
      cases hup : model.ConvertUp f with
      | none => simp [Result.fail]
      | some state =>
        simp only []
        by_cases hadd : f.Add = true
        · simp [dao.RdsService.Add, hadd, Result.fail]
        · right
          have hrec : ∀ (orders : List dao.Order) (x : dao.FillEvent),
              x.TxHash = event.TxHash → x.FillIndex = Int64 event.FillIndex →
              (dao.RdsService.FindFillEvent { om.rds with fillEvents := om.rds.fillEvents ++ [x], orders := orders }
                event.TxHash (Int64 event.FillIndex)).isSome = true := by
            intro orders x hx1 hx2
            unfold dao.RdsService.FindFillEvent at hfind ⊢
            simp only [Option.map_eq_none'] at hfind
            simp only [dao.findRow_append_of_none _ _ x hfind]
            simp [hx1, hx2]
          by_cases hcd : f.ConvertDown = true <;> by_cases hupd : f.UpdateOrderWhileFill = true <;>
            simp only [dao.RdsService.Add, dao.Order.ConvertDown, dao.RdsService.UpdateOrderWhileFill,
              hadd, hcd, hupd, Bool.false_eq_true, if_false, if_true, Result.ok, Result.fail] <;>
            split <;> (refine hrec _ _ ?_ ?_ <;> rfl)

/-- A handler step that either changes nothing or establishes a condition under which it
changes nothing gives the same result when run twice. -/
theorem twice_eq_once {σ : Type} (step : σ → σ) (P : σ → Prop)
    (hA : ∀ s, step s = s ∨ P (step s)) (hB : ∀ s, P s → step s = s) (s : σ) :
    step (step s) = step s := by
  rcases hA s with h | h
  · rw [h, h]
  · exact hB _ h

theorem saveRingMinedEvent_of_recorded (f : Faults) (om : OrderManagerImpl) (event : types.RingMinedEvent)
    (h : RingRecorded om event.TxHash event.Status) :
    om.saveRingMinedEvent f event = (om, some Err.alreadyExist) := by
  obtain ⟨id, m, hfind, hs⟩ := (RingRecorded_iff _ _ _).1 h
  simp [OrderManagerImpl.saveRingMinedEvent, hfind, hs]

theorem saveRingMinedEvent_unchanged_or_recorded (f : Faults) (om : OrderManagerImpl)
    (event : types.RingMinedEvent) :
    (om.saveRingMinedEvent f event).1 = om ∨
    RingRecorded (om.saveRingMinedEvent f event).1 event.TxHash event.Status := by
  unfold OrderManagerImpl.saveRingMinedEvent
  cases hfind : om.rds.FindRingMined event.TxHash with
  | none =>
    simp only []
    by_cases hadd : f.Add = true
    · left; simp [dao.RdsService.Add, hadd, OrderManagerImpl.written]
    · right
      unfold dao.RdsService.FindRingMined at hfind
      refine (RingRecorded_iff _ _ _).2 ⟨om.rds.ringMinedEvents.length, dao.RingMinedEvent.zero.ConvertDown event, ?_, rfl⟩
      simp only [dao.RdsService.Add, hadd, Bool.false_eq_true, if_false, OrderManagerImpl.written,
        dao.RdsService.FindRingMined]
      rw [dao.findRow_append_of_none _ _ _ hfind]
      simp [dao.RingMinedEvent.ConvertDown]
  | some r =>
    obtain ⟨id, m⟩ := r
    simp only []
    by_cases hs : m.Status = event.Status
    · left; simp [hs]
    · by_cases hsave : f.Save = true
      · left; simp [hs, dao.RdsService.Save, hsave, OrderManagerImpl.written]
      · right
        unfold dao.RdsService.FindRingMined at hfind
        refine (RingRecorded_iff _ _ _).2 ⟨id, m.ConvertDown event, ?_, rfl⟩
        simp only [hs, ne_eq, not_false_eq_true, if_true, dao.RdsService.Save, hsave,
          Bool.false_eq_true, if_false, OrderManagerImpl.written, dao.RdsService.FindRingMined]
        exact dao.findRow_set_same _ _ _ m _ hfind (by simp [dao.RingMinedEvent.ConvertDown])

theorem saveSubmitRingEvent_of_recorded (f : Faults) (om : OrderManagerImpl)
    (event : types.SubmitRingMethodEvent) (h : RingRecorded om event.TxHash event.Status) :
    om.saveSubmitRingEvent f event = (om, some Err.alreadyExist) := by
  obtain ⟨id, m, hfind, hs⟩ := (RingRecorded_iff _ _ _).1 h
  simp [OrderManagerImpl.saveSubmitRingEvent, hfind, hs]

theorem saveSubmitRingEvent_unchanged_or_recorded (f : Faults) (om : OrderManagerImpl)
    (event : types.SubmitRingMethodEvent) :
    (om.saveSubmitRingEvent f event).1 = om ∨
    RingRecorded (om.saveSubmitRingEvent f event).1 event.TxHash event.Status := by
  unfold OrderManagerImpl.saveSubmitRingEvent
  cases hfind : om.rds.FindRingMined event.TxHash with
  | none =>
    simp only []
    by_cases hadd : f.Add = true
    · left; simp [dao.RdsService.Add, hadd, OrderManagerImpl.written]
    · right
      unfold dao.RdsService.FindRingMined at hfind
      refine (RingRecorded_iff _ _ _).2 ⟨om.rds.ringMinedEvents.length, dao.RingMinedEvent.zero.FromSubmitRingMethod event, ?_, rfl⟩
      simp only [dao.RdsService.Add, hadd, Bool.false_eq_true, if_false, OrderManagerImpl.written,
        dao.RdsService.FindRingMined]
      rw [dao.findRow_append_of_none _ _ _ hfind]
      simp [dao.RingMinedEvent.FromSubmitRingMethod]
  | some r =>
    obtain ⟨id, m⟩ := r
    simp only []
    by_cases hs : m.Status = event.Status
    · left; simp [hs]
    · by_cases hsave : f.Save = true
      · left; simp [hs, dao.RdsService.Save, hsave, OrderManagerImpl.written]
      · right
        unfold dao.RdsService.FindRingMined at hfind
        refine (RingRecorded_iff _ _ _).2 ⟨id, m.FromSubmitRingMethod event, ?_, rfl⟩
        simp only [hs, ne_eq, not_false_eq_true, if_true, dao.RdsService.Save, hsave,
          Bool.false_eq_true, if_false, OrderManagerImpl.written, dao.RdsService.FindRingMined]
        exact dao.findRow_set_same _ _ _ m _ hfind (by simp [dao.RingMinedEvent.FromSubmitRingMethod])

theorem handleRingMined_om (f : Faults) (om : OrderManagerImpl) (event : types.RingMinedEvent) :
    (om.handleRingMined f event).om =
      if event.Status ≠ types.TxStatus.TX_STATUS_SUCCESS then om else (om.saveRingMinedEvent f event).1 := by
  unfold OrderManagerImpl.handleRingMined
  split
  · rfl
  · split <;> simp_all [Result.ok]

theorem handleSubmitRingMethod_om (f : Faults) (om : OrderManagerImpl) (event : types.SubmitRingMethodEvent) :
    (om.handleSubmitRingMethod f event).om =
      if event.Status ≠ types.TxStatus.TX_STATUS_FAILED ∧ event.Status ≠ types.TxStatus.TX_STATUS_PENDING
      then om else (om.saveSubmitRingEvent f event).1 := by
  unfold OrderManagerImpl.handleSubmitRingMethod
  split
  · rfl
  · split <;> simp_all [Result.ok]

theorem handleRingMined_twice (f : Faults) (om : OrderManagerImpl) (event : types.RingMinedEvent) :
    ((om.handleRingMined f event).om.handleRingMined f event).om = (om.handleRingMined f event).om := by
  refine twice_eq_once (fun o => (o.handleRingMined f event).om)
    (fun o => RingRecorded o event.TxHash event.Status) ?_ ?_ om
  · intro s
    simp only [handleRingMined_om]
    split
    · left; rfl
    · exact saveRingMinedEvent_unchanged_or_recorded f s event
  · intro s hs
    simp only [handleRingMined_om, saveRingMinedEvent_of_recorded f s event hs, ite_self]

theorem handleSubmitRingMethod_twice (f : Faults) (om : OrderManagerImpl)
    (event : types.SubmitRingMethodEvent) :
    ((om.handleSubmitRingMethod f event).om.handleSubmitRingMethod f event).om =
      (om.handleSubmitRingMethod f event).om := by
  refine twice_eq_once (fun o => (o.handleSubmitRingMethod f event).om)
    (fun o => RingRecorded o event.TxHash event.Status) ?_ ?_ om
  · intro s
    simp only [handleSubmitRingMethod_om]
    split
    · left; rfl
    · exact saveSubmitRingEvent_unchanged_or_recorded f s event
  · intro s hs
    simp only [handleSubmitRingMethod_om, saveSubmitRingEvent_of_recorded f s event hs, ite_self]

theorem handleOrderFilled_twice (env : Env) (f : Faults) (om : OrderManagerImpl)
    (event : types.OrderFilledEvent) :
    ((om.handleOrderFilled env f event).om.handleOrderFilled env f event).om =
      (om.handleOrderFilled env f event).om := by
  refine twice_eq_once (fun o => (o.handleOrderFilled env f event).om)
    (fun o => (o.rds.FindFillEvent event.TxHash (Int64 event.FillIndex)).isSome = true) ?_ ?_ om
  · intro s
    exact handleOrderFilled_unchanged_or_recorded env f s event
  · intro s hs
    simp only [handleOrderFilled_of_recorded env f s event hs, Result.ok]

theorem saveCancelEvent_of_recorded (f : Faults) (om : OrderManagerImpl) (event : types.OrderCancelledEvent)
    (h : CancelRecorded om event.TxHash event.Status) :
    om.saveCancelEvent f event = (om, some Err.alreadyExist) := by
  obtain ⟨id, m, hfind, hs⟩ := (CancelRecorded_iff _ _ _).1 h
  simp [OrderManagerImpl.saveCancelEvent, hfind, hs]

theorem saveCancelEvent_of_error (f : Faults) (om : OrderManagerImpl) (event : types.OrderCancelledEvent)
    (e : Err) (h : (om.saveCancelEvent f event).2 = some e) : (om.saveCancelEvent f event).1 = om := by
  unfold OrderManagerImpl.saveCancelEvent at h ⊢
  cases hfind : om.rds.GetCancelEvent event.TxHash with
  | none =>
    simp only [hfind] at h ⊢
    exact OrderManagerImpl.written_rds_of_error _ _ e h
  | some r =>
    obtain ⟨id, m⟩ := r
    simp only [hfind] at h ⊢
    split
    · rename_i hne
      rw [if_pos hne] at h
      exact OrderManagerImpl.written_rds_of_error _ _ e h
    · rfl

theorem saveCancelEvent_recorded_of_ok (f : Faults) (om : OrderManagerImpl) (event : types.OrderCancelledEvent)
    (h : (om.saveCancelEvent f event).2 = none) :
    CancelRecorded (om.saveCancelEvent f event).1 event.TxHash event.Status := by
  unfold OrderManagerImpl.saveCancelEvent at h ⊢
  cases hfind : om.rds.GetCancelEvent event.TxHash with
  | none =>
    simp only [hfind] at h ⊢
    by_cases hadd : f.Add = true
    · simp [dao.RdsService.Add, hadd, OrderManagerImpl.written] at h
    · unfold dao.RdsService.GetCancelEvent at hfind
      refine (CancelRecorded_iff _ _ _).2 ⟨om.rds.cancelEvents.length,
        { dao.CancelEvent.zero.ConvertDown event with Fork := false }, ?_, rfl⟩
      simp only [dao.RdsService.Add, hadd, Bool.false_eq_true, if_false, OrderManagerImpl.written,
        dao.RdsService.GetCancelEvent]
      rw [dao.findRow_append_of_none _ _ _ hfind]
      simp [dao.CancelEvent.ConvertDown]
  | some r =>
    obtain ⟨id, m⟩ := r
    simp only [hfind] at h ⊢
    by_cases hs : m.Status = event.Status
    · simp [hs] at h
    · by_cases hsave : f.Save = true
      · simp [hs, dao.RdsService.Save, hsave, OrderManagerImpl.written] at h
      · unfold dao.RdsService.GetCancelEvent at hfind
        refine (CancelRecorded_iff _ _ _).2 ⟨id, m.ConvertDown event, ?_, rfl⟩
        simp only [hs, ne_eq, not_false_eq_true, if_true, dao.RdsService.Save, hsave,
          Bool.false_eq_true, if_false, OrderManagerImpl.written, dao.RdsService.GetCancelEvent]
        exact dao.findRow_set_same _ _ _ m _ hfind (by simp [dao.CancelEvent.ConvertDown])

/-- After the cancel record is saved, `handleOrderCancelled` writes to the order table only. -/
theorem handleOrderCancelled_cancelEvents (env : Env) (f : Faults) (om : OrderManagerImpl)
    (event : types.OrderCancelledEvent) :
    (om.handleOrderCancelled env f event).om.rds.cancelEvents =
      (om.saveCancelEvent f event).1.rds.cancelEvents := by
  unfold OrderManagerImpl.handleOrderCancelled
  cases hsave : om.saveCancelEvent f event with
  | mk om1 oe =>
    cases oe with
    | some e => simp
    | none =>
      simp only []
      cases ho : om1.rds.GetOrderByHash event.OrderHash with
      | none => simp [Result.fail]
      | some orderentity =>
        simp only []
        by_cases hcu : f.ConvertUp = true
        · simp [dao.Order.ConvertUp, hcu, Result.fail]
        · by_cases hcd : f.ConvertDown = true <;> by_cases hupd : f.UpdateOrderWhileCancel = true <;>
            simp [dao.Order.ConvertUp, dao.Order.ConvertDown, dao.RdsService.UpdateOrderWhileCancel,
              hcu, hcd, hupd, Result.fail]

theorem handleOrderCancelled_of_recorded (env : Env) (f : Faults) (om : OrderManagerImpl)
    (event : types.OrderCancelledEvent) (h : CancelRecorded om event.TxHash event.Status) :
    (om.handleOrderCancelled env f event).om = om := by
  unfold OrderManagerImpl.handleOrderCancelled
  rw [saveCancelEvent_of_recorded f om event h]

theorem handleOrderCancelled_unchanged_or_recorded (env : Env) (f : Faults) (om : OrderManagerImpl)
    (event : types.OrderCancelledEvent) :
    (om.handleOrderCancelled env f event).om = om ∨
    CancelRecorded (om.handleOrderCancelled env f event).om event.TxHash event.Status := by
  cases hsave : (om.saveCancelEvent f event).2 with
  | some e =>
    left
    have h1 := saveCancelEvent_of_error f om event e hsave
    unfold OrderManagerImpl.handleOrderCancelled
    cases hs : om.saveCancelEvent f event with
    | mk om1 oe =>
      rw [hs] at hsave h1
      simp only at hsave h1
      subst hsave
      simpa using h1
  | none =>
    right
    have h1 := saveCancelEvent_recorded_of_ok f om event hsave
    unfold CancelRecorded dao.RdsService.GetCancelEvent at h1 ⊢
    rw [handleOrderCancelled_cancelEvents]
    exact h1

theorem handleOrderCancelled_twice (env : Env) (f : Faults) (om : OrderManagerImpl)
    (event : types.OrderCancelledEvent) :
    ((om.handleOrderCancelled env f event).om.handleOrderCancelled env f event).om =
      (om.handleOrderCancelled env f event).om :=
  twice_eq_once (fun o => (o.handleOrderCancelled env f event).om)
    (fun o => CancelRecorded o event.TxHash event.Status)
    (fun s => handleOrderCancelled_unchanged_or_recorded env f s event)
    (fun s hs => handleOrderCancelled_of_recorded env f s event hs) om

theorem saveCutoffEvent_of_recorded (env : Env) (f : Faults) (om : OrderManagerImpl) (event : types.CutoffEvent)
    (h : CutoffRecorded om event.TxHash event.Status) :
    om.saveCutoffEvent env f event = (om, event, some Err.alreadyExist) := by
  obtain ⟨id, m, hfind, hs⟩ := (CutoffRecorded_iff _ _ _).1 h
  simp [OrderManagerImpl.saveCutoffEvent, hfind, hs]

theorem saveCutoffEvent_of_error (env : Env) (f : Faults) (om : OrderManagerImpl) (event : types.CutoffEvent)
    (e : Err) (h : (om.saveCutoffEvent env f event).2.2 = some e) : (om.saveCutoffEvent env f event).1 = om := by
  unfold OrderManagerImpl.saveCutoffEvent at h ⊢
  cases hfind : om.rds.GetCutoffEvent event.TxHash with
  | none =>
    simp only [hfind] at h ⊢
    exact OrderManagerImpl.written_rds_of_error _ _ e h
  | some r =>
    obtain ⟨id, m⟩ := r
    simp only [hfind] at h ⊢
    split
    · rfl
    · rename_i hne
      rw [if_neg hne] at h
      exact OrderManagerImpl.written_rds_of_error _ _ e h

theorem saveCutoffEvent_recorded_of_ok (env : Env) (f : Faults) (om : OrderManagerImpl) (event : types.CutoffEvent)
    (h : (om.saveCutoffEvent env f event).2.2 = none) :
    CutoffRecorded (om.saveCutoffEvent env f event).1 event.TxHash event.Status := by
  unfold OrderManagerImpl.saveCutoffEvent at h ⊢
  cases hfind : om.rds.GetCutoffEvent event.TxHash with
  | none =>
    simp only [hfind] at h ⊢
    by_cases hadd : f.Add = true
    · simp [dao.RdsService.Add, hadd, OrderManagerImpl.written] at h
    · unfold dao.RdsService.GetCutoffEvent at hfind
      rw [CutoffRecorded_iff]
      simp only [dao.RdsService.Add, hadd, Bool.false_eq_true, if_false, OrderManagerImpl.written,
        dao.RdsService.GetCutoffEvent]
      exact ⟨_, _, dao.findRow_append_new _ _ _ hfind
        (by simp [dao.CutOffEvent.ConvertDown, (collectCutoffOrders_fields _ event).1]),
        by simp [dao.CutOffEvent.ConvertDown, (collectCutoffOrders_fields _ event).2.1]⟩
  | some r =>
    obtain ⟨id, m⟩ := r
    simp only [hfind] at h ⊢
    by_cases hs : m.Status = event.Status
    · simp [hs] at h
    · by_cases hsave : f.Save = true
      · simp [hs, dao.RdsService.Save, hsave, OrderManagerImpl.written] at h
      · unfold dao.RdsService.GetCutoffEvent at hfind
        refine (CutoffRecorded_iff _ _ _).2 ⟨id, m.ConvertDown event, ?_, rfl⟩
        simp only [hs, if_false, dao.RdsService.Save, hsave,
          Bool.false_eq_true, OrderManagerImpl.written, dao.RdsService.GetCutoffEvent]
        exact dao.findRow_set_same _ _ _ m _ hfind (by simp [dao.CutOffEvent.ConvertDown])

theorem OrderManagerImpl.setCutOffOrders_cutoffEvents (f : Faults) (om : OrderManagerImpl)
    (l : List common.Hash) (b : Int) : (om.setCutOffOrders f l b).rds.cutoffEvents = om.rds.cutoffEvents := by
  unfold OrderManagerImpl.setCutOffOrders dao.RdsService.SetCutOffOrders
  by_cases h : f.SetCutOffOrders = true <;> simp [h]

/-- After the record is saved, `handleCutoff` writes to the order table and the cache only. -/
theorem handleCutoff_cutoffEvents (env : Env) (f : Faults) (om : OrderManagerImpl) (event : types.CutoffEvent) :
    (om.handleCutoff env f event).om.rds.cutoffEvents = (om.saveCutoffEvent env f event).1.rds.cutoffEvents := by
  unfold OrderManagerImpl.handleCutoff
  cases hsave : om.saveCutoffEvent env f event with
  | mk om1 rest =>
    obtain ⟨ev, oe⟩ := rest
    cases oe with
    | some e => simp
    | none =>
      simp only []
      split
      · rfl
      · split
        · rfl
        · simp [OrderManagerImpl.setCutOffOrders_cutoffEvents]

theorem handleCutoff_of_recorded (env : Env) (f : Faults) (om : OrderManagerImpl) (event : types.CutoffEvent)
    (h : CutoffRecorded om event.TxHash event.Status) :
    (om.handleCutoff env f event).om = om := by
  unfold OrderManagerImpl.handleCutoff
  rw [saveCutoffEvent_of_recorded env f om event h]

theorem handleCutoff_of_error (env : Env) (f : Faults) (om : OrderManagerImpl) (event : types.CutoffEvent)
    (e : Err) (h : (om.saveCutoffEvent env f event).2.2 = some e) :
    om.handleCutoff env f event = { om := om, err := none, notified := [], logged := [e] } := by
  have h1 := saveCutoffEvent_of_error env f om event e h
  unfold OrderManagerImpl.handleCutoff
  cases hs : om.saveCutoffEvent env f event with
  | mk om1 rest =>
    obtain ⟨ev, oe⟩ := rest
    rw [hs] at h h1
    simp only at h h1
    subst h
    subst h1
    rfl

theorem handleCutoff_unchanged_or_recorded (env : Env) (f : Faults) (om : OrderManagerImpl)
    (event : types.CutoffEvent) :
    (om.handleCutoff env f event).om = om ∨
    CutoffRecorded (om.handleCutoff env f event).om event.TxHash event.Status := by
  cases hsave : (om.saveCutoffEvent env f event).2.2 with
  | some e =>
    left
    rw [handleCutoff_of_error env f om event e hsave]
  | none =>
    right
    have h1 := saveCutoffEvent_recorded_of_ok env f om event hsave
    unfold CutoffRecorded dao.RdsService.GetCutoffEvent at h1 ⊢
    rw [handleCutoff_cutoffEvents]
    exact h1

theorem handleCutoff_twice (env : Env) (f : Faults) (om : OrderManagerImpl) (event : types.CutoffEvent) :
    ((om.handleCutoff env f event).om.handleCutoff env f event).om = (om.handleCutoff env f event).om :=
  twice_eq_once (fun o => (o.handleCutoff env f event).om)
    (fun o => CutoffRecorded o event.TxHash event.Status)
    (fun s => handleCutoff_unchanged_or_recorded env f s event)
    (fun s hs => handleCutoff_of_recorded env f s event hs) om

theorem saveCutoffPairEvent_of_recorded (env : Env) (f : Faults) (om : OrderManagerImpl) (event : types.CutoffPairEvent)
    (h : CutoffPairRecorded om event.TxHash event.Status) :
    om.saveCutoffPairEvent env f event = (om, event, some Err.alreadyExist) := by
  obtain ⟨id, m, hfind, hs⟩ := (CutoffPairRecorded_iff _ _ _).1 h
  simp [OrderManagerImpl.saveCutoffPairEvent, hfind, hs]

theorem saveCutoffPairEvent_of_error (env : Env) (f : Faults) (om : OrderManagerImpl) (event : types.CutoffPairEvent)
    (e : Err) (h : (om.saveCutoffPairEvent env f event).2.2 = some e) : (om.saveCutoffPairEvent env f event).1 = om := by
  unfold OrderManagerImpl.saveCutoffPairEvent at h ⊢
  cases hfind : om.rds.GetCutoffPairEvent event.TxHash with
  | none =>
    simp only [hfind] at h ⊢
    exact OrderManagerImpl.written_rds_of_error _ _ e h
  | some r =>
    obtain ⟨id, m⟩ := r
    simp only [hfind] at h ⊢
    split
    · rfl
    · rename_i hne
      rw [if_neg hne] at h
      exact OrderManagerImpl.written_rds_of_error _ _ e h

theorem saveCutoffPairEvent_recorded_of_ok (env : Env) (f : Faults) (om : OrderManagerImpl) (event : types.CutoffPairEvent)
    (h : (om.saveCutoffPairEvent env f event).2.2 = none) :
    CutoffPairRecorded (om.saveCutoffPairEvent env f event).1 event.TxHash event.Status := by
  unfold OrderManagerImpl.saveCutoffPairEvent at h ⊢
  cases hfind : om.rds.GetCutoffPairEvent event.TxHash with
  | none =>
    simp only [hfind] at h ⊢
    by_cases hadd : f.Add = true
    · simp [dao.RdsService.Add, hadd, OrderManagerImpl.written] at h
    · unfold dao.RdsService.GetCutoffPairEvent at hfind
      rw [CutoffPairRecorded_iff]
      simp only [dao.RdsService.Add, hadd, Bool.false_eq_true, if_false, OrderManagerImpl.written,
        dao.RdsService.GetCutoffPairEvent]
      exact ⟨_, _, dao.findRow_append_new _ _ _ hfind
        (by simp [dao.CutOffPairEvent.ConvertDown, (collectCutoffPairOrders_fields _ event).1]),
        by simp [dao.CutOffPairEvent.ConvertDown, (collectCutoffPairOrders_fields _ event).2.1]⟩
  | some r =>
    obtain ⟨id, m⟩ := r
    simp only [hfind] at h ⊢
    by_cases hs : m.Status = event.Status
    · simp [hs] at h
    · by_cases hsave : f.Save = true
      · simp [hs, dao.RdsService.Save, hsave, OrderManagerImpl.written] at h
      · unfold dao.RdsService.GetCutoffPairEvent at hfind
        refine (CutoffPairRecorded_iff _ _ _).2 ⟨id, m.ConvertDown event, ?_, rfl⟩
        simp only [hs, if_false, dao.RdsService.Save, hsave,
          Bool.false_eq_true, OrderManagerImpl.written, dao.RdsService.GetCutoffPairEvent]
        exact dao.findRow_set_same _ _ _ m _ hfind (by simp [dao.CutOffPairEvent.ConvertDown])

theorem OrderManagerImpl.setCutOffOrders_cutoffPairEvents (f : Faults) (om : OrderManagerImpl)
    (l : List common.Hash) (b : Int) : (om.setCutOffOrders f l b).rds.cutoffPairEvents = om.rds.cutoffPairEvents := by
  unfold OrderManagerImpl.setCutOffOrders dao.RdsService.SetCutOffOrders
  by_cases h : f.SetCutOffOrders = true <;> simp [h]

/-- After the record is saved, `handleCutoffPair` writes to the order table and the cache only. -/
theorem handleCutoffPair_cutoffPairEvents (env : Env) (f : Faults) (om : OrderManagerImpl) (event : types.CutoffPairEvent) :
    (om.handleCutoffPair env f event).om.rds.cutoffPairEvents = (om.saveCutoffPairEvent env f event).1.rds.cutoffPairEvents := by
  unfold OrderManagerImpl.handleCutoffPair
  cases hsave : om.saveCutoffPairEvent env f event with
  | mk om1 rest =>
    obtain ⟨ev, oe⟩ := rest
    cases oe with
    | some e => simp
    | none =>
      simp only []
      split
      · rfl
      · split
        · rfl
        · simp [OrderManagerImpl.setCutOffOrders_cutoffPairEvents]

theorem handleCutoffPair_of_recorded (env : Env) (f : Faults) (om : OrderManagerImpl) (event : types.CutoffPairEvent)
    (h : CutoffPairRecorded om event.TxHash event.Status) :
    (om.handleCutoffPair env f event).om = om := by
  unfold OrderManagerImpl.handleCutoffPair
  rw [saveCutoffPairEvent_of_recorded env f om event h]

theorem handleCutoffPair_of_error (env : Env) (f : Faults) (om : OrderManagerImpl) (event : types.CutoffPairEvent)
    (e : Err) (h : (om.saveCutoffPairEvent env f event).2.2 = some e) :
    om.handleCutoffPair env f event = { om := om, err := none, notified := [], logged := [e] } := by
  have h1 := saveCutoffPairEvent_of_error env f om event e h
  unfold OrderManagerImpl.handleCutoffPair
  cases hs : om.saveCutoffPairEvent env f event with
  | mk om1 rest =>
    obtain ⟨ev, oe⟩ := rest
    rw [hs] at h h1
    simp only at h h1
    subst h
    subst h1
    rfl

theorem handleCutoffPair_unchanged_or_recorded (env : Env) (f : Faults) (om : OrderManagerImpl)
    (event : types.CutoffPairEvent) :
    (om.handleCutoffPair env f event).om = om ∨
    CutoffPairRecorded (om.handleCutoffPair env f event).om event.TxHash event.Status := by
  cases hsave : (om.saveCutoffPairEvent env f event).2.2 with
  | some e =>
    left
    rw [handleCutoffPair_of_error env f om event e hsave]
  | none =>
    right
    have h1 := saveCutoffPairEvent_recorded_of_ok env f om event hsave
    unfold CutoffPairRecorded dao.RdsService.GetCutoffPairEvent at h1 ⊢
    rw [handleCutoffPair_cutoffPairEvents]
    exact h1

theorem handleCutoffPair_twice (env : Env) (f : Faults) (om : OrderManagerImpl) (event : types.CutoffPairEvent) :
    ((om.handleCutoffPair env f event).om.handleCutoffPair env f event).om = (om.handleCutoffPair env f event).om :=
  twice_eq_once (fun o => (o.handleCutoffPair env f event).om)
    (fun o => CutoffPairRecorded o event.TxHash event.Status)
    (fun s => handleCutoffPair_unchanged_or_recorded env f s event)
    (fun s hs => handleCutoffPair_of_recorded env f s event hs) om

/-- C2: each of the six handlers, run a second time on the event it has just handled, leaves
the persisted store and the cutoff cache exactly as the first run left them, from every store
and cache state, for every event, and whichever store calls fail (the same in both runs). -/
theorem redelivery_changes_nothing (env : Env) (f : Faults) (om : OrderManagerImpl) :
    (∀ event : types.OrderFilledEvent,
      ((om.handleOrderFilled env f event).om.handleOrderFilled env f event).om.rds
          = (om.handleOrderFilled env f event).om.rds ∧
      ((om.handleOrderFilled env f event).om.handleOrderFilled env f event).om.cutoffCache
          = (om.handleOrderFilled env f event).om.cutoffCache) ∧
    (∀ event : types.OrderCancelledEvent,
      ((om.handleOrderCancelled env f event).om.handleOrderCancelled env f event).om.rds
          = (om.handleOrderCancelled env f event).om.rds ∧
      ((om.handleOrderCancelled env f event).om.handleOrderCancelled env f event).om.cutoffCache
          = (om.handleOrderCancelled env f event).om.cutoffCache) ∧
    (∀ event : types.CutoffEvent,
      ((om.handleCutoff env f event).om.handleCutoff env f event).om.rds
          = (om.handleCutoff env f event).om.rds ∧
      ((om.handleCutoff env f event).om.handleCutoff env f event).om.cutoffCache
          = (om.handleCutoff env f event).om.cutoffCache) ∧
    (∀ event : types.CutoffPairEvent,
      ((om.handleCutoffPair env f event).om.handleCutoffPair env f event).om.rds
          = (om.handleCutoffPair env f event).om.rds ∧
      ((om.handleCutoffPair env f event).om.handleCutoffPair env f event).om.cutoffCache
          = (om.handleCutoffPair env f event).om.cutoffCache) ∧
    (∀ event : types.RingMinedEvent,
      ((om.handleRingMined f event).om.handleRingMined f event).om.rds
          = (om.handleRingMined f event).om.rds ∧
      ((om.handleRingMined f event).om.handleRingMined f event).om.cutoffCache
          = (om.handleRingMined f event).om.cutoffCache) ∧
    (∀ event : types.SubmitRingMethodEvent,
      ((om.handleSubmitRingMethod f event).om.handleSubmitRingMethod f event).om.rds
          = (om.handleSubmitRingMethod f event).om.rds ∧
      ((om.handleSubmitRingMethod f event).om.handleSubmitRingMethod f event).om.cutoffCache
          = (om.handleSubmitRingMethod f event).om.cutoffCache) := by
  refine ⟨fun event => ?_, fun event => ?_, fun event => ?_, fun event => ?_, fun event => ?_,
    fun event => ?_⟩
  · rw [handleOrderFilled_twice]; exact ⟨rfl, rfl⟩
  · rw [handleOrderCancelled_twice]; exact ⟨rfl, rfl⟩
  · rw [handleCutoff_twice]; exact ⟨rfl, rfl⟩
  · rw [handleCutoffPair_twice]; exact ⟨rfl, rfl⟩
  · rw [handleRingMined_twice]; exact ⟨rfl, rfl⟩
  · rw [handleSubmitRingMethod_twice]; exact ⟨rfl, rfl⟩

/-! ## Terminal orders -/

/-- The order a lookup by hash returns has that hash. -/
theorem dao.RdsService.GetOrderByHash_hash (s : dao.RdsService) (h : common.Hash) (o : dao.Order)
    (ho : s.GetOrderByHash h = some o) : o.OrderHash = h := by
  unfold dao.RdsService.GetOrderByHash at ho
  cases hf : dao.findRow (fun o => decide (o.OrderHash = h)) s.orders with
  | none => simp [hf] at ho
  | some r =>
    have hp := dao.findRow_prop _ _ r hf
    simp [hf] at ho
    subst ho
    simpa using hp

/-- A lookup by hash does not see an update of the rows with another hash. -/
theorem dao.RdsService.GetOrderByHash_map_other (orders : List dao.Order) (h h' : common.Hash)
    (g : dao.Order → dao.Order) (hg : ∀ x, (g x).OrderHash = x.OrderHash) (hne : h ≠ h') :
    (dao.findRow (fun o => decide (o.OrderHash = h))
        (orders.map (fun o => if o.OrderHash = h' then g o else o))).map (fun r => r.2) =
      (dao.findRow (fun o => decide (o.OrderHash = h)) orders).map (fun r => r.2) := by
  rw [dao.findRow_map _ _ (by
    intro x
    by_cases hx : x.OrderHash = h' <;> simp [hx, hg])]
  cases hf : dao.findRow (fun o => decide (o.OrderHash = h)) orders with
  | none => simp
  | some r =>
    have hp := dao.findRow_prop _ _ r hf
    simp only [decide_eq_true_eq] at hp
    have : r.2.OrderHash ≠ h' := by rw [hp]; exact hne
    simp [this]

/-- What `handleOrderFilled` does to the order table: nothing, with no notification, or one
fill-path update of the rows with the event's order hash, and then the order the lookup
returned was not cutoff, finished or unknown. -/
theorem handleOrderFilled_orders (env : Env) (f : Faults) (om : OrderManagerImpl)
    (event : types.OrderFilledEvent) :
    ((om.handleOrderFilled env f event).om.rds.orders = om.rds.orders ∧
      (om.handleOrderFilled env f event).notified = []) ∨
    (∃ (model : dao.Order) (g : dao.Order → dao.Order), om.rds.GetOrderByHash event.OrderHash = some model ∧
      ¬ (model.Status = types.OrderStatus.ORDER_CUTOFF ∨ model.Status = types.OrderStatus.ORDER_FINISHED
        ∨ model.Status = types.OrderStatus.ORDER_UNKNOWN) ∧
      (∀ x : dao.Order, (g x).OrderHash = x.OrderHash) ∧
      (om.handleOrderFilled env f event).om.rds.orders =
        om.rds.orders.map (fun o => if o.OrderHash = event.OrderHash then g o else o)) := by
  unfold OrderManagerImpl.handleOrderFilled
  by_cases hs : event.Status = types.TxStatus.TX_STATUS_SUCCESS
  swap
  · simp [hs, Result.ok]
  simp only [hs, ne_eq, not_true_eq_false, if_false]
  cases hfind : om.rds.FindFillEvent event.TxHash (Int64 event.FillIndex) with
  | some r => simp [Result.ok]
  | none =>
    simp only []
    cases ho : om.rds.GetOrderByHash event.OrderHash with
    | none => simp [Result.fail]
    | some model =>
      simp only []
      have hkey := dao.RdsService.GetOrderByHash_hash _ _ _ ho
      by_cases hcu : f.ConvertUp = true
      · simp [dao.Order.ConvertUp, hcu, Result.fail]
      by_cases hadd : f.Add = true
      · simp [dao.Order.ConvertUp, hcu, dao.RdsService.Add, hadd, Result.fail]
      by_cases hterm : model.Status = types.OrderStatus.ORDER_CUTOFF ∨
          model.Status = types.OrderStatus.ORDER_FINISHED ∨ model.Status = types.OrderStatus.ORDER_UNKNOWN
      · simp [dao.Order.ConvertUp, hcu, dao.RdsService.Add, hadd, hterm, Result.ok]
      by_cases hcd : f.ConvertDown = true
      · simp [dao.Order.ConvertUp, hcu, dao.RdsService.Add, hadd, hterm, dao.Order.ConvertDown, hcd]
      by_cases hupd : f.UpdateOrderWhileFill = true
      · simp [dao.Order.ConvertUp, hcu, dao.RdsService.Add, hadd, hterm, dao.Order.ConvertDown, hcd,
          dao.RdsService.UpdateOrderWhileFill, hupd, Result.fail]
      right
      simp only [dao.Order.ConvertUp, hcu, dao.RdsService.Add, hadd, hterm, dao.Order.ConvertDown, hcd,
        dao.RdsService.UpdateOrderWhileFill, hupd, Bool.false_eq_true, if_false, hkey]
      refine ⟨model, _, rfl, hterm, ?_, rfl⟩
      intro x
      rfl

/-- C3: an order whose persisted status is cutoff, finished or unknown is found unchanged
(status, dealt, split and cancelled amounts, updated block) after `handleOrderFilled` has
handled any fill event, whichever store calls fail; when the fill is for that order, the order
table is not written at all and no notification is published. -/
theorem handleOrderFilled_terminal_guard (env : Env) (f : Faults) (om : OrderManagerImpl)
    (event : types.OrderFilledEvent) (h : common.Hash) (o : dao.Order)
    (ho : om.rds.GetOrderByHash h = some o)
    (hterm : o.Status = types.OrderStatus.ORDER_CUTOFF ∨ o.Status = types.OrderStatus.ORDER_FINISHED
      ∨ o.Status = types.OrderStatus.ORDER_UNKNOWN) :
    (om.handleOrderFilled env f event).om.rds.GetOrderByHash h = some o ∧
    (event.OrderHash = h →
      (om.handleOrderFilled env f event).om.rds.orders = om.rds.orders ∧
      (om.handleOrderFilled env f event).notified = []) := by
  rcases handleOrderFilled_orders env f om event with ⟨h1, h2⟩ | ⟨model, g, hm, hnt, hg, hmap⟩
  · refine ⟨?_, fun _ => ⟨h1, h2⟩⟩
    unfold dao.RdsService.GetOrderByHash at ho ⊢
    rw [h1]
    exact ho
  · have hne : h ≠ event.OrderHash := by
      intro heq
      subst heq
      rw [ho] at hm
      simp only [Option.some.injEq] at hm
      subst hm
      exact hnt hterm
    refine ⟨?_, fun heq => absurd heq.symm hne⟩
    unfold dao.RdsService.GetOrderByHash at ho ⊢
    rw [hmap, dao.RdsService.GetOrderByHash_map_other _ _ _ g hg hne]
    exact ho

/-- C3, at a concrete input: a fill for the finished order 7 leaves it finished with nothing
dealt, writes no order and publishes nothing. -/
theorem handleOrderFilled_terminal_guard_witness :
    (exampleOmFinished.rds.GetOrderByHash 7 = some (exampleOrder 7 types.OrderStatus.ORDER_FINISHED false) ∧
      ((exampleOrder 7 types.OrderStatus.ORDER_FINISHED false).Status = types.OrderStatus.ORDER_CUTOFF ∨
        (exampleOrder 7 types.OrderStatus.ORDER_FINISHED false).Status = types.OrderStatus.ORDER_FINISHED ∨
        (exampleOrder 7 types.OrderStatus.ORDER_FINISHED false).Status = types.OrderStatus.ORDER_UNKNOWN)) ∧
    ((exampleOmFinished.handleOrderFilled exampleEnv Faults.none exampleFill).om.rds.GetOrderByHash 7
        = some (exampleOrder 7 types.OrderStatus.ORDER_FINISHED false) ∧
      (exampleFill.OrderHash = 7 →
        (exampleOmFinished.handleOrderFilled exampleEnv Faults.none exampleFill).om.rds.orders
          = exampleOmFinished.rds.orders ∧
        (exampleOmFinished.handleOrderFilled exampleEnv Faults.none exampleFill).notified = [])) :=
  ⟨⟨by decide, by decide⟩,
    handleOrderFilled_terminal_guard exampleEnv Faults.none exampleOmFinished exampleFill 7
      (exampleOrder 7 types.OrderStatus.ORDER_FINISHED false) (by decide) (by decide)⟩

theorem saveCutoffEvent_frame (env : Env) (f : Faults) (om : OrderManagerImpl) (event : types.CutoffEvent) :
    (om.saveCutoffEvent env f event).1.cutoffCache = om.cutoffCache ∧
    (om.saveCutoffEvent env f event).1.rds.orders = om.rds.orders := by
  unfold OrderManagerImpl.saveCutoffEvent
  cases hfind : om.rds.GetCutoffEvent event.TxHash with
  | none =>
    by_cases hadd : f.Add = true <;> simp [dao.RdsService.Add, hadd, OrderManagerImpl.written]
  | some r =>
    obtain ⟨id, m⟩ := r
    by_cases hs : m.Status = event.Status
    · simp [hs]
    · by_cases hsave : f.Save = true <;> simp [hs, dao.RdsService.Save, hsave, OrderManagerImpl.written]

theorem saveCutoffEvent_event (env : Env) (f : Faults) (om : OrderManagerImpl) (event : types.CutoffEvent) :
    (om.saveCutoffEvent env f event).2.1.TxHash = event.TxHash ∧
    (om.saveCutoffEvent env f event).2.1.Status = event.Status ∧
    (om.saveCutoffEvent env f event).2.1.BlockNumber = event.BlockNumber ∧
    (om.saveCutoffEvent env f event).2.1.Protocol = event.Protocol ∧
    (om.saveCutoffEvent env f event).2.1.Owner = event.Owner ∧
    (om.saveCutoffEvent env f event).2.1.Cutoff = event.Cutoff := by
  unfold OrderManagerImpl.saveCutoffEvent
  cases hfind : om.rds.GetCutoffEvent event.TxHash with
  | none =>
    simp only []
    have hc := collectCutoffOrders_fields
      (if f.GetCutoffOrders = true then [] else env.GetCutoffOrders om.rds.orders event.Owner event.Cutoff) event
    exact hc
  | some r =>
    obtain ⟨id, m⟩ := r
    by_cases hs : m.Status = event.Status <;> simp [hs]

/-- A cutoff whose record could be saved but whose transaction did not succeed changes nothing
beyond the record. -/
theorem handleCutoff_of_not_success (env : Env) (f : Faults) (om : OrderManagerImpl) (event : types.CutoffEvent)
    (hok : (om.saveCutoffEvent env f event).2.2 = none)
    (hs : event.Status ≠ types.TxStatus.TX_STATUS_SUCCESS) :
    om.handleCutoff env f event = Result.ok (om.saveCutoffEvent env f event).1 := by
  have he := (saveCutoffEvent_event env f om event).2.1
  unfold OrderManagerImpl.handleCutoff
  cases hsv : om.saveCutoffEvent env f event with
  | mk om1 rest =>
    obtain ⟨ev, oe⟩ := rest
    rw [hsv] at hok he
    simp only at hok he
    subst hok
    simp [he, hs]

/-- A successful cutoff older than the cached one changes nothing beyond its record. -/
theorem handleCutoff_of_older (env : Env) (f : Faults) (om : OrderManagerImpl) (event : types.CutoffEvent)
    (hok : (om.saveCutoffEvent env f event).2.2 = none)
    (hs : event.Status = types.TxStatus.TX_STATUS_SUCCESS)
    (hlt : event.Cutoff < om.cutoffCache.GetCutoff event.Protocol event.Owner) :
    om.handleCutoff env f event = Result.ok (om.saveCutoffEvent env f event).1 := by
  have he := saveCutoffEvent_event env f om event
  have hfr := (saveCutoffEvent_frame env f om event).1
  unfold OrderManagerImpl.handleCutoff
  cases hsv : om.saveCutoffEvent env f event with
  | mk om1 rest =>
    obtain ⟨ev, oe⟩ := rest
    rw [hsv] at hok he hfr
    simp only at hok he hfr
    subst hok
    obtain ⟨e1, e2, e3, e4, e5, e6⟩ := he
    simp [e2, hs, e4, e5, e6, hfr, hlt]

/-- A successful cutoff not older than the cached one: the cache slot is overwritten, the bulk
update is issued on the list of the saved event and the saved event is published. -/
theorem handleCutoff_of_accepted (env : Env) (f : Faults) (om : OrderManagerImpl) (event : types.CutoffEvent)
    (hok : (om.saveCutoffEvent env f event).2.2 = none)
    (hs : event.Status = types.TxStatus.TX_STATUS_SUCCESS)
    (hge : om.cutoffCache.GetCutoff event.Protocol event.Owner ≤ event.Cutoff) :
    om.handleCutoff env f event =
      { om := OrderManagerImpl.setCutOffOrders f
          { (om.saveCutoffEvent env f event).1 with
            cutoffCache := om.cutoffCache.UpdateCutoff event.Protocol event.Owner event.Cutoff }
          (om.saveCutoffEvent env f event).2.1.OrderHashList event.BlockNumber,
        err := none,
        notified := [Notification.Cutoff (om.saveCutoffEvent env f event).2.1],
        logged := [] } := by
  have he := saveCutoffEvent_event env f om event
  have hfr := (saveCutoffEvent_frame env f om event).1
  unfold OrderManagerImpl.handleCutoff
  cases hsv : om.saveCutoffEvent env f event with
  | mk om1 rest =>
    obtain ⟨ev, oe⟩ := rest
    rw [hsv] at hok he hfr
    simp only at hok he hfr
    subst hok
    obtain ⟨e1, e2, e3, e4, e5, e6⟩ := he
    simp [e2, hs, e3, e4, e5, e6, hfr, not_lt.mpr hge]

theorem saveCutoffPairEvent_frame (env : Env) (f : Faults) (om : OrderManagerImpl) (event : types.CutoffPairEvent) :
    (om.saveCutoffPairEvent env f event).1.cutoffCache = om.cutoffCache ∧
    (om.saveCutoffPairEvent env f event).1.rds.orders = om.rds.orders := by
  unfold OrderManagerImpl.saveCutoffPairEvent
  cases hfind : om.rds.GetCutoffPairEvent event.TxHash with
  | none =>
    by_cases hadd : f.Add = true <;> simp [dao.RdsService.Add, hadd, OrderManagerImpl.written]
  | some r =>
    obtain ⟨id, m⟩ := r
    by_cases hs : m.Status = event.Status
    · simp [hs]
    · by_cases hsave : f.Save = true <;> simp [hs, dao.RdsService.Save, hsave, OrderManagerImpl.written]

theorem saveCutoffPairEvent_event (env : Env) (f : Faults) (om : OrderManagerImpl) (event : types.CutoffPairEvent) :
    (om.saveCutoffPairEvent env f event).2.1.TxHash = event.TxHash ∧
    (om.saveCutoffPairEvent env f event).2.1.Status = event.Status ∧
    (om.saveCutoffPairEvent env f event).2.1.BlockNumber = event.BlockNumber ∧
    (om.saveCutoffPairEvent env f event).2.1.Protocol = event.Protocol ∧
    (om.saveCutoffPairEvent env f event).2.1.Owner = event.Owner ∧
    (om.saveCutoffPairEvent env f event).2.1.Token1 = event.Token1 ∧
    (om.saveCutoffPairEvent env f event).2.1.Token2 = event.Token2 ∧
    (om.saveCutoffPairEvent env f event).2.1.Cutoff = event.Cutoff := by
  unfold OrderManagerImpl.saveCutoffPairEvent
  cases hfind : om.rds.GetCutoffPairEvent event.TxHash with
  | none =>
    simp only []
    have hc := collectCutoffPairOrders_fields
      (if f.GetCutoffOrders = true then [] else env.GetCutoffPairOrders om.rds.orders event.Owner event.Token1 event.Token2 event.Cutoff) event
    exact hc
  | some r =>
    obtain ⟨id, m⟩ := r
    by_cases hs : m.Status = event.Status <;> simp [hs]

/-- A cutoff whose record could be saved but whose transaction did not succeed changes nothing
beyond the record. -/
theorem handleCutoffPair_of_not_success (env : Env) (f : Faults) (om : OrderManagerImpl) (event : types.CutoffPairEvent)
    (hok : (om.saveCutoffPairEvent env f event).2.2 = none)
    (hs : event.Status ≠ types.TxStatus.TX_STATUS_SUCCESS) :
    om.handleCutoffPair env f event = Result.ok (om.saveCutoffPairEvent env f event).1 := by
  have he := (saveCutoffPairEvent_event env f om event).2.1
  unfold OrderManagerImpl.handleCutoffPair
  cases hsv : om.saveCutoffPairEvent env f event with
  | mk om1 rest =>
    obtain ⟨ev, oe⟩ := rest
    rw [hsv] at hok he
    simp only at hok he
    subst hok
    simp [he, hs]

/-- A successful cutoff older than the cached one changes nothing beyond its record. -/
theorem handleCutoffPair_of_older (env : Env) (f : Faults) (om : OrderManagerImpl) (event : types.CutoffPairEvent)
    (hok : (om.saveCutoffPairEvent env f event).2.2 = none)
    (hs : event.Status = types.TxStatus.TX_STATUS_SUCCESS)
    (hlt : event.Cutoff < om.cutoffCache.GetCutoffPair event.Protocol event.Owner event.Token1 event.Token2) :
    om.handleCutoffPair env f event = Result.ok (om.saveCutoffPairEvent env f event).1 := by
  have he := saveCutoffPairEvent_event env f om event
  have hfr := (saveCutoffPairEvent_frame env f om event).1
  unfold OrderManagerImpl.handleCutoffPair
  cases hsv : om.saveCutoffPairEvent env f event with
  | mk om1 rest =>
    obtain ⟨ev, oe⟩ := rest
    rw [hsv] at hok he hfr
    simp only at hok he hfr
    subst hok
    obtain ⟨e1, e2, e3, e4, e5, e7, e8, e6⟩ := he
    simp [e2, hs, e4, e5, e7, e8, e6, hfr, hlt]

/-- A successful cutoff not older than the cached one: the cache slot is overwritten, the bulk
update is issued on the list of the saved event and the saved event is published. -/
theorem handleCutoffPair_of_accepted (env : Env) (f : Faults) (om : OrderManagerImpl) (event : types.CutoffPairEvent)
    (hok : (om.saveCutoffPairEvent env f event).2.2 = none)
    (hs : event.Status = types.TxStatus.TX_STATUS_SUCCESS)
    (hge : om.cutoffCache.GetCutoffPair event.Protocol event.Owner event.Token1 event.Token2 ≤ event.Cutoff) :
    om.handleCutoffPair env f event =
      { om := OrderManagerImpl.setCutOffOrders f
          { (om.saveCutoffPairEvent env f event).1 with
            cutoffCache := om.cutoffCache.UpdateCutoffPair event.Protocol event.Owner event.Token1 event.Token2 event.Cutoff }
          (om.saveCutoffPairEvent env f event).2.1.OrderHashList event.BlockNumber,
        err := none,
        notified := [Notification.CutoffPair (om.saveCutoffPairEvent env f event).2.1],
        logged := [] } := by
  have he := saveCutoffPairEvent_event env f om event
  have hfr := (saveCutoffPairEvent_frame env f om event).1
  unfold OrderManagerImpl.handleCutoffPair
  cases hsv : om.saveCutoffPairEvent env f event with
  | mk om1 rest =>
    obtain ⟨ev, oe⟩ := rest
    rw [hsv] at hok he hfr
    simp only at hok he hfr
    subst hok
    obtain ⟨e1, e2, e3, e4, e5, e7, e8, e6⟩ := he
    simp [e2, hs, e3, e4, e5, e7, e8, e6, hfr, not_lt.mpr hge]

/-! ## Cutoff events against the cache -/

theorem saveCutoffEvent_ok_of_new (env : Env) (f : Faults) (om : OrderManagerImpl) (event : types.CutoffEvent)
    (hnew : om.rds.GetCutoffEvent event.TxHash = none) (hadd : f.Add = false) :
    (om.saveCutoffEvent env f event).2.2 = none := by
  simp [OrderManagerImpl.saveCutoffEvent, hnew, dao.RdsService.Add, hadd, OrderManagerImpl.written]

theorem saveCutoffPairEvent_ok_of_new (env : Env) (f : Faults) (om : OrderManagerImpl)
    (event : types.CutoffPairEvent)
    (hnew : om.rds.GetCutoffPairEvent event.TxHash = none) (hadd : f.Add = false) :
    (om.saveCutoffPairEvent env f event).2.2 = none := by
  simp [OrderManagerImpl.saveCutoffPairEvent, hnew, dao.RdsService.Add, hadd, OrderManagerImpl.written]

theorem handleCutoff_older_unchanged (env : Env) (f : Faults) (om : OrderManagerImpl)
    (event : types.CutoffEvent) (hs : event.Status = types.TxStatus.TX_STATUS_SUCCESS)
    (hlt : event.Cutoff < om.cutoffCache.GetCutoff event.Protocol event.Owner) :
    (om.handleCutoff env f event).om.cutoffCache = om.cutoffCache ∧
    (om.handleCutoff env f event).om.rds.orders = om.rds.orders ∧
    (om.handleCutoff env f event).notified = [] := by
  cases hsave : (om.saveCutoffEvent env f event).2.2 with
  | some e => rw [handleCutoff_of_error env f om event e hsave]; exact ⟨rfl, rfl, rfl⟩
  | none =>
    rw [handleCutoff_of_older env f om event hsave hs hlt]
    exact ⟨(saveCutoffEvent_frame env f om event).1, (saveCutoffEvent_frame env f om event).2, rfl⟩

theorem handleCutoffPair_older_unchanged (env : Env) (f : Faults) (om : OrderManagerImpl)
    (event : types.CutoffPairEvent) (hs : event.Status = types.TxStatus.TX_STATUS_SUCCESS)
    (hlt : event.Cutoff < om.cutoffCache.GetCutoffPair event.Protocol event.Owner event.Token1 event.Token2) :
    (om.handleCutoffPair env f event).om.cutoffCache = om.cutoffCache ∧
    (om.handleCutoffPair env f event).om.rds.orders = om.rds.orders ∧
    (om.handleCutoffPair env f event).notified = [] := by
  cases hsave : (om.saveCutoffPairEvent env f event).2.2 with
  | some e => rw [handleCutoffPair_of_error env f om event e hsave]; exact ⟨rfl, rfl, rfl⟩
  | none =>
    rw [handleCutoffPair_of_older env f om event hsave hs hlt]
    exact ⟨(saveCutoffPairEvent_frame env f om event).1, (saveCutoffPairEvent_frame env f om event).2, rfl⟩

theorem OrderManagerImpl.setCutOffOrders_cutoffCache (f : Faults) (om : OrderManagerImpl)
    (l : List common.Hash) (b : Int) : (om.setCutOffOrders f l b).cutoffCache = om.cutoffCache := by
  unfold OrderManagerImpl.setCutOffOrders
  cases om.rds.SetCutOffOrders f l b <;> rfl

/-- C4: for a successful cutoff event with a new transaction hash, `handleCutoff` leaves the
cache and the order table as they are and publishes nothing when the event's cutoff is below
the cached one (whichever store calls fail), and when it is not below and the insert of the
record succeeds the cached value for (protocol, owner) becomes the event's cutoff; the same
for `handleCutoffPair` and the cache slot of (protocol, owner, token1, token2). -/
theorem cutoff_cache_monotone (env : Env) (f : Faults) (om : OrderManagerImpl) :
    (∀ event : types.CutoffEvent,
      event.Status = types.TxStatus.TX_STATUS_SUCCESS →
      om.rds.GetCutoffEvent event.TxHash = none →
      (event.Cutoff < om.cutoffCache.GetCutoff event.Protocol event.Owner →
        (om.handleCutoff env f event).om.cutoffCache = om.cutoffCache ∧
        (om.handleCutoff env f event).om.rds.orders = om.rds.orders ∧
        (om.handleCutoff env f event).notified = []) ∧
      (f.Add = false → om.cutoffCache.GetCutoff event.Protocol event.Owner ≤ event.Cutoff →
        (om.handleCutoff env f event).om.cutoffCache.GetCutoff event.Protocol event.Owner
          = event.Cutoff)) ∧
    (∀ event : types.CutoffPairEvent,
      event.Status = types.TxStatus.TX_STATUS_SUCCESS →
      om.rds.GetCutoffPairEvent event.TxHash = none →
      (event.Cutoff < om.cutoffCache.GetCutoffPair event.Protocol event.Owner event.Token1 event.Token2 →
        (om.handleCutoffPair env f event).om.cutoffCache = om.cutoffCache ∧
        (om.handleCutoffPair env f event).om.rds.orders = om.rds.orders ∧
        (om.handleCutoffPair env f event).notified = []) ∧
      (f.Add = false →
        om.cutoffCache.GetCutoffPair event.Protocol event.Owner event.Token1 event.Token2 ≤ event.Cutoff →
        (om.handleCutoffPair env f event).om.cutoffCache.GetCutoffPair event.Protocol event.Owner
          event.Token1 event.Token2 = event.Cutoff)) := by
  refine ⟨fun event hs hnew => ⟨handleCutoff_older_unchanged env f om event hs, fun hadd hge => ?_⟩,
    fun event hs hnew => ⟨handleCutoffPair_older_unchanged env f om event hs, fun hadd hge => ?_⟩⟩
  · rw [handleCutoff_of_accepted env f om event (saveCutoffEvent_ok_of_new env f om event hnew hadd) hs hge]
    simp [OrderManagerImpl.setCutOffOrders_cutoffCache, omcm.CutoffCache.GetCutoff,
      omcm.CutoffCache.UpdateCutoff]
  · rw [handleCutoffPair_of_accepted env f om event
      (saveCutoffPairEvent_ok_of_new env f om event hnew hadd) hs hge]
    simp [OrderManagerImpl.setCutOffOrders_cutoffCache, omcm.CutoffCache.GetCutoffPair,
      omcm.CutoffCache.UpdateCutoffPair]

/-- C4, at a concrete input: after CutoffAll(cutoff = 1000, orders 1 and 2) at block 50, a
CutoffAll(cutoff = 900) at block 60 is rejected and orders 1 and 2 stay cutoff at block 50,
while a CutoffAll(cutoff = 1200) sets the cached value to 1200; the same for a token pair. -/
theorem cutoff_cache_monotone_witness :
    ((exampleCutoff 501 900 60 [1, 2, 3]).Status = types.TxStatus.TX_STATUS_SUCCESS ∧
      exampleAfterCutoff.rds.GetCutoffEvent (exampleCutoff 501 900 60 [1, 2, 3]).TxHash = none ∧
      (exampleCutoff 501 900 60 [1, 2, 3]).Cutoff < exampleAfterCutoff.cutoffCache.GetCutoff 100 1) ∧
    ((exampleAfterCutoff.handleCutoff exampleEnv Faults.none (exampleCutoff 501 900 60 [1, 2, 3])).om.cutoffCache
        = exampleAfterCutoff.cutoffCache ∧
      (exampleAfterCutoff.handleCutoff exampleEnv Faults.none (exampleCutoff 501 900 60 [1, 2, 3])).om.rds.orders
        = exampleAfterCutoff.rds.orders ∧
      (exampleAfterCutoff.handleCutoff exampleEnv Faults.none (exampleCutoff 501 900 60 [1, 2, 3])).notified = []) ∧
    (exampleAfterCutoff.rds.orders.map (fun o => (o.OrderHash, o.Status, o.UpdatedBlock))
        = [(1, types.OrderStatus.ORDER_CUTOFF, 50), (2, types.OrderStatus.ORDER_CUTOFF, 50),
           (3, types.OrderStatus.ORDER_NEW, 5)]) ∧
    (exampleAfterCutoff.cutoffCache.GetCutoff 100 1 ≤ (exampleCutoff 502 1200 70 [3]).Cutoff ∧
      (exampleAfterCutoff.handleCutoff exampleEnv Faults.none (exampleCutoff 502 1200 70 [3])).om.cutoffCache.GetCutoff
        100 1 = 1200) ∧
    ((exampleCutoffPair 501 900 60 [1, 2, 3]).Cutoff < exampleAfterCutoffPair.cutoffCache.GetCutoffPair 100 1 10 20 ∧
      (exampleAfterCutoffPair.handleCutoffPair exampleEnv Faults.none
          (exampleCutoffPair 501 900 60 [1, 2, 3])).om.rds.orders = exampleAfterCutoffPair.rds.orders ∧
      (exampleAfterCutoffPair.handleCutoffPair exampleEnv Faults.none
          (exampleCutoffPair 502 1200 70 [3])).om.cutoffCache.GetCutoffPair 100 1 10 20 = 1200) :=
  ⟨⟨by decide, by decide, by decide⟩,
    ((cutoff_cache_monotone exampleEnv Faults.none exampleAfterCutoff).1
      (exampleCutoff 501 900 60 [1, 2, 3]) (by decide) (by decide)).1 (by decide),
    by decide,
    ⟨by decide,
      ((cutoff_cache_monotone exampleEnv Faults.none exampleAfterCutoff).1
        (exampleCutoff 502 1200 70 [3]) (by decide) (by decide)).2 (by decide) (by decide)⟩,
    ⟨by decide,
      (((cutoff_cache_monotone exampleEnv Faults.none exampleAfterCutoffPair).2
        (exampleCutoffPair 501 900 60 [1, 2, 3]) (by decide) (by decide)).1 (by decide)).2.1,
      ((cutoff_cache_monotone exampleEnv Faults.none exampleAfterCutoffPair).2
        (exampleCutoffPair 502 1200 70 [3]) (by decide) (by decide)).2 (by decide) (by decide)⟩⟩

/-- C5 fails as stated: with 1000 cached for (protocol 100, owner 1), a successful CutoffAll
with cutoff 1000 in a new transaction is not a no-op: order 3 becomes cutoff at the event's
block 70 and the cutoff notification is published; the same for a token pair. -/
theorem cutoff_tie_counterexample :
    ((exampleCutoff 503 1000 70 [3]).Status = types.TxStatus.TX_STATUS_SUCCESS ∧
      (exampleCutoff 503 1000 70 [3]).Cutoff = exampleAfterCutoff.cutoffCache.GetCutoff 100 1 ∧
      ¬ ((exampleAfterCutoff.handleCutoff exampleEnv Faults.none (exampleCutoff 503 1000 70 [3])).om.rds.orders
            = exampleAfterCutoff.rds.orders ∧
          (exampleAfterCutoff.handleCutoff exampleEnv Faults.none (exampleCutoff 503 1000 70 [3])).notified = []) ∧
      (exampleAfterCutoff.handleCutoff exampleEnv Faults.none (exampleCutoff 503 1000 70 [3])).notified
        = [Notification.Cutoff (exampleCutoff 503 1000 70 [3])] ∧
      (exampleAfterCutoff.handleCutoff exampleEnv Faults.none
          (exampleCutoff 503 1000 70 [3])).om.rds.orders.map (fun o => (o.OrderHash, o.Status, o.UpdatedBlock))
        = [(1, types.OrderStatus.ORDER_CUTOFF, 50), (2, types.OrderStatus.ORDER_CUTOFF, 50),
           (3, types.OrderStatus.ORDER_CUTOFF, 70)]) ∧
    ((exampleCutoffPair 503 1000 70 [3]).Cutoff = exampleAfterCutoffPair.cutoffCache.GetCutoffPair 100 1 10 20 ∧
      ¬ ((exampleAfterCutoffPair.handleCutoffPair exampleEnv Faults.none
              (exampleCutoffPair 503 1000 70 [3])).om.rds.orders = exampleAfterCutoffPair.rds.orders ∧
          (exampleAfterCutoffPair.handleCutoffPair exampleEnv Faults.none
              (exampleCutoffPair 503 1000 70 [3])).notified = [])) := by
  decide

theorem handleCutoff_orders_of_accepted (env : Env) (f : Faults) (om : OrderManagerImpl)
    (event : types.CutoffEvent) (hok : (om.saveCutoffEvent env f event).2.2 = none)
    (hs : event.Status = types.TxStatus.TX_STATUS_SUCCESS)
    (hge : om.cutoffCache.GetCutoff event.Protocol event.Owner ≤ event.Cutoff)
    (hset : f.SetCutOffOrders = false) :
    (om.handleCutoff env f event).om.rds.orders =
      om.rds.orders.map (fun o =>
        if o.OrderHash ∈ (om.saveCutoffEvent env f event).2.1.OrderHashList then
          { o with Status := types.OrderStatus.ORDER_CUTOFF, UpdatedBlock := event.BlockNumber }
        else o) := by
  rw [handleCutoff_of_accepted env f om event hok hs hge]
  simp [OrderManagerImpl.setCutOffOrders, dao.RdsService.SetCutOffOrders, hset,
    (saveCutoffEvent_frame env f om event).2]

theorem handleCutoffPair_orders_of_accepted (env : Env) (f : Faults) (om : OrderManagerImpl)
    (event : types.CutoffPairEvent) (hok : (om.saveCutoffPairEvent env f event).2.2 = none)
    (hs : event.Status = types.TxStatus.TX_STATUS_SUCCESS)
    (hge : om.cutoffCache.GetCutoffPair event.Protocol event.Owner event.Token1 event.Token2 ≤ event.Cutoff)
    (hset : f.SetCutOffOrders = false) :
    (om.handleCutoffPair env f event).om.rds.orders =
      om.rds.orders.map (fun o =>
        if o.OrderHash ∈ (om.saveCutoffPairEvent env f event).2.1.OrderHashList then
          { o with Status := types.OrderStatus.ORDER_CUTOFF, UpdatedBlock := event.BlockNumber }
        else o) := by
  rw [handleCutoffPair_of_accepted env f om event hok hs hge]
  simp [OrderManagerImpl.setCutOffOrders, dao.RdsService.SetCutOffOrders, hset,
    (saveCutoffPairEvent_frame env f om event).2]

/-- C5, amended: a successful cutoff (or cutoff-pair) event whose cutoff equals the cached one
and whose record is saved (inserted or updated) is accepted like a newer one: the cache slot is
overwritten with the same value, so every cached value reads as before, the bulk update tags
every order of the saved event's list cutoff at the event's block (when that store call does
not fail), and the notification with the saved event is published. -/
theorem cutoff_tie_accepted (env : Env) (f : Faults) (om : OrderManagerImpl) :
    (∀ event : types.CutoffEvent,
      event.Status = types.TxStatus.TX_STATUS_SUCCESS →
      (om.saveCutoffEvent env f event).2.2 = none →
      event.Cutoff = om.cutoffCache.GetCutoff event.Protocol event.Owner →
      (∀ p o, (om.handleCutoff env f event).om.cutoffCache.GetCutoff p o = om.cutoffCache.GetCutoff p o) ∧
      (om.handleCutoff env f event).notified = [Notification.Cutoff (om.saveCutoffEvent env f event).2.1] ∧
      (f.SetCutOffOrders = false →
        (om.handleCutoff env f event).om.rds.orders =
          om.rds.orders.map (fun o =>
            if o.OrderHash ∈ (om.saveCutoffEvent env f event).2.1.OrderHashList then
              { o with Status := types.OrderStatus.ORDER_CUTOFF, UpdatedBlock := event.BlockNumber }
            else o))) ∧
    (∀ event : types.CutoffPairEvent,
      event.Status = types.TxStatus.TX_STATUS_SUCCESS →
      (om.saveCutoffPairEvent env f event).2.2 = none →
      event.Cutoff = om.cutoffCache.GetCutoffPair event.Protocol event.Owner event.Token1 event.Token2 →
      (∀ p o a b, (om.handleCutoffPair env f event).om.cutoffCache.GetCutoffPair p o a b
          = om.cutoffCache.GetCutoffPair p o a b) ∧
      (om.handleCutoffPair env f event).notified
          = [Notification.CutoffPair (om.saveCutoffPairEvent env f event).2.1] ∧
      (f.SetCutOffOrders = false →
        (om.handleCutoffPair env f event).om.rds.orders =
          om.rds.orders.map (fun o =>
            if o.OrderHash ∈ (om.saveCutoffPairEvent env f event).2.1.OrderHashList then
              { o with Status := types.OrderStatus.ORDER_CUTOFF, UpdatedBlock := event.BlockNumber }
            else o))) := by
  refine ⟨fun event hs hok heq => ⟨?_, ?_, ?_⟩, fun event hs hok heq => ⟨?_, ?_, ?_⟩⟩
  · intro p o
    rw [handleCutoff_of_accepted env f om event hok hs (le_of_eq heq.symm)]
    simp only [OrderManagerImpl.setCutOffOrders_cutoffCache, omcm.CutoffCache.GetCutoff,
      omcm.CutoffCache.UpdateCutoff] at heq ⊢
    split
    · rename_i h
      rw [heq, h.1, h.2]
    · rfl
  · rw [handleCutoff_of_accepted env f om event hok hs (le_of_eq heq.symm)]
  · exact handleCutoff_orders_of_accepted env f om event hok hs (le_of_eq heq.symm)
  · intro p o a b
    rw [handleCutoffPair_of_accepted env f om event hok hs (le_of_eq heq.symm)]
    simp only [OrderManagerImpl.setCutOffOrders_cutoffCache, omcm.CutoffCache.GetCutoffPair,
      omcm.CutoffCache.UpdateCutoffPair] at heq ⊢
    split
    · rename_i h
      rw [heq, h.1, h.2.1, h.2.2.1, h.2.2.2]
    · rfl
  · rw [handleCutoffPair_of_accepted env f om event hok hs (le_of_eq heq.symm)]
  · exact handleCutoffPair_orders_of_accepted env f om event hok hs (le_of_eq heq.symm)

/-- C5 amended, at a concrete input: with 1000 cached, CutoffAll(cutoff = 1000, order 3) at
block 70 in a new transaction is published and tags order 3 cutoff at block 70, and the cached
value still reads 1000; the same for a token pair. -/
theorem cutoff_tie_accepted_witness :
    ((exampleCutoff 503 1000 70 [3]).Status = types.TxStatus.TX_STATUS_SUCCESS ∧
      (exampleAfterCutoff.saveCutoffEvent exampleEnv Faults.none (exampleCutoff 503 1000 70 [3])).2.2 = none ∧
      (exampleCutoff 503 1000 70 [3]).Cutoff = exampleAfterCutoff.cutoffCache.GetCutoff 100 1) ∧
    ((exampleAfterCutoff.handleCutoff exampleEnv Faults.none (exampleCutoff 503 1000 70 [3])).om.cutoffCache.GetCutoff
        100 1 = exampleAfterCutoff.cutoffCache.GetCutoff 100 1 ∧
      (exampleAfterCutoff.handleCutoff exampleEnv Faults.none (exampleCutoff 503 1000 70 [3])).notified
        = [Notification.Cutoff
            (exampleAfterCutoff.saveCutoffEvent exampleEnv Faults.none (exampleCutoff 503 1000 70 [3])).2.1]) ∧
    ((exampleCutoffPair 503 1000 70 [3]).Status = types.TxStatus.TX_STATUS_SUCCESS ∧
      (exampleAfterCutoffPair.saveCutoffPairEvent exampleEnv Faults.none
          (exampleCutoffPair 503 1000 70 [3])).2.2 = none ∧
      (exampleCutoffPair 503 1000 70 [3]).Cutoff
        = exampleAfterCutoffPair.cutoffCache.GetCutoffPair 100 1 10 20) ∧
    ((exampleAfterCutoffPair.handleCutoffPair exampleEnv Faults.none
          (exampleCutoffPair 503 1000 70 [3])).notified
        = [Notification.CutoffPair
            (exampleAfterCutoffPair.saveCutoffPairEvent exampleEnv Faults.none
              (exampleCutoffPair 503 1000 70 [3])).2.1] ∧
      (exampleAfterCutoffPair.handleCutoffPair exampleEnv Faults.none
          (exampleCutoffPair 503 1000 70 [3])).om.rds.orders =
        exampleAfterCutoffPair.rds.orders.map (fun o =>
          if o.OrderHash ∈ (exampleAfterCutoffPair.saveCutoffPairEvent exampleEnv Faults.none
              (exampleCutoffPair 503 1000 70 [3])).2.1.OrderHashList then
            { o with Status := types.OrderStatus.ORDER_CUTOFF,
                     UpdatedBlock := (exampleCutoffPair 503 1000 70 [3]).BlockNumber }
          else o)) :=
  ⟨⟨by decide, by decide, by decide⟩,
    ⟨((cutoff_tie_accepted exampleEnv Faults.none exampleAfterCutoff).1 (exampleCutoff 503 1000 70 [3])
        (by decide) (by decide) (by decide)).1 100 1,
      ((cutoff_tie_accepted exampleEnv Faults.none exampleAfterCutoff).1 (exampleCutoff 503 1000 70 [3])
        (by decide) (by decide) (by decide)).2.1⟩,
    ⟨by decide, by decide, by decide⟩,
    ⟨((cutoff_tie_accepted exampleEnv Faults.none exampleAfterCutoffPair).2
        (exampleCutoffPair 503 1000 70 [3]) (by decide) (by decide) (by decide)).2.1,
      ((cutoff_tie_accepted exampleEnv Faults.none exampleAfterCutoffPair).2
        (exampleCutoffPair 503 1000 70 [3]) (by decide) (by decide) (by decide)).2.2 (by decide)⟩⟩

/-! ## Subscriptions -/

/-- The method `Stop` removes no registration on the topic CutoffPair. -/
theorem Process.Stop_count_CutoffPair (p : Process) :
    eventemitter.count p.Stop.registry eventemitter.Topic.CutoffPair
      = eventemitter.count p.registry eventemitter.Topic.CutoffPair := by
  have key : ∀ (reg : eventemitter.Registry) (t : eventemitter.Topic) (w : Option eventemitter.Watcher),
      t ≠ eventemitter.Topic.CutoffPair →
      eventemitter.count (eventemitter.Un reg t w) eventemitter.Topic.CutoffPair
        = eventemitter.count reg eventemitter.Topic.CutoffPair := by
    intro reg t w ht
    cases w with
    | none => rfl
    | some w =>
      unfold eventemitter.count eventemitter.Un
      rw [List.countP_filter]
      apply List.countP_congr
      intro r _
      by_cases hr : r.1 = eventemitter.Topic.CutoffPair
      · have : ¬ (eventemitter.Topic.CutoffPair = t) := fun h => ht h.symm
        simp [hr, this]
      · simp [hr]
  unfold Process.Stop
  simp only []
  rw [key _ _ _ (by decide), key _ _ _ (by decide), key _ _ _ (by decide), key _ _ _ (by decide),
    key _ _ _ (by decide), key _ _ _ (by decide), key _ _ _ (by decide), key _ _ _ (by decide)]

/-- The method `Start` adds one registration on the topic CutoffPair. -/
theorem Process.Start_count_CutoffPair (p : Process) :
    eventemitter.count p.Start.registry eventemitter.Topic.CutoffPair
      = eventemitter.count p.registry eventemitter.Topic.CutoffPair + 1 := by
  simp [Process.Start, eventemitter.count, eventemitter.On, List.countP_append, List.countP_cons]

/-- Every fork that the fork processor repairs leaves one more watcher on CutoffPair. -/
theorem Process.handleFork_count_CutoffPair (env : Env) (p : Process) (input : types.ForkedEvent)
    (r : Process × Option Err) (h : p.handleFork env input = some r) :
    eventemitter.count r.1.registry eventemitter.Topic.CutoffPair
      = eventemitter.count p.registry eventemitter.Topic.CutoffPair + 1 := by
  unfold Process.handleFork at h
  simp only [] at h
  cases hf : env.Fork p.Stop.om.rds input with
  | none => simp [hf] at h
  | some rds =>
    simp only [hf, Option.some.injEq] at h
    subst h
    rw [Process.Start_count_CutoffPair]
    exact congrArg (· + 1) (Process.Stop_count_CutoffPair p)

/-- C6, at the failing input: after `Start` and then `Stop` on a fresh process the watcher of
`handleCutoffPair` is still registered on CutoffPair, also when the stop is the one of
`handleWarning`; the eight other topics are empty. -/
theorem stop_leaves_cutoffPair_registered :
    exampleProcess.Start.Stop.registry
      = [(eventemitter.Topic.CutoffPair,
          { addr := 5, Concurrent := false, Handle := Handler.handleCutoffPair })] ∧
    exampleProcess.Start.handleWarning.1.registry
      = [(eventemitter.Topic.CutoffPair,
          { addr := 5, Concurrent := false, Handle := Handler.handleCutoffPair })] ∧
    exampleProcess.Start.om.cutoffPairWatcher
      = some { addr := 5, Concurrent := false, Handle := Handler.handleCutoffPair } := by
  decide

/-- C7, at the failing input: after `Start` and one repaired fork the topic CutoffPair has two
watchers, after three forks it has four, while each other topic has one. -/
theorem fork_duplicates_cutoffPair_watcher :
    (exampleProcess.Start.handleFork exampleEnv exampleFork).map
        (fun r => eventemitter.count r.1.registry eventemitter.Topic.CutoffPair) = some 2 ∧
    (exampleProcess.Start.handleFork exampleEnv exampleFork).map
        (fun r => [eventemitter.Topic.NewOrder, eventemitter.Topic.RingMined, eventemitter.Topic.OrderFilled,
          eventemitter.Topic.CancelOrder, eventemitter.Topic.CutoffAll, eventemitter.Topic.ChainForkDetected,
          eventemitter.Topic.ExtractorWarning, eventemitter.Topic.Miner_SubmitRing_Method].map
            (eventemitter.count r.1.registry)) = some [1, 1, 1, 1, 1, 1, 1, 1] ∧
    (Process.handleForks exampleEnv exampleProcess.Start [exampleFork, exampleFork, exampleFork]).map
        (fun p => eventemitter.count p.registry eventemitter.Topic.CutoffPair) = some 4 := by
  decide

/-! ## The status of a ring-mined record -/

/-- What `saveRingMinedEvent` does to the record a lookup by any transaction hash returns: its status stays,
or the hash is the event's and the status becomes the event's. -/
theorem saveRingMinedEvent_status (f : Faults) (om : OrderManagerImpl) (event : types.RingMinedEvent)
    (h : common.Hash) (st : types.TxStatus) (hrec : RingRecorded om h st) :
    RingRecorded (om.saveRingMinedEvent f event).1 h st ∨
    (h = event.TxHash ∧ RingRecorded (om.saveRingMinedEvent f event).1 h event.Status) := by
  obtain ⟨id, m, hfind, hst⟩ := (RingRecorded_iff _ _ _).1 hrec
  unfold OrderManagerImpl.saveRingMinedEvent
  cases hev : om.rds.FindRingMined event.TxHash with
  | none =>
    left
    simp only []
    by_cases hadd : f.Add = true
    · simpa [dao.RdsService.Add, hadd, OrderManagerImpl.written] using hrec
    · rw [RingRecorded_iff]
      unfold dao.RdsService.FindRingMined at hfind
      simp only [dao.RdsService.Add, hadd, Bool.false_eq_true, if_false, OrderManagerImpl.written,
        dao.RdsService.FindRingMined]
      exact ⟨id, m, dao.findRow_append_of_some _ _ _ _ hfind, hst⟩
  | some r =>
    obtain ⟨i, r⟩ := r
    simp only []
    by_cases hs : r.Status = event.Status
    · left; simpa [hs] using hrec
    by_cases hsave : f.Save = true
    · left; simpa [hs, dao.RdsService.Save, hsave, OrderManagerImpl.written] using hrec
    simp only [hs, ne_eq, not_false_eq_true, if_true, dao.RdsService.Save, hsave, Bool.false_eq_true,
      if_false, OrderManagerImpl.written]
    unfold dao.RdsService.FindRingMined at hfind hev
    by_cases hh : h = event.TxHash
    · right
      refine ⟨hh, (RingRecorded_iff _ _ _).2 ⟨i, r.ConvertDown event, ?_, rfl⟩⟩
      subst hh
      simp only [dao.RdsService.FindRingMined]
      exact dao.findRow_set_same _ _ _ r _ hev (by simp [dao.RingMinedEvent.ConvertDown])
    · left
      refine (RingRecorded_iff _ _ _).2 ⟨id, m, ?_, hst⟩
      simp only [dao.RdsService.FindRingMined]
      rw [dao.findRow_set_other (fun r => decide (r.TxHash = event.TxHash)) _ _ i r _ hev]
      · exact hfind
      · have hp := dao.findRow_prop _ _ _ hev
        simp only [decide_eq_true_eq] at hp
        simp only [decide_eq_false_iff_not]
        rw [hp]
        exact fun h' => hh h'.symm
      · simp only [decide_eq_false_iff_not, dao.RingMinedEvent.ConvertDown]
        exact fun h' => hh h'.symm

/-- What `saveSubmitRingEvent` does to the record a lookup by any transaction hash returns: its status stays,
or the hash is the event's and the status becomes the event's. -/
theorem saveSubmitRingEvent_status (f : Faults) (om : OrderManagerImpl) (event : types.SubmitRingMethodEvent)
    (h : common.Hash) (st : types.TxStatus) (hrec : RingRecorded om h st) :
    RingRecorded (om.saveSubmitRingEvent f event).1 h st ∨
    (h = event.TxHash ∧ RingRecorded (om.saveSubmitRingEvent f event).1 h event.Status) := by
  obtain ⟨id, m, hfind, hst⟩ := (RingRecorded_iff _ _ _).1 hrec
  unfold OrderManagerImpl.saveSubmitRingEvent
  cases hev : om.rds.FindRingMined event.TxHash with
  | none =>
    left
    simp only []
    by_cases hadd : f.Add = true
    · simpa [dao.RdsService.Add, hadd, OrderManagerImpl.written] using hrec
    · rw [RingRecorded_iff]
      unfold dao.RdsService.FindRingMined at hfind
      simp only [dao.RdsService.Add, hadd, Bool.false_eq_true, if_false, OrderManagerImpl.written,
        dao.RdsService.FindRingMined]
      exact ⟨id, m, dao.findRow_append_of_some _ _ _ _ hfind, hst⟩
  | some r =>
    obtain ⟨i, r⟩ := r
    simp only []
    by_cases hs : r.Status = event.Status
    · left; simpa [hs] using hrec
    by_cases hsave : f.Save = true
    · left; simpa [hs, dao.RdsService.Save, hsave, OrderManagerImpl.written] using hrec
    simp only [hs, ne_eq, not_false_eq_true, if_true, dao.RdsService.Save, hsave, Bool.false_eq_true,
      if_false, OrderManagerImpl.written]
    unfold dao.RdsService.FindRingMined at hfind hev
    by_cases hh : h = event.TxHash
    · right
      refine ⟨hh, (RingRecorded_iff _ _ _).2 ⟨i, r.FromSubmitRingMethod event, ?_, rfl⟩⟩
      subst hh
      simp only [dao.RdsService.FindRingMined]
      exact dao.findRow_set_same _ _ _ r _ hev (by simp [dao.RingMinedEvent.FromSubmitRingMethod])
    · left
      refine (RingRecorded_iff _ _ _).2 ⟨id, m, ?_, hst⟩
      simp only [dao.RdsService.FindRingMined]
      rw [dao.findRow_set_other (fun r => decide (r.TxHash = event.TxHash)) _ _ i r _ hev]
      · exact hfind
      · have hp := dao.findRow_prop _ _ _ hev
        simp only [decide_eq_true_eq] at hp
        simp only [decide_eq_false_iff_not]
        rw [hp]
        exact fun h' => hh h'.symm
      · simp only [decide_eq_false_iff_not, dao.RingMinedEvent.FromSubmitRingMethod]
        exact fun h' => hh h'.symm

/-- One invocation that is not a pending submit for `h` keeps a success or failed status of the
record for `h` within success and failed. -/
theorem RingCall.run_settled (om : OrderManagerImpl) (h : common.Hash) (c : RingCall)
    (hc : c.isPendingSubmit h = false)
    (hrec : RingRecorded om h types.TxStatus.TX_STATUS_SUCCESS ∨
      RingRecorded om h types.TxStatus.TX_STATUS_FAILED) :
    RingRecorded (c.run om) h types.TxStatus.TX_STATUS_SUCCESS ∨
      RingRecorded (c.run om) h types.TxStatus.TX_STATUS_FAILED := by
  cases c with
  | ringMined f event =>
    simp only [RingCall.run, handleRingMined_om]
    split
    · exact hrec
    · rename_i hs
      have hs' : event.Status = types.TxStatus.TX_STATUS_SUCCESS := by
        by_contra hne
        exact hs hne
      rcases hrec with hrec | hrec
      · rcases saveRingMinedEvent_status f om event h _ hrec with h1 | ⟨_, h1⟩
        · exact Or.inl h1
        · rw [hs'] at h1; exact Or.inl h1
      · rcases saveRingMinedEvent_status f om event h _ hrec with h1 | ⟨_, h1⟩
        · exact Or.inr h1
        · rw [hs'] at h1; exact Or.inl h1
  | submitRing f event =>
    simp only [RingCall.run, handleSubmitRingMethod_om]
    split
    · exact hrec
    · rename_i hs
      have key : h = event.TxHash → event.Status = types.TxStatus.TX_STATUS_FAILED := by
        intro hh
        simp only [RingCall.isPendingSubmit, decide_eq_false_iff_not, not_and] at hc
        have hnp := hc hh.symm
        by_contra hnf
        exact hs ⟨hnf, hnp⟩
      rcases hrec with hrec | hrec
      · rcases saveSubmitRingEvent_status f om event h _ hrec with h1 | ⟨hh, h1⟩
        · exact Or.inl h1
        · rw [key hh] at h1; exact Or.inr h1
      · rcases saveSubmitRingEvent_status f om event h _ hrec with h1 | ⟨hh, h1⟩
        · exact Or.inr h1
        · rw [key hh] at h1; exact Or.inr h1

/-- C8 fails as stated: after RingMined(T, success) has stored a success record for T,
SubmitRingMethod(T, pending) changes the persisted status of that record back to pending. -/
theorem ring_status_reverts_counterexample :
    RingRecorded (exampleOmEmpty.handleRingMined Faults.none
        (exampleRingMined types.TxStatus.TX_STATUS_SUCCESS)).om 77 types.TxStatus.TX_STATUS_SUCCESS ∧
    RingRecorded ((exampleOmEmpty.handleRingMined Faults.none
        (exampleRingMined types.TxStatus.TX_STATUS_SUCCESS)).om.handleSubmitRingMethod Faults.none
        (exampleSubmitRing types.TxStatus.TX_STATUS_PENDING)).om 77 types.TxStatus.TX_STATUS_PENDING ∧
    ((exampleOmEmpty.handleRingMined Faults.none
        (exampleRingMined types.TxStatus.TX_STATUS_SUCCESS)).om.handleSubmitRingMethod Faults.none
        (exampleSubmitRing types.TxStatus.TX_STATUS_PENDING)).om.rds.ringMinedEvents.map
          (fun r => (r.TxHash, r.Status)) = [(77, types.TxStatus.TX_STATUS_PENDING)] := by
  decide

/-- C8, amended: along every sequence of `handleRingMined` and `handleSubmitRingMethod`
invocations that contains no `handleSubmitRingMethod` on a pending event for the transaction
hash, a record for that hash whose status is success or failed keeps a status that is success
or failed, whichever store calls fail; and `handleSubmitRingMethod` on a pending event for the
hash, when its save succeeds, does leave the record of that hash pending, whatever its status
was. -/
theorem ring_status_settled_unless_pending_submit (om : OrderManagerImpl) (h : common.Hash) :
    (∀ cs : List RingCall, (∀ c ∈ cs, c.isPendingSubmit h = false) →
      (RingRecorded om h types.TxStatus.TX_STATUS_SUCCESS ∨
        RingRecorded om h types.TxStatus.TX_STATUS_FAILED) →
      (RingRecorded (om.runRingCalls cs) h types.TxStatus.TX_STATUS_SUCCESS ∨
        RingRecorded (om.runRingCalls cs) h types.TxStatus.TX_STATUS_FAILED)) ∧
    (∀ (f : Faults) (event : types.SubmitRingMethodEvent) (st : types.TxStatus),
      event.TxHash = h → event.Status = types.TxStatus.TX_STATUS_PENDING → f.Save = false →
      RingRecorded om h st →
      RingRecorded (om.handleSubmitRingMethod f event).om h types.TxStatus.TX_STATUS_PENDING) := by
  constructor
  · intro cs
    induction cs generalizing om with
    | nil => intro _ hrec; exact hrec
    | cons c cs ih =>
      intro hcs hrec
      simp only [OrderManagerImpl.runRingCalls, List.foldl_cons]
      exact ih (c.run om) (fun c' hc' => hcs c' (List.mem_cons_of_mem _ hc'))
        (RingCall.run_settled om h c (hcs c (List.mem_cons_self _ _)) hrec)
  · intro f event st hh hp hsave hrec
    subst hh
    rw [handleSubmitRingMethod_om]
    simp only [hp, ne_eq, not_true_eq_false, and_false, if_false]
    by_cases hst : st = types.TxStatus.TX_STATUS_PENDING
    · subst hst
      have hdup : RingRecorded om event.TxHash event.Status := by rw [hp]; exact hrec
      rw [saveSubmitRingEvent_of_recorded f om event hdup]
      exact hrec
    · obtain ⟨id, m, hfind, hm⟩ := (RingRecorded_iff _ _ _).1 hrec
      have hne : m.Status ≠ event.Status := by rw [hm, hp]; exact hst
      rw [RingRecorded_iff]
      refine ⟨id, m.FromSubmitRingMethod event, ?_, by simp [dao.RingMinedEvent.FromSubmitRingMethod, hp]⟩
      simp only [OrderManagerImpl.saveSubmitRingEvent, hfind, hne, ne_eq, not_false_eq_true, if_true,
        dao.RdsService.Save, hsave, Bool.false_eq_true, if_false, OrderManagerImpl.written]
      unfold dao.RdsService.FindRingMined at hfind ⊢
      exact dao.findRow_set_same _ _ _ m _ hfind (by simp [dao.RingMinedEvent.FromSubmitRingMethod])

/-- C8 amended, at a concrete input: with a success record for T = 77 stored, a sequence of a
failed submit, a successful ring-mined and a submit for another transaction leaves the record
success or failed, and a pending submit for T leaves it pending. -/
theorem ring_status_settled_unless_pending_submit_witness :
    ((∀ c ∈ [RingCall.submitRing Faults.none (exampleSubmitRing types.TxStatus.TX_STATUS_FAILED),
          RingCall.ringMined Faults.none (exampleRingMined types.TxStatus.TX_STATUS_SUCCESS),
          RingCall.submitRing Faults.none
            { TxHash := 78, Status := types.TxStatus.TX_STATUS_PENDING, BlockNumber := 31 }],
        c.isPendingSubmit 77 = false) ∧
      (RingRecorded (exampleOmEmpty.handleRingMined Faults.none
          (exampleRingMined types.TxStatus.TX_STATUS_SUCCESS)).om 77 types.TxStatus.TX_STATUS_SUCCESS ∨
        RingRecorded (exampleOmEmpty.handleRingMined Faults.none
          (exampleRingMined types.TxStatus.TX_STATUS_SUCCESS)).om 77 types.TxStatus.TX_STATUS_FAILED)) ∧
    (RingRecorded ((exampleOmEmpty.handleRingMined Faults.none
          (exampleRingMined types.TxStatus.TX_STATUS_SUCCESS)).om.runRingCalls
        [RingCall.submitRing Faults.none (exampleSubmitRing types.TxStatus.TX_STATUS_FAILED),
          RingCall.ringMined Faults.none (exampleRingMined types.TxStatus.TX_STATUS_SUCCESS),
          RingCall.submitRing Faults.none
            { TxHash := 78, Status := types.TxStatus.TX_STATUS_PENDING, BlockNumber := 31 }])
        77 types.TxStatus.TX_STATUS_SUCCESS ∨
      RingRecorded ((exampleOmEmpty.handleRingMined Faults.none
          (exampleRingMined types.TxStatus.TX_STATUS_SUCCESS)).om.runRingCalls
        [RingCall.submitRing Faults.none (exampleSubmitRing types.TxStatus.TX_STATUS_FAILED),
          RingCall.ringMined Faults.none (exampleRingMined types.TxStatus.TX_STATUS_SUCCESS),
          RingCall.submitRing Faults.none
            { TxHash := 78, Status := types.TxStatus.TX_STATUS_PENDING, BlockNumber := 31 }])
        77 types.TxStatus.TX_STATUS_FAILED) ∧
    RingRecorded ((exampleOmEmpty.handleRingMined Faults.none
        (exampleRingMined types.TxStatus.TX_STATUS_SUCCESS)).om.handleSubmitRingMethod Faults.none
        (exampleSubmitRing types.TxStatus.TX_STATUS_PENDING)).om 77 types.TxStatus.TX_STATUS_PENDING :=
  ⟨⟨by decide, by decide⟩,
    (ring_status_settled_unless_pending_submit
      (exampleOmEmpty.handleRingMined Faults.none (exampleRingMined types.TxStatus.TX_STATUS_SUCCESS)).om 77).1
      _ (by decide) (by decide),
    (ring_status_settled_unless_pending_submit
      (exampleOmEmpty.handleRingMined Faults.none (exampleRingMined types.TxStatus.TX_STATUS_SUCCESS)).om 77).2
      Faults.none (exampleSubmitRing types.TxStatus.TX_STATUS_PENDING) types.TxStatus.TX_STATUS_SUCCESS
      (by decide) (by decide) (by decide) (by decide)⟩

/-! ## The insert, update, duplicate protocol of ring-mined events -/

/-- C9: `handleRingMined` never returns an error; an event that is not successful leaves the
manager as it is; a successful event with no record for its transaction hash appends exactly
one record, the event copied into an empty row; with a record of another status that row is
overwritten in place with the event copied over it, the number of records staying the same;
with a record of the same status the manager stays as it is (insert and save succeeding). -/
theorem handleRingMined_protocol (f : Faults) (om : OrderManagerImpl) (event : types.RingMinedEvent) :
    (om.handleRingMined f event).err = none ∧
    (event.Status ≠ types.TxStatus.TX_STATUS_SUCCESS → (om.handleRingMined f event).om = om) ∧
    (event.Status = types.TxStatus.TX_STATUS_SUCCESS → om.rds.FindRingMined event.TxHash = none →
      f.Add = false →
      (om.handleRingMined f event).om.rds =
        { om.rds with ringMinedEvents :=
            om.rds.ringMinedEvents ++ [dao.RingMinedEvent.zero.ConvertDown event] } ∧
      (dao.RingMinedEvent.zero.ConvertDown event) =
        { TxHash := event.TxHash, Status := event.Status, BlockNumber := event.BlockNumber,
          RingHash := event.Ringhash, Fork := false } ∧
      (om.handleRingMined f event).om.rds.ringMinedEvents.length = om.rds.ringMinedEvents.length + 1) ∧
    (event.Status = types.TxStatus.TX_STATUS_SUCCESS →
      ∀ id m, om.rds.FindRingMined event.TxHash = some (id, m) → m.Status ≠ event.Status →
      f.Save = false →
      (om.handleRingMined f event).om.rds =
        { om.rds with ringMinedEvents := om.rds.ringMinedEvents.set id (m.ConvertDown event) } ∧
      (om.handleRingMined f event).om.rds.ringMinedEvents.length = om.rds.ringMinedEvents.length ∧
      (om.handleRingMined f event).om.rds.FindRingMined event.TxHash = some (id, m.ConvertDown event) ∧
      (m.ConvertDown event).Status = event.Status) ∧
    (event.Status = types.TxStatus.TX_STATUS_SUCCESS →
      ∀ id m, om.rds.FindRingMined event.TxHash = some (id, m) → m.Status = event.Status →
      (om.handleRingMined f event).om = om) := by
  refine ⟨?_, ?_, ?_, ?_, ?_⟩
  · unfold OrderManagerImpl.handleRingMined
    split
    · rfl
    · split <;> rfl
  · intro hs
    rw [handleRingMined_om, if_pos hs]
  · intro hs hnone hadd
    rw [handleRingMined_om]
    simp [hs, OrderManagerImpl.saveRingMinedEvent, hnone, dao.RdsService.Add, hadd,
      OrderManagerImpl.written, dao.RingMinedEvent.ConvertDown, dao.RingMinedEvent.zero]
  · intro hs id m hfind hne hsave
    rw [handleRingMined_om]
    simp only [hs, ne_eq, not_true_eq_false, if_false, OrderManagerImpl.saveRingMinedEvent, hfind,
      dao.RdsService.Save, hsave, Bool.false_eq_true, OrderManagerImpl.written, List.length_set,
      true_and]
    rw [hs] at hne
    simp only [hne, not_false_eq_true, if_true, List.length_set, true_and]
    refine ⟨?_, by simp [dao.RingMinedEvent.ConvertDown, hs]⟩
    unfold dao.RdsService.FindRingMined at hfind ⊢
    simp only []
    have := dao.findRow_set_same _ _ _ m (m.ConvertDown event) hfind
      (by simp [dao.RingMinedEvent.ConvertDown])
    exact this
  · intro hs id m hfind heq
    rw [handleRingMined_om]
    simp [hs, OrderManagerImpl.saveRingMinedEvent, hfind, heq]

/-- C9, at a concrete input: SubmitRingMethod(T, pending), RingMined(T, success),
RingMined(T, success) ends with one record for T, of status success; the second call updates
the record of the first in place and the third call changes nothing. A RingMined(T, success)
on an empty store inserts one record, and a RingMined(T, failed) is ignored. -/
theorem handleRingMined_protocol_witness :
    ((exampleRingMined types.TxStatus.TX_STATUS_FAILED).Status ≠ types.TxStatus.TX_STATUS_SUCCESS ∧
      (exampleAfterSubmit.handleRingMined Faults.none (exampleRingMined types.TxStatus.TX_STATUS_FAILED)).om
        = exampleAfterSubmit) ∧
    (exampleOmEmpty.rds.FindRingMined 77 = none ∧
      (exampleOmEmpty.handleRingMined Faults.none
          (exampleRingMined types.TxStatus.TX_STATUS_SUCCESS)).om.rds.ringMinedEvents.length = 0 + 1) ∧
    (exampleAfterSubmit.rds.FindRingMined 77
        = some (0, exampleRowPending) ∧
      exampleAfterMined.rds.ringMinedEvents
        = [exampleRowSuccess] ∧
      exampleAfterMined.rds.ringMinedEvents.length = exampleAfterSubmit.rds.ringMinedEvents.length) ∧
    ((exampleAfterMined.handleRingMined Faults.none (exampleRingMined types.TxStatus.TX_STATUS_SUCCESS)).om
        = exampleAfterMined ∧
      (exampleAfterMined.handleRingMined Faults.none (exampleRingMined types.TxStatus.TX_STATUS_SUCCESS)).err
        = none) :=
  ⟨⟨by decide,
      (handleRingMined_protocol Faults.none exampleAfterSubmit
        (exampleRingMined types.TxStatus.TX_STATUS_FAILED)).2.1 (by decide)⟩,
    ⟨by decide,
      ((handleRingMined_protocol Faults.none exampleOmEmpty
        (exampleRingMined types.TxStatus.TX_STATUS_SUCCESS)).2.2.1 (by decide) (by decide) (by decide)).2.2⟩,
    ⟨by decide, by decide,
      ((handleRingMined_protocol Faults.none exampleAfterSubmit
        (exampleRingMined types.TxStatus.TX_STATUS_SUCCESS)).2.2.2.1 (by decide) 0 exampleRowPending
        (by decide) (by decide) (by decide)).2.1⟩,
    ⟨(handleRingMined_protocol Faults.none exampleAfterMined
        (exampleRingMined types.TxStatus.TX_STATUS_SUCCESS)).2.2.2.2 (by decide) 0 exampleRowSuccess
        (by decide) (by decide),
      (handleRingMined_protocol Faults.none exampleAfterMined
        (exampleRingMined types.TxStatus.TX_STATUS_SUCCESS)).1⟩⟩

/-! ## Cancellations -/

theorem saveCancelEvent_frame (f : Faults) (om : OrderManagerImpl) (event : types.OrderCancelledEvent) :
    (om.saveCancelEvent f event).1.cutoffCache = om.cutoffCache ∧
    (om.saveCancelEvent f event).1.rds.orders = om.rds.orders := by
  unfold OrderManagerImpl.saveCancelEvent
  cases hfind : om.rds.GetCancelEvent event.TxHash with
  | none =>
    by_cases hadd : f.Add = true <;> simp [dao.RdsService.Add, hadd, OrderManagerImpl.written]
  | some r =>
    obtain ⟨id, m⟩ := r
    by_cases hs : m.Status = event.Status
    · simp [hs]
    · by_cases hsave : f.Save = true <;> simp [hs, dao.RdsService.Save, hsave, OrderManagerImpl.written]

/-- With no failing write, the cancel record is inserted or updated unless the lookup returns a
record of the event's status. -/
theorem saveCancelEvent_ok_of_not_recorded (f : Faults) (om : OrderManagerImpl)
    (event : types.OrderCancelledEvent) (hadd : f.Add = false) (hsave : f.Save = false)
    (h : ¬ CancelRecorded om event.TxHash event.Status) :
    (om.saveCancelEvent f event).2 = none := by
  unfold OrderManagerImpl.saveCancelEvent
  cases hfind : om.rds.GetCancelEvent event.TxHash with
  | none => simp [dao.RdsService.Add, hadd, OrderManagerImpl.written]
  | some r =>
    obtain ⟨id, m⟩ := r
    have hne : m.Status ≠ event.Status := by
      intro heq
      exact h ((CancelRecorded_iff _ _ _).2 ⟨id, m, hfind, heq⟩)
    simp [hne, dao.RdsService.Save, hsave, OrderManagerImpl.written]

/-- C10: for a cancel event whose record is inserted or updated (the lookup returns no record
of the event's status) and whose order exists, with no failing store call,
`handleOrderCancelled` returns no error and persists the cancelled amount on the bought side
when the order's flag "buy no more than amountB" is set, leaving the sold side, and on the sold
side otherwise, leaving the bought side; the updated block becomes the event's block and the
dealt and split amounts stay. -/
theorem handleOrderCancelled_accumulates (env : Env) (om : OrderManagerImpl)
    (event : types.OrderCancelledEvent) (o : dao.Order)
    (hsaved : ¬ CancelRecorded om event.TxHash event.Status)
    (ho : om.rds.GetOrderByHash event.OrderHash = some o) :
    (om.handleOrderCancelled env Faults.none event).err = none ∧
    ∃ o', (om.handleOrderCancelled env Faults.none event).om.rds.GetOrderByHash event.OrderHash = some o' ∧
      (o.BuyNoMoreThanAmountB = true →
        o'.CancelledAmountB = o.CancelledAmountB + event.AmountCancelled ∧
        o'.CancelledAmountS = o.CancelledAmountS) ∧
      (o.BuyNoMoreThanAmountB = false →
        o'.CancelledAmountS = o.CancelledAmountS + event.AmountCancelled ∧
        o'.CancelledAmountB = o.CancelledAmountB) ∧
      o'.UpdatedBlock = event.BlockNumber ∧
      o'.DealtAmountS = o.DealtAmountS ∧ o'.DealtAmountB = o.DealtAmountB ∧
      o'.SplitAmountS = o.SplitAmountS ∧ o'.SplitAmountB = o.SplitAmountB := by
  have hok := saveCancelEvent_ok_of_not_recorded Faults.none om event rfl rfl hsaved
  have hfr := (saveCancelEvent_frame Faults.none om event).2
  have hkey := dao.RdsService.GetOrderByHash_hash _ _ _ ho
  unfold OrderManagerImpl.handleOrderCancelled
  cases hsv : om.saveCancelEvent Faults.none event with
  | mk om1 oe =>
    rw [hsv] at hok hfr
    simp only at hok hfr
    subst hok
    unfold dao.RdsService.GetOrderByHash at ho
    simp only [dao.Order.ConvertUp, Faults.none, Bool.false_eq_true, if_false,
      dao.Order.ConvertDown, dao.RdsService.UpdateOrderWhileCancel, dao.RdsService.GetOrderByHash,
      hfr, ho, hkey, true_and, apply_ite types.OrderState.RawOrder, ite_self]
    rw [dao.findRow_map _ _ (by intro x; by_cases hx : x.OrderHash = event.OrderHash <;> simp [hx])]
    rw [Option.map_map]
    cases hf : dao.findRow (fun o => decide (o.OrderHash = event.OrderHash)) om.rds.orders with
    | none => simp [hf] at ho
    | some r =>
      simp [hf] at ho
      subst ho
      by_cases hb : r.2.BuyNoMoreThanAmountB = true <;> simp [hkey, hb]

/-- C10, at a concrete input: a cancel of 30 on order 7 adds 30 to the cancelled amount bought
when the flag is set and to the cancelled amount sold when it is not. -/
theorem handleOrderCancelled_accumulates_witness :
    (¬ CancelRecorded (exampleOmFlag true) (exampleCancel types.TxStatus.TX_STATUS_SUCCESS).TxHash
          (exampleCancel types.TxStatus.TX_STATUS_SUCCESS).Status ∧
      (exampleOmFlag true).rds.GetOrderByHash (exampleCancel types.TxStatus.TX_STATUS_SUCCESS).OrderHash
        = some (exampleOrder 7 types.OrderStatus.ORDER_NEW true)) ∧
    ((exampleOmFlag true).handleOrderCancelled exampleEnv Faults.none
        (exampleCancel types.TxStatus.TX_STATUS_SUCCESS)).err = none ∧
    (((exampleOmFlag true).handleOrderCancelled exampleEnv Faults.none
        (exampleCancel types.TxStatus.TX_STATUS_SUCCESS)).om.rds.GetOrderByHash 7).map
        (fun o => (o.CancelledAmountS, o.CancelledAmountB, o.UpdatedBlock)) = some (0, 30, 15) ∧
    (((exampleOmFlag false).handleOrderCancelled exampleEnv Faults.none
        (exampleCancel types.TxStatus.TX_STATUS_SUCCESS)).om.rds.GetOrderByHash 7).map
        (fun o => (o.CancelledAmountS, o.CancelledAmountB, o.UpdatedBlock)) = some (30, 0, 15) ∧
    ((exampleOmFlag false).handleOrderCancelled exampleEnv Faults.none
        (exampleCancel types.TxStatus.TX_STATUS_SUCCESS)).err = none :=
  ⟨⟨by decide, by decide⟩,
    (handleOrderCancelled_accumulates exampleEnv (exampleOmFlag true)
      (exampleCancel types.TxStatus.TX_STATUS_SUCCESS) (exampleOrder 7 types.OrderStatus.ORDER_NEW true)
      (by decide) (by decide)).1,
    by decide, by decide,
    (handleOrderCancelled_accumulates exampleEnv (exampleOmFlag false)
      (exampleCancel types.TxStatus.TX_STATUS_SUCCESS) (exampleOrder 7 types.OrderStatus.ORDER_NEW false)
      (by decide) (by decide)).1⟩

/-! ## Accumulators along sequences of events -/

/-- A lookup by hash after an update of the rows with the hash `h'` returns the updated form of
the row it returned before. -/
theorem dao.RdsService.GetOrderByHash_map (orders : List dao.Order) (h h' : common.Hash)
    (g : dao.Order → dao.Order) (hg : ∀ x, (g x).OrderHash = x.OrderHash) :
    (dao.findRow (fun o => decide (o.OrderHash = h))
        (orders.map (fun o => if o.OrderHash = h' then g o else o))).map (fun r => r.2) =
      ((dao.findRow (fun o => decide (o.OrderHash = h)) orders).map (fun r => r.2)).map
        (fun o => if o.OrderHash = h' then g o else o) := by
  rw [dao.findRow_map _ _ (by
    intro x
    by_cases hx : x.OrderHash = h' <;> simp [hx, hg])]
  simp [Option.map_map, Function.comp_def]

/-- What `handleOrderFilled` writes to the order table: nothing, or the fill-path update of the
rows with the event's order hash, the amounts being those of the order the lookup returned plus
the event's. -/
theorem handleOrderFilled_orders_exact (env : Env) (f : Faults) (om : OrderManagerImpl)
    (event : types.OrderFilledEvent) :
    (om.handleOrderFilled env f event).om.rds.orders = om.rds.orders ∨
    (∃ (model : dao.Order) (st : types.OrderStatus),
      om.rds.GetOrderByHash event.OrderHash = some model ∧
      (om.handleOrderFilled env f event).om.rds.orders =
        om.rds.orders.map (fun o =>
          if o.OrderHash = event.OrderHash then
            { o with Status := st,
                     DealtAmountS := model.DealtAmountS + event.AmountS,
                     DealtAmountB := model.DealtAmountB + event.AmountB,
                     SplitAmountS := model.SplitAmountS + event.SplitS,
                     SplitAmountB := model.SplitAmountB + event.SplitB,
                     UpdatedBlock := event.BlockNumber }
          else o)) := by
  unfold OrderManagerImpl.handleOrderFilled
  by_cases hs : event.Status = types.TxStatus.TX_STATUS_SUCCESS
  swap
  · simp [hs, Result.ok]
  simp only [hs, ne_eq, not_true_eq_false, if_false]
  cases hfind : om.rds.FindFillEvent event.TxHash (Int64 event.FillIndex) with
  | some r => simp [Result.ok]
  | none =>
    simp only []
    cases ho : om.rds.GetOrderByHash event.OrderHash with
    | none => simp [Result.fail]
    | some model =>
      simp only []
      have hkey := dao.RdsService.GetOrderByHash_hash _ _ _ ho
      by_cases hcu : f.ConvertUp = true
      · simp [dao.Order.ConvertUp, hcu, Result.fail]
      by_cases hadd : f.Add = true
      · simp [dao.Order.ConvertUp, hcu, dao.RdsService.Add, hadd, Result.fail]
      by_cases hterm : model.Status = types.OrderStatus.ORDER_CUTOFF ∨
          model.Status = types.OrderStatus.ORDER_FINISHED ∨ model.Status = types.OrderStatus.ORDER_UNKNOWN
      · simp [dao.Order.ConvertUp, hcu, dao.RdsService.Add, hadd, hterm, Result.ok]
      by_cases hcd : f.ConvertDown = true
      · simp [dao.Order.ConvertUp, hcu, dao.RdsService.Add, hadd, hterm, dao.Order.ConvertDown, hcd]
      by_cases hupd : f.UpdateOrderWhileFill = true
      · simp [dao.Order.ConvertUp, hcu, dao.RdsService.Add, hadd, hterm, dao.Order.ConvertDown, hcd,
          dao.RdsService.UpdateOrderWhileFill, hupd, Result.fail]
      right
      simp only [dao.Order.ConvertUp, hcu, dao.RdsService.Add, hadd, hterm, dao.Order.ConvertDown, hcd,
        dao.RdsService.UpdateOrderWhileFill, hupd, Bool.false_eq_true, if_false, hkey]
      exact ⟨model, _, rfl, rfl⟩

/-- What `handleOrderCancelled` writes to the order table: nothing, or the cancel-path update of
the rows with the event's order hash, the event's amount being added on the side the flag of the
order the lookup returned selects. -/
theorem handleOrderCancelled_orders_exact (env : Env) (f : Faults) (om : OrderManagerImpl)
    (event : types.OrderCancelledEvent) :
    (om.handleOrderCancelled env f event).om.rds.orders = om.rds.orders ∨
    (∃ (model : dao.Order) (st : types.OrderStatus),
      om.rds.GetOrderByHash event.OrderHash = some model ∧
      (om.handleOrderCancelled env f event).om.rds.orders =
        om.rds.orders.map (fun o =>
          if o.OrderHash = event.OrderHash then
            { o with Status := st,
                     CancelledAmountS :=
                       if model.BuyNoMoreThanAmountB = true then model.CancelledAmountS
                       else model.CancelledAmountS + event.AmountCancelled,
                     CancelledAmountB :=
                       if model.BuyNoMoreThanAmountB = true then model.CancelledAmountB + event.AmountCancelled
                       else model.CancelledAmountB,
                     UpdatedBlock := event.BlockNumber }
          else o)) := by
  have hfr := (saveCancelEvent_frame f om event).2
  unfold OrderManagerImpl.handleOrderCancelled
  cases hsave : om.saveCancelEvent f event with
  | mk om1 oe =>
    rw [hsave] at hfr
    simp only at hfr
    cases oe with
    | some e => left; simpa using hfr
    | none =>
      simp only []
      cases ho : om1.rds.GetOrderByHash event.OrderHash with
      | none => left; simpa [Result.fail] using hfr
      | some model =>
        simp only []
        have ho' : om.rds.GetOrderByHash event.OrderHash = some model := by
          unfold dao.RdsService.GetOrderByHash at ho ⊢
          rw [← hfr]
          exact ho
        have hkey := dao.RdsService.GetOrderByHash_hash _ _ _ ho
        by_cases hcu : f.ConvertUp = true
        · left; simpa [dao.Order.ConvertUp, hcu, Result.fail] using hfr
        by_cases hcd : f.ConvertDown = true
        · left; simpa [dao.Order.ConvertUp, hcu, dao.Order.ConvertDown, hcd, Result.fail] using hfr
        by_cases hupd : f.UpdateOrderWhileCancel = true
        · left
          simpa [dao.Order.ConvertUp, hcu, dao.Order.ConvertDown, hcd,
            dao.RdsService.UpdateOrderWhileCancel, hupd, Result.fail] using hfr
        right
        have key : ∃ st : types.OrderStatus,
            (match model.ConvertUp f with
              | none => Result.fail om1 Err.convertFailed
              | some state =>
                let state :=
                  if state.RawOrder.BuyNoMoreThanAmountB then
                    { state with CancelledAmountB := state.CancelledAmountB + event.AmountCancelled }
                  else
                    { state with CancelledAmountS := state.CancelledAmountS + event.AmountCancelled }
                let state := { state with Status := env.SettleOrderStatus state true }
                let state := { state with UpdatedBlock := event.BlockNumber }
                match model.ConvertDown f state with
                | none => Result.fail om1 Err.convertFailed
                | some _ =>
                  match om1.rds.UpdateOrderWhileCancel f state.RawOrder.Hash state.Status
                      state.CancelledAmountS state.CancelledAmountB state.UpdatedBlock with
                  | .error err => Result.fail om1 err
                  | .ok rds =>
                    { om := { om1 with rds := rds }, err := none,
                      notified := [Notification.OrderUpdate state], logged := [] }).om.rds.orders =
            om.rds.orders.map (fun o =>
              if o.OrderHash = event.OrderHash then
                { o with Status := st,
                         CancelledAmountS :=
                           if model.BuyNoMoreThanAmountB = true then model.CancelledAmountS
                           else model.CancelledAmountS + event.AmountCancelled,
                         CancelledAmountB :=
                           if model.BuyNoMoreThanAmountB = true then
                             model.CancelledAmountB + event.AmountCancelled
                           else model.CancelledAmountB,
                         UpdatedBlock := event.BlockNumber }
              else o) := by
          by_cases hb : model.BuyNoMoreThanAmountB = true
          · simp only [dao.Order.ConvertUp, hcu, dao.Order.ConvertDown, hcd,
              dao.RdsService.UpdateOrderWhileCancel, hupd, hkey, hb, hfr, Bool.false_eq_true, if_false,
              if_true]
            exact ⟨_, rfl⟩
          · simp only [dao.Order.ConvertUp, hcu, dao.Order.ConvertDown, hcd,
              dao.RdsService.UpdateOrderWhileCancel, hupd, hkey, hb, hfr, Bool.false_eq_true, if_false,
              if_true]
            exact ⟨_, rfl⟩
        obtain ⟨st, hst⟩ := key
        exact ⟨model, st, ho', hst⟩

/-- One fill with non-negative amounts does not decrease the dealt and split amounts of any
order, and an order that was found is still found. -/
theorem handleOrderFilled_step_monotone (env : Env) (f : Faults) (om : OrderManagerImpl)
    (event : types.OrderFilledEvent)
    (hnn : 0 ≤ event.AmountS ∧ 0 ≤ event.AmountB ∧ 0 ≤ event.SplitS ∧ 0 ≤ event.SplitB)
    (h : common.Hash) (o : dao.Order) (ho : om.rds.GetOrderByHash h = some o) :
    ∃ o', (om.handleOrderFilled env f event).om.rds.GetOrderByHash h = some o' ∧
      o.DealtAmountS ≤ o'.DealtAmountS ∧ o.DealtAmountB ≤ o'.DealtAmountB ∧
      o.SplitAmountS ≤ o'.SplitAmountS ∧ o.SplitAmountB ≤ o'.SplitAmountB := by
  rcases handleOrderFilled_orders_exact env f om event with h1 | ⟨model, st, hm, hmap⟩
  · refine ⟨o, ?_, le_refl _, le_refl _, le_refl _, le_refl _⟩
    unfold dao.RdsService.GetOrderByHash at ho ⊢
    rw [h1]
    exact ho
  · have hkey := dao.RdsService.GetOrderByHash_hash _ _ _ ho
    have hlook : (om.handleOrderFilled env f event).om.rds.GetOrderByHash h =
        some (if o.OrderHash = event.OrderHash then
          { o with Status := st,
                   DealtAmountS := model.DealtAmountS + event.AmountS,
                   DealtAmountB := model.DealtAmountB + event.AmountB,
                   SplitAmountS := model.SplitAmountS + event.SplitS,
                   SplitAmountB := model.SplitAmountB + event.SplitB,
                   UpdatedBlock := event.BlockNumber }
          else o) := by
      unfold dao.RdsService.GetOrderByHash at ho ⊢
      rw [hmap, dao.RdsService.GetOrderByHash_map _ _ _
        (fun x : dao.Order =>
          { x with Status := st,
                   DealtAmountS := model.DealtAmountS + event.AmountS,
                   DealtAmountB := model.DealtAmountB + event.AmountB,
                   SplitAmountS := model.SplitAmountS + event.SplitS,
                   SplitAmountB := model.SplitAmountB + event.SplitB,
                   UpdatedBlock := event.BlockNumber }) (fun x => rfl), ho]
      rfl
    by_cases heq : o.OrderHash = event.OrderHash
    · have hsame : model = o := by
        rw [hkey] at heq
        rw [heq, hm] at ho
        exact Option.some.inj ho
      subst hsame
      refine ⟨_, hlook, ?_⟩
      simp only [heq, if_true]
      obtain ⟨a, b, c, d⟩ := hnn
      exact ⟨by omega, by omega, by omega, by omega⟩
    · refine ⟨_, hlook, ?_⟩
      simp only [heq, if_false]
      exact ⟨le_refl _, le_refl _, le_refl _, le_refl _⟩

/-- One cancel with a non-negative amount does not decrease the cancelled amounts of any order,
and an order that was found is still found. -/
theorem handleOrderCancelled_step_monotone (env : Env) (f : Faults) (om : OrderManagerImpl)
    (event : types.OrderCancelledEvent) (hnn : 0 ≤ event.AmountCancelled)
    (h : common.Hash) (o : dao.Order) (ho : om.rds.GetOrderByHash h = some o) :
    ∃ o', (om.handleOrderCancelled env f event).om.rds.GetOrderByHash h = some o' ∧
      o.CancelledAmountS ≤ o'.CancelledAmountS ∧ o.CancelledAmountB ≤ o'.CancelledAmountB := by
  rcases handleOrderCancelled_orders_exact env f om event with h1 | ⟨model, st, hm, hmap⟩
  · refine ⟨o, ?_, le_refl _, le_refl _⟩
    unfold dao.RdsService.GetOrderByHash at ho ⊢
    rw [h1]
    exact ho
  · have hkey := dao.RdsService.GetOrderByHash_hash _ _ _ ho
    have hlook : (om.handleOrderCancelled env f event).om.rds.GetOrderByHash h =
        some (if o.OrderHash = event.OrderHash then
          { o with Status := st,
                   CancelledAmountS :=
                     if model.BuyNoMoreThanAmountB = true then model.CancelledAmountS
                     else model.CancelledAmountS + event.AmountCancelled,
                   CancelledAmountB :=
                     if model.BuyNoMoreThanAmountB = true then model.CancelledAmountB + event.AmountCancelled
                     else model.CancelledAmountB,
                   UpdatedBlock := event.BlockNumber }
          else o) := by
      unfold dao.RdsService.GetOrderByHash at ho ⊢
      rw [hmap, dao.RdsService.GetOrderByHash_map _ _ _
        (fun x : dao.Order =>
          { x with Status := st,
                   CancelledAmountS :=
                     if model.BuyNoMoreThanAmountB = true then model.CancelledAmountS
                     else model.CancelledAmountS + event.AmountCancelled,
                   CancelledAmountB :=
                     if model.BuyNoMoreThanAmountB = true then model.CancelledAmountB + event.AmountCancelled
                     else model.CancelledAmountB,
                   UpdatedBlock := event.BlockNumber }) (fun x => rfl), ho]
      rfl
    by_cases heq : o.OrderHash = event.OrderHash
    · have hsame : model = o := by
        rw [hkey] at heq
        rw [heq, hm] at ho
        exact Option.some.inj ho
      subst hsame
      refine ⟨_, hlook, ?_⟩
      simp only [heq, if_true]
      by_cases hb : model.BuyNoMoreThanAmountB = true
      · simp only [hb, if_true]
        exact ⟨le_refl _, by omega⟩
      · simp only [hb, if_false]
        exact ⟨by omega, le_refl _⟩
    · refine ⟨_, hlook, ?_⟩
      simp only [heq, if_false]
      exact ⟨le_refl _, le_refl _⟩

/-- C11 fails as stated: the handlers add the amounts of an event as signed integers and test
no sign. After a fill of 40 sold for 80 bought on order 7, a fill event that carries -7 sold and
-9 bought lowers the persisted dealt amounts from (40, 80) to (33, 71); a cancel event that
carries -30 lowers the persisted cancelled amount sold of order 7 from 0 to -30. -/
theorem accumulators_monotone_counterexample :
    (((exampleOm.handleOrderFilled exampleEnv Faults.none exampleFill).om.rds.GetOrderByHash 7).map
        (fun o => (o.DealtAmountS, o.DealtAmountB)) = some (40, 80) ∧
      (((exampleOm.handleOrderFilled exampleEnv Faults.none exampleFill).om.handleOrderFilled exampleEnv
          Faults.none exampleFillNegative).om.rds.GetOrderByHash 7).map
        (fun o => (o.DealtAmountS, o.DealtAmountB)) = some (33, 71) ∧
      ((exampleOm.handleOrderFilled exampleEnv Faults.none exampleFill).om.runFills exampleEnv
          [(Faults.none, exampleFillNegative)]).rds.GetOrderByHash 7
        = ((exampleOm.handleOrderFilled exampleEnv Faults.none exampleFill).om.handleOrderFilled exampleEnv
          Faults.none exampleFillNegative).om.rds.GetOrderByHash 7 ∧
      ((exampleOm.handleOrderFilled exampleEnv Faults.none exampleFill).om.handleOrderFilled exampleEnv
          Faults.none exampleFillNegative).err = none) ∧
    ((exampleOm.rds.GetOrderByHash 7).map (fun o => (o.CancelledAmountS, o.CancelledAmountB))
        = some (0, 0) ∧
      ((exampleOm.handleOrderCancelled exampleEnv Faults.none exampleCancelNegative).om.rds.GetOrderByHash
          7).map (fun o => (o.CancelledAmountS, o.CancelledAmountB)) = some (-30, 0) ∧
      (exampleOm.runCancels exampleEnv [(Faults.none, exampleCancelNegative)]).rds.GetOrderByHash 7
        = (exampleOm.handleOrderCancelled exampleEnv Faults.none exampleCancelNegative).om.rds.GetOrderByHash
          7 ∧
      (exampleOm.handleOrderCancelled exampleEnv Faults.none exampleCancelNegative).err = none) := by
  decide

/-- C11, amended: along every sequence of fill events handled by `handleOrderFilled` in which
every event carries amounts (sold, bought, split sold, split bought) that are not negative,
every order that is found keeps being found and its persisted dealt and split amounts at the end
are not below those at the start; along every sequence of cancel events handled by
`handleOrderCancelled` in which every event carries an amount that is not negative, the same
holds for the persisted cancelled amounts; whichever store calls fail. A sequence of one event
is one step. -/
theorem accumulators_monotone (env : Env) (h : common.Hash) :
    (∀ (steps : List (Faults × types.OrderFilledEvent)) (om : OrderManagerImpl) (o : dao.Order),
      (∀ s ∈ steps, 0 ≤ s.2.AmountS ∧ 0 ≤ s.2.AmountB ∧ 0 ≤ s.2.SplitS ∧ 0 ≤ s.2.SplitB) →
      om.rds.GetOrderByHash h = some o →
      ∃ o', (om.runFills env steps).rds.GetOrderByHash h = some o' ∧
        o.DealtAmountS ≤ o'.DealtAmountS ∧ o.DealtAmountB ≤ o'.DealtAmountB ∧
        o.SplitAmountS ≤ o'.SplitAmountS ∧ o.SplitAmountB ≤ o'.SplitAmountB) ∧
    (∀ (steps : List (Faults × types.OrderCancelledEvent)) (om : OrderManagerImpl) (o : dao.Order),
      (∀ s ∈ steps, 0 ≤ s.2.AmountCancelled) →
      om.rds.GetOrderByHash h = some o →
      ∃ o', (om.runCancels env steps).rds.GetOrderByHash h = some o' ∧
        o.CancelledAmountS ≤ o'.CancelledAmountS ∧ o.CancelledAmountB ≤ o'.CancelledAmountB) := by
  constructor
  · intro steps
    induction steps with
    | nil =>
      intro om o _ ho
      exact ⟨o, ho, le_refl _, le_refl _, le_refl _, le_refl _⟩
    | cons s rest ih =>
      intro om o hnn ho
      obtain ⟨o1, ho1, a1, b1, c1, d1⟩ :=
        handleOrderFilled_step_monotone env s.1 om s.2 (hnn s (List.mem_cons_self _ _)) h o ho
      obtain ⟨o2, ho2, a2, b2, c2, d2⟩ :=
        ih (om.handleOrderFilled env s.1 s.2).om o1 (fun t ht => hnn t (List.mem_cons_of_mem _ ht)) ho1
      exact ⟨o2, ho2, le_trans a1 a2, le_trans b1 b2, le_trans c1 c2, le_trans d1 d2⟩
  · intro steps
    induction steps with
    | nil =>
      intro om o _ ho
      exact ⟨o, ho, le_refl _, le_refl _⟩
    | cons s rest ih =>
      intro om o hnn ho
      obtain ⟨o1, ho1, a1, b1⟩ :=
        handleOrderCancelled_step_monotone env s.1 om s.2 (hnn s (List.mem_cons_self _ _)) h o ho
      obtain ⟨o2, ho2, a2, b2⟩ :=
        ih (om.handleOrderCancelled env s.1 s.2).om o1 (fun t ht => hnn t (List.mem_cons_of_mem _ ht)) ho1
      exact ⟨o2, ho2, le_trans a1 a2, le_trans b1 b2⟩

/-- C11 amended, at a concrete input: two fills and then a repeated first fill on order 7, and
two cancels on order 7, all with amounts that are not negative. -/
theorem accumulators_monotone_witness :
    ((∀ s ∈ [(Faults.none, exampleFill), (Faults.none, exampleFill2), (Faults.none, exampleFill)],
        0 ≤ s.2.AmountS ∧ 0 ≤ s.2.AmountB ∧ 0 ≤ s.2.SplitS ∧ 0 ≤ s.2.SplitB) ∧
      exampleOm.rds.GetOrderByHash 7 = some (exampleOrder 7 types.OrderStatus.ORDER_NEW false)) ∧
    (∃ o', (exampleOm.runFills exampleEnv
          [(Faults.none, exampleFill), (Faults.none, exampleFill2), (Faults.none, exampleFill)]).rds.GetOrderByHash 7
          = some o' ∧
        (exampleOrder 7 types.OrderStatus.ORDER_NEW false).DealtAmountS ≤ o'.DealtAmountS ∧
        (exampleOrder 7 types.OrderStatus.ORDER_NEW false).DealtAmountB ≤ o'.DealtAmountB ∧
        (exampleOrder 7 types.OrderStatus.ORDER_NEW false).SplitAmountS ≤ o'.SplitAmountS ∧
        (exampleOrder 7 types.OrderStatus.ORDER_NEW false).SplitAmountB ≤ o'.SplitAmountB) ∧
    ((exampleOm.runFills exampleEnv
          [(Faults.none, exampleFill), (Faults.none, exampleFill2), (Faults.none, exampleFill)]).rds.GetOrderByHash
          7).map (fun o => (o.DealtAmountS, o.DealtAmountB, o.SplitAmountS, o.SplitAmountB))
        = some (50, 100, 1, 2) ∧
    ((∀ s ∈ [(Faults.none, exampleCancel types.TxStatus.TX_STATUS_SUCCESS), (Faults.none, exampleCancel2)],
        0 ≤ s.2.AmountCancelled) ∧
      ∃ o', (exampleOm.runCancels exampleEnv
          [(Faults.none, exampleCancel types.TxStatus.TX_STATUS_SUCCESS),
           (Faults.none, exampleCancel2)]).rds.GetOrderByHash 7 = some o' ∧
        (exampleOrder 7 types.OrderStatus.ORDER_NEW false).CancelledAmountS ≤ o'.CancelledAmountS ∧
        (exampleOrder 7 types.OrderStatus.ORDER_NEW false).CancelledAmountB ≤ o'.CancelledAmountB) :=
  ⟨⟨by decide, by decide⟩,
    (accumulators_monotone exampleEnv 7).1 _ exampleOm _ (by decide) (by decide),
    by decide,
    ⟨by decide, (accumulators_monotone exampleEnv 7).2 _ exampleOm _ (by decide) (by decide)⟩⟩

/-! ## Cutoff events of transactions that did not succeed -/

theorem saveCutoffEvent_ok_of_changed (env : Env) (f : Faults) (om : OrderManagerImpl) (event : types.CutoffEvent)
    (id : Nat) (m : dao.CutOffEvent) (hfind : om.rds.GetCutoffEvent event.TxHash = some (id, m))
    (hne : m.Status ≠ event.Status) (hsave : f.Save = false) :
    (om.saveCutoffEvent env f event).2.2 = none := by
  simp [OrderManagerImpl.saveCutoffEvent, hfind, hne, dao.RdsService.Save, hsave, OrderManagerImpl.written]

/-- A cutoff event whose transaction did not succeed leaves the cache and the order table as
they are, publishes nothing and returns no error; its record is inserted when no record has its
transaction hash and overwritten in place when the stored status differs. -/
theorem handleCutoff_not_success (env : Env) (f : Faults) (om : OrderManagerImpl) (event : types.CutoffEvent)
    (hs : event.Status ≠ types.TxStatus.TX_STATUS_SUCCESS) :
    (om.handleCutoff env f event).om.cutoffCache = om.cutoffCache ∧
    (om.handleCutoff env f event).om.rds.orders = om.rds.orders ∧
    (om.handleCutoff env f event).notified = [] ∧
    (om.handleCutoff env f event).err = none ∧
    (om.rds.GetCutoffEvent event.TxHash = none → f.Add = false →
      ∃ row : dao.CutOffEvent,
        (om.handleCutoff env f event).om.rds.cutoffEvents = om.rds.cutoffEvents ++ [row] ∧
        row.TxHash = event.TxHash ∧ row.Status = event.Status ∧ row.Cutoff = event.Cutoff ∧
        row.Owner = event.Owner ∧ row.Protocol = event.Protocol ∧ row.BlockNumber = event.BlockNumber) ∧
    (∀ (id : Nat) (m : dao.CutOffEvent), om.rds.GetCutoffEvent event.TxHash = some (id, m) →
      m.Status ≠ event.Status → f.Save = false →
      (om.handleCutoff env f event).om.rds.cutoffEvents = om.rds.cutoffEvents.set id (m.ConvertDown event)) := by
  have hframe : (om.handleCutoff env f event).om.cutoffCache = om.cutoffCache ∧
      (om.handleCutoff env f event).om.rds.orders = om.rds.orders ∧
      (om.handleCutoff env f event).notified = [] ∧
      (om.handleCutoff env f event).err = none := by
    cases hsave : (om.saveCutoffEvent env f event).2.2 with
    | some e =>
      rw [handleCutoff_of_error env f om event e hsave]
      exact ⟨rfl, rfl, rfl, rfl⟩
    | none =>
      rw [handleCutoff_of_not_success env f om event hsave hs]
      exact ⟨(saveCutoffEvent_frame env f om event).1, (saveCutoffEvent_frame env f om event).2, rfl, rfl⟩
  refine ⟨hframe.1, hframe.2.1, hframe.2.2.1, hframe.2.2.2, ?_, ?_⟩
  · intro hnew hadd
    rw [handleCutoff_of_not_success env f om event (saveCutoffEvent_ok_of_new env f om event hnew hadd) hs]
    have hc := collectCutoffOrders_fields
      (if f.GetCutoffOrders = true then [] else env.GetCutoffOrders om.rds.orders event.Owner event.Cutoff) event
    refine ⟨{ dao.CutOffEvent.zero.ConvertDown (collectCutoffOrders
      (if f.GetCutoffOrders = true then [] else env.GetCutoffOrders om.rds.orders event.Owner event.Cutoff) event) with Fork := false }, ?_, ?_⟩
    · simp [OrderManagerImpl.saveCutoffEvent, hnew, dao.RdsService.Add, hadd, OrderManagerImpl.written,
        Result.ok]
    · simp only [dao.CutOffEvent.ConvertDown]
      exact ⟨hc.1, hc.2.1, hc.2.2.2.2.2, hc.2.2.2.2.1, hc.2.2.2.1, hc.2.2.1⟩
  · intro id m hfind hne hsave
    rw [handleCutoff_of_not_success env f om event
      (saveCutoffEvent_ok_of_changed env f om event id m hfind hne hsave) hs]
    simp [OrderManagerImpl.saveCutoffEvent, hfind, hne, dao.RdsService.Save, hsave,
      OrderManagerImpl.written, Result.ok]

theorem saveCutoffPairEvent_ok_of_changed (env : Env) (f : Faults) (om : OrderManagerImpl) (event : types.CutoffPairEvent)
    (id : Nat) (m : dao.CutOffPairEvent) (hfind : om.rds.GetCutoffPairEvent event.TxHash = some (id, m))
    (hne : m.Status ≠ event.Status) (hsave : f.Save = false) :
    (om.saveCutoffPairEvent env f event).2.2 = none := by
  simp [OrderManagerImpl.saveCutoffPairEvent, hfind, hne, dao.RdsService.Save, hsave, OrderManagerImpl.written]

/-- A cutoff event whose transaction did not succeed leaves the cache and the order table as
they are, publishes nothing and returns no error; its record is inserted when no record has its
transaction hash and overwritten in place when the stored status differs. -/
theorem handleCutoffPair_not_success (env : Env) (f : Faults) (om : OrderManagerImpl) (event : types.CutoffPairEvent)
    (hs : event.Status ≠ types.TxStatus.TX_STATUS_SUCCESS) :
    (om.handleCutoffPair env f event).om.cutoffCache = om.cutoffCache ∧
    (om.handleCutoffPair env f event).om.rds.orders = om.rds.orders ∧
    (om.handleCutoffPair env f event).notified = [] ∧
    (om.handleCutoffPair env f event).err = none ∧
    (om.rds.GetCutoffPairEvent event.TxHash = none → f.Add = false →
      ∃ row : dao.CutOffPairEvent,
        (om.handleCutoffPair env f event).om.rds.cutoffPairEvents = om.rds.cutoffPairEvents ++ [row] ∧
        row.TxHash = event.TxHash ∧ row.Status = event.Status ∧ row.Cutoff = event.Cutoff ∧
        row.Owner = event.Owner ∧ row.Protocol = event.Protocol ∧ row.BlockNumber = event.BlockNumber) ∧
    (∀ (id : Nat) (m : dao.CutOffPairEvent), om.rds.GetCutoffPairEvent event.TxHash = some (id, m) →
      m.Status ≠ event.Status → f.Save = false →
      (om.handleCutoffPair env f event).om.rds.cutoffPairEvents = om.rds.cutoffPairEvents.set id (m.ConvertDown event)) := by
  have hframe : (om.handleCutoffPair env f event).om.cutoffCache = om.cutoffCache ∧
      (om.handleCutoffPair env f event).om.rds.orders = om.rds.orders ∧
      (om.handleCutoffPair env f event).notified = [] ∧
      (om.handleCutoffPair env f event).err = none := by
    cases hsave : (om.saveCutoffPairEvent env f event).2.2 with
    | some e =>
      rw [handleCutoffPair_of_error env f om event e hsave]
      exact ⟨rfl, rfl, rfl, rfl⟩
    | none =>
      rw [handleCutoffPair_of_not_success env f om event hsave hs]
      exact ⟨(saveCutoffPairEvent_frame env f om event).1, (saveCutoffPairEvent_frame env f om event).2, rfl, rfl⟩
  refine ⟨hframe.1, hframe.2.1, hframe.2.2.1, hframe.2.2.2, ?_, ?_⟩
  · intro hnew hadd
    rw [handleCutoffPair_of_not_success env f om event (saveCutoffPairEvent_ok_of_new env f om event hnew hadd) hs]
    have hc := collectCutoffPairOrders_fields
      (if f.GetCutoffOrders = true then [] else env.GetCutoffPairOrders om.rds.orders event.Owner event.Token1 event.Token2 event.Cutoff) event
    refine ⟨{ dao.CutOffPairEvent.zero.ConvertDown (collectCutoffPairOrders
      (if f.GetCutoffOrders = true then [] else env.GetCutoffPairOrders om.rds.orders event.Owner event.Token1 event.Token2 event.Cutoff) event) with Fork := false }, ?_, ?_⟩
    · simp [OrderManagerImpl.saveCutoffPairEvent, hnew, dao.RdsService.Add, hadd, OrderManagerImpl.written,
        Result.ok]
    · simp only [dao.CutOffPairEvent.ConvertDown]
      exact ⟨hc.1, hc.2.1, hc.2.2.2.2.2.2.2, hc.2.2.2.2.1, hc.2.2.2.1, hc.2.2.1⟩
  · intro id m hfind hne hsave
    rw [handleCutoffPair_of_not_success env f om event
      (saveCutoffPairEvent_ok_of_changed env f om event id m hfind hne hsave) hs]
    simp [OrderManagerImpl.saveCutoffPairEvent, hfind, hne, dao.RdsService.Save, hsave,
      OrderManagerImpl.written, Result.ok]

/-- C12: a cutoff or cutoff-pair event whose transaction status is not success leaves the
cutoff cache and the whole order table (so the status and updated block of every order) as they
are, publishes no notification and returns no error, whichever store calls fail; its record is
appended when no record has its transaction hash, and the stored record is overwritten in place
with the event when its status differs (the insert or save succeeding). -/
theorem cutoff_not_success_only_records (env : Env) (f : Faults) (om : OrderManagerImpl) :
    (∀ event : types.CutoffEvent, event.Status ≠ types.TxStatus.TX_STATUS_SUCCESS →
      (om.handleCutoff env f event).om.cutoffCache = om.cutoffCache ∧
      (om.handleCutoff env f event).om.rds.orders = om.rds.orders ∧
      (om.handleCutoff env f event).notified = [] ∧
      (om.handleCutoff env f event).err = none ∧
      (om.rds.GetCutoffEvent event.TxHash = none → f.Add = false →
        ∃ row : dao.CutOffEvent,
          (om.handleCutoff env f event).om.rds.cutoffEvents = om.rds.cutoffEvents ++ [row] ∧
          row.TxHash = event.TxHash ∧ row.Status = event.Status ∧ row.Cutoff = event.Cutoff ∧
          row.Owner = event.Owner ∧ row.Protocol = event.Protocol ∧
          row.BlockNumber = event.BlockNumber) ∧
      (∀ (id : Nat) (m : dao.CutOffEvent), om.rds.GetCutoffEvent event.TxHash = some (id, m) →
        m.Status ≠ event.Status → f.Save = false →
        (om.handleCutoff env f event).om.rds.cutoffEvents
          = om.rds.cutoffEvents.set id (m.ConvertDown event))) ∧
    (∀ event : types.CutoffPairEvent, event.Status ≠ types.TxStatus.TX_STATUS_SUCCESS →
      (om.handleCutoffPair env f event).om.cutoffCache = om.cutoffCache ∧
      (om.handleCutoffPair env f event).om.rds.orders = om.rds.orders ∧
      (om.handleCutoffPair env f event).notified = [] ∧
      (om.handleCutoffPair env f event).err = none ∧
      (om.rds.GetCutoffPairEvent event.TxHash = none → f.Add = false →
        ∃ row : dao.CutOffPairEvent,
          (om.handleCutoffPair env f event).om.rds.cutoffPairEvents = om.rds.cutoffPairEvents ++ [row] ∧
          row.TxHash = event.TxHash ∧ row.Status = event.Status ∧ row.Cutoff = event.Cutoff ∧
          row.Owner = event.Owner ∧ row.Protocol = event.Protocol ∧
          row.BlockNumber = event.BlockNumber) ∧
      (∀ (id : Nat) (m : dao.CutOffPairEvent), om.rds.GetCutoffPairEvent event.TxHash = some (id, m) →
        m.Status ≠ event.Status → f.Save = false →
        (om.handleCutoffPair env f event).om.rds.cutoffPairEvents
          = om.rds.cutoffPairEvents.set id (m.ConvertDown event))) :=
  ⟨fun event hs => handleCutoff_not_success env f om event hs,
    fun event hs => handleCutoffPair_not_success env f om event hs⟩

/-- C12, at a concrete input: with 1000 cached and orders 1 and 2 cutoff, a pending
CutoffAll(cutoff = 1200, order 3) in a new transaction 504 only appends its record; the same
event delivered as failed afterwards overwrites that record; a pending cutoff-pair event only
appends its record. -/
theorem cutoff_not_success_only_records_witness :
    ((exampleCutoffWith types.TxStatus.TX_STATUS_PENDING 504 1200 80 [3]).Status
        ≠ types.TxStatus.TX_STATUS_SUCCESS ∧
      exampleAfterCutoff.rds.GetCutoffEvent 504 = none) ∧
    ((exampleAfterCutoff.handleCutoff exampleEnv Faults.none
          (exampleCutoffWith types.TxStatus.TX_STATUS_PENDING 504 1200 80 [3])).om.cutoffCache
        = exampleAfterCutoff.cutoffCache ∧
      (exampleAfterCutoff.handleCutoff exampleEnv Faults.none
          (exampleCutoffWith types.TxStatus.TX_STATUS_PENDING 504 1200 80 [3])).om.rds.orders
        = exampleAfterCutoff.rds.orders ∧
      (exampleAfterCutoff.handleCutoff exampleEnv Faults.none
          (exampleCutoffWith types.TxStatus.TX_STATUS_PENDING 504 1200 80 [3])).notified = []) ∧
    (exampleAfterPendingCutoff.rds.cutoffEvents.map (fun r => (r.TxHash, r.Status))
        = [(500, types.TxStatus.TX_STATUS_SUCCESS), (504, types.TxStatus.TX_STATUS_PENDING)]) ∧
    (∃ row : dao.CutOffEvent,
      (exampleAfterCutoff.handleCutoff exampleEnv Faults.none
          (exampleCutoffWith types.TxStatus.TX_STATUS_PENDING 504 1200 80 [3])).om.rds.cutoffEvents
        = exampleAfterCutoff.rds.cutoffEvents ++ [row] ∧
      row.TxHash = (exampleCutoffWith types.TxStatus.TX_STATUS_PENDING 504 1200 80 [3]).TxHash ∧
      row.Status = (exampleCutoffWith types.TxStatus.TX_STATUS_PENDING 504 1200 80 [3]).Status ∧
      row.Cutoff = (exampleCutoffWith types.TxStatus.TX_STATUS_PENDING 504 1200 80 [3]).Cutoff ∧
      row.Owner = (exampleCutoffWith types.TxStatus.TX_STATUS_PENDING 504 1200 80 [3]).Owner ∧
      row.Protocol = (exampleCutoffWith types.TxStatus.TX_STATUS_PENDING 504 1200 80 [3]).Protocol ∧
      row.BlockNumber = (exampleCutoffWith types.TxStatus.TX_STATUS_PENDING 504 1200 80 [3]).BlockNumber) ∧
    (exampleAfterPendingCutoff.rds.GetCutoffEvent
          (exampleCutoffWith types.TxStatus.TX_STATUS_FAILED 504 1200 80 [3]).TxHash
        = some (1, exampleRowPendingCutoff) ∧
      (exampleAfterPendingCutoff.handleCutoff exampleEnv Faults.none
          (exampleCutoffWith types.TxStatus.TX_STATUS_FAILED 504 1200 80 [3])).om.rds.cutoffEvents
        = exampleAfterPendingCutoff.rds.cutoffEvents.set 1
            (exampleRowPendingCutoff.ConvertDown
              (exampleCutoffWith types.TxStatus.TX_STATUS_FAILED 504 1200 80 [3]))) ∧
    ((exampleAfterPendingCutoff.rds.GetCutoffEvent 504).map (fun r => (r.1, r.2.Status))
        = some (1, types.TxStatus.TX_STATUS_PENDING) ∧
      ((exampleAfterPendingCutoff.handleCutoff exampleEnv Faults.none
          (exampleCutoffWith types.TxStatus.TX_STATUS_FAILED 504 1200 80 [3])).om.rds.cutoffEvents.map
          (fun r => (r.TxHash, r.Status)))
        = [(500, types.TxStatus.TX_STATUS_SUCCESS), (504, types.TxStatus.TX_STATUS_FAILED)]) ∧
    ((exampleAfterCutoffPair.handleCutoffPair exampleEnv Faults.none
          (exampleCutoffPairWith types.TxStatus.TX_STATUS_PENDING 504 1200 80 [3])).om.rds.orders
        = exampleAfterCutoffPair.rds.orders ∧
      (exampleAfterCutoffPair.handleCutoffPair exampleEnv Faults.none
          (exampleCutoffPairWith types.TxStatus.TX_STATUS_PENDING 504 1200 80 [3])).notified = []) :=
  ⟨⟨by decide, by decide⟩,
    ⟨((cutoff_not_success_only_records exampleEnv Faults.none exampleAfterCutoff).1
        (exampleCutoffWith types.TxStatus.TX_STATUS_PENDING 504 1200 80 [3]) (by decide)).1,
      ((cutoff_not_success_only_records exampleEnv Faults.none exampleAfterCutoff).1
        (exampleCutoffWith types.TxStatus.TX_STATUS_PENDING 504 1200 80 [3]) (by decide)).2.1,
      ((cutoff_not_success_only_records exampleEnv Faults.none exampleAfterCutoff).1
        (exampleCutoffWith types.TxStatus.TX_STATUS_PENDING 504 1200 80 [3]) (by decide)).2.2.1⟩,
    by decide,
    ((cutoff_not_success_only_records exampleEnv Faults.none exampleAfterCutoff).1
      (exampleCutoffWith types.TxStatus.TX_STATUS_PENDING 504 1200 80 [3]) (by decide)).2.2.2.2.1
      (by decide) (by decide),
    ⟨by decide,
      ((cutoff_not_success_only_records exampleEnv Faults.none exampleAfterPendingCutoff).1
        (exampleCutoffWith types.TxStatus.TX_STATUS_FAILED 504 1200 80 [3]) (by decide)).2.2.2.2.2
        1 exampleRowPendingCutoff (by decide) (by decide) (by decide)⟩,
    ⟨by decide, by decide⟩,
    ⟨((cutoff_not_success_only_records exampleEnv Faults.none exampleAfterCutoffPair).2
        (exampleCutoffPairWith types.TxStatus.TX_STATUS_PENDING 504 1200 80 [3]) (by decide)).2.1,
      ((cutoff_not_success_only_records exampleEnv Faults.none exampleAfterCutoffPair).2
        (exampleCutoffPairWith types.TxStatus.TX_STATUS_PENDING 504 1200 80 [3]) (by decide)).2.2.1⟩⟩

/-! ## Failure to persist an event record -/

theorem handleOrderCancelled_of_error (env : Env) (f : Faults) (om : OrderManagerImpl)
    (event : types.OrderCancelledEvent) (e : Err) (h : (om.saveCancelEvent f event).2 = some e) :
    om.handleOrderCancelled env f event = { om := om, err := none, notified := [], logged := [e] } := by
  have h1 := saveCancelEvent_of_error f om event e h
  unfold OrderManagerImpl.handleOrderCancelled
  cases hs : om.saveCancelEvent f event with
  | mk om1 oe =>
    rw [hs] at h h1
    simp only at h h1
    subst h
    subst h1
    rfl

theorem saveCutoffEvent_error_of_failed_write (env : Env) (f : Faults) (om : OrderManagerImpl)
    (event : types.CutoffEvent) :
    (om.rds.GetCutoffEvent event.TxHash = none → f.Add = true →
      (om.saveCutoffEvent env f event).2.2 = some Err.storeFailed) ∧
    (∀ (id : Nat) (m : dao.CutOffEvent), om.rds.GetCutoffEvent event.TxHash = some (id, m) →
      m.Status ≠ event.Status → f.Save = true →
      (om.saveCutoffEvent env f event).2.2 = some Err.storeFailed) := by
  constructor
  · intro hnew hadd
    simp [OrderManagerImpl.saveCutoffEvent, hnew, dao.RdsService.Add, hadd, OrderManagerImpl.written]
  · intro id m hfind hne hsave
    simp [OrderManagerImpl.saveCutoffEvent, hfind, hne, dao.RdsService.Save, hsave,
      OrderManagerImpl.written]

theorem saveCutoffPairEvent_error_of_failed_write (env : Env) (f : Faults) (om : OrderManagerImpl)
    (event : types.CutoffPairEvent) :
    (om.rds.GetCutoffPairEvent event.TxHash = none → f.Add = true →
      (om.saveCutoffPairEvent env f event).2.2 = some Err.storeFailed) ∧
    (∀ (id : Nat) (m : dao.CutOffPairEvent), om.rds.GetCutoffPairEvent event.TxHash = some (id, m) →
      m.Status ≠ event.Status → f.Save = true →
      (om.saveCutoffPairEvent env f event).2.2 = some Err.storeFailed) := by
  constructor
  · intro hnew hadd
    simp [OrderManagerImpl.saveCutoffPairEvent, hnew, dao.RdsService.Add, hadd,
      OrderManagerImpl.written]
  · intro id m hfind hne hsave
    simp [OrderManagerImpl.saveCutoffPairEvent, hfind, hne, dao.RdsService.Save, hsave,
      OrderManagerImpl.written]

theorem saveCancelEvent_error_of_failed_write (f : Faults) (om : OrderManagerImpl)
    (event : types.OrderCancelledEvent) :
    (om.rds.GetCancelEvent event.TxHash = none → f.Add = true →
      (om.saveCancelEvent f event).2 = some Err.storeFailed) ∧
    (∀ (id : Nat) (m : dao.CancelEvent), om.rds.GetCancelEvent event.TxHash = some (id, m) →
      m.Status ≠ event.Status → f.Save = true →
      (om.saveCancelEvent f event).2 = some Err.storeFailed) := by
  constructor
  · intro hnew hadd
    simp [OrderManagerImpl.saveCancelEvent, hnew, dao.RdsService.Add, hadd, OrderManagerImpl.written]
  · intro id m hfind hne hsave
    simp [OrderManagerImpl.saveCancelEvent, hfind, hne, dao.RdsService.Save, hsave,
      OrderManagerImpl.written]

/-- C13 fails as stated: with 1000 cached, a successful CutoffAll(cutoff = 1200, order 3) in a
new transaction whose record cannot be inserted leaves the cached value at 1000 and order 3 new,
and publishes nothing; a cancel of 30 on order 7 whose record cannot be inserted leaves the
cancelled amounts and the status of order 7 as they were. Both handlers return no error and log
the failure. -/
theorem record_failure_counterexample :
    (exampleAfterCutoff.rds.GetCutoffEvent 505 = none ∧
      exampleAfterCutoff.cutoffCache.GetCutoff 100 1 < (exampleCutoff 505 1200 80 [3]).Cutoff ∧
      (exampleAfterCutoff.handleCutoff exampleEnv exampleFaultsAdd
          (exampleCutoff 505 1200 80 [3])).om.cutoffCache.GetCutoff 100 1 = 1000 ∧
      ((exampleAfterCutoff.handleCutoff exampleEnv exampleFaultsAdd
          (exampleCutoff 505 1200 80 [3])).om.rds.GetOrderByHash 3).map (fun o => o.Status)
        = some types.OrderStatus.ORDER_NEW ∧
      (exampleAfterCutoff.handleCutoff exampleEnv exampleFaultsAdd
          (exampleCutoff 505 1200 80 [3])).notified = [] ∧
      (exampleAfterCutoff.handleCutoff exampleEnv exampleFaultsAdd
          (exampleCutoff 505 1200 80 [3])).logged = [Err.storeFailed] ∧
      (exampleAfterCutoff.handleCutoff exampleEnv exampleFaultsAdd
          (exampleCutoff 505 1200 80 [3])).err = none) ∧
    ((exampleAfterCutoffPair.handleCutoffPair exampleEnv exampleFaultsAdd
          (exampleCutoffPair 505 1200 80 [3])).om.cutoffCache.GetCutoffPair 100 1 10 20 = 1000 ∧
      ((exampleAfterCutoffPair.handleCutoffPair exampleEnv exampleFaultsAdd
          (exampleCutoffPair 505 1200 80 [3])).om.rds.GetOrderByHash 3).map (fun o => o.Status)
        = some types.OrderStatus.ORDER_NEW) ∧
    (exampleOm.rds.GetCancelEvent 901 = none ∧
      (exampleOm.handleOrderCancelled exampleEnv exampleFaultsAdd
          (exampleCancel types.TxStatus.TX_STATUS_SUCCESS)).om.rds.GetOrderByHash 7
        = some (exampleOrder 7 types.OrderStatus.ORDER_NEW false) ∧
      (exampleOm.handleOrderCancelled exampleEnv exampleFaultsAdd
          (exampleCancel types.TxStatus.TX_STATUS_SUCCESS)).logged = [Err.storeFailed] ∧
      (exampleOm.handleOrderCancelled exampleEnv exampleFaultsAdd
          (exampleCancel types.TxStatus.TX_STATUS_SUCCESS)).err = none) := by
  decide

/-- C13, amended: a failure to persist the event record is logged and not returned, and it stops
the handler. When the insert of a new record or the save of a changed record fails,
`handleCutoff`, `handleCutoffPair` and `handleOrderCancelled` return no error, log the store
failure, publish nothing and leave the manager (store and cutoff cache) exactly as it was. -/
theorem record_failure_stops_handler (env : Env) (f : Faults) (om : OrderManagerImpl) :
    (∀ event : types.CutoffEvent,
      (om.rds.GetCutoffEvent event.TxHash = none → f.Add = true →
        om.handleCutoff env f event
          = { om := om, err := none, notified := [], logged := [Err.storeFailed] }) ∧
      (∀ (id : Nat) (m : dao.CutOffEvent), om.rds.GetCutoffEvent event.TxHash = some (id, m) →
        m.Status ≠ event.Status → f.Save = true →
        om.handleCutoff env f event
          = { om := om, err := none, notified := [], logged := [Err.storeFailed] })) ∧
    (∀ event : types.CutoffPairEvent,
      (om.rds.GetCutoffPairEvent event.TxHash = none → f.Add = true →
        om.handleCutoffPair env f event
          = { om := om, err := none, notified := [], logged := [Err.storeFailed] }) ∧
      (∀ (id : Nat) (m : dao.CutOffPairEvent), om.rds.GetCutoffPairEvent event.TxHash = some (id, m) →
        m.Status ≠ event.Status → f.Save = true →
        om.handleCutoffPair env f event
          = { om := om, err := none, notified := [], logged := [Err.storeFailed] })) ∧
    (∀ event : types.OrderCancelledEvent,
      (om.rds.GetCancelEvent event.TxHash = none → f.Add = true →
        om.handleOrderCancelled env f event
          = { om := om, err := none, notified := [], logged := [Err.storeFailed] }) ∧
      (∀ (id : Nat) (m : dao.CancelEvent), om.rds.GetCancelEvent event.TxHash = some (id, m) →
        m.Status ≠ event.Status → f.Save = true →
        om.handleOrderCancelled env f event
          = { om := om, err := none, notified := [], logged := [Err.storeFailed] })) := by
  refine ⟨fun event => ⟨fun hnew hadd => ?_, fun id m hfind hne hsave => ?_⟩,
    fun event => ⟨fun hnew hadd => ?_, fun id m hfind hne hsave => ?_⟩,
    fun event => ⟨fun hnew hadd => ?_, fun id m hfind hne hsave => ?_⟩⟩
  · exact handleCutoff_of_error env f om event _
      ((saveCutoffEvent_error_of_failed_write env f om event).1 hnew hadd)
  · exact handleCutoff_of_error env f om event _
      ((saveCutoffEvent_error_of_failed_write env f om event).2 id m hfind hne hsave)
  · exact handleCutoffPair_of_error env f om event _
      ((saveCutoffPairEvent_error_of_failed_write env f om event).1 hnew hadd)
  · exact handleCutoffPair_of_error env f om event _
      ((saveCutoffPairEvent_error_of_failed_write env f om event).2 id m hfind hne hsave)
  · exact handleOrderCancelled_of_error env f om event _
      ((saveCancelEvent_error_of_failed_write f om event).1 hnew hadd)
  · exact handleOrderCancelled_of_error env f om event _
      ((saveCancelEvent_error_of_failed_write f om event).2 id m hfind hne hsave)

/-- C13 amended, at a concrete input: the failing insert of a new cutoff, cutoff-pair and cancel
record, and the failing save of the pending cutoff record of transaction 504 delivered as
failed. -/
theorem record_failure_stops_handler_witness :
    (exampleAfterCutoff.rds.GetCutoffEvent (exampleCutoff 505 1200 80 [3]).TxHash = none ∧
      exampleFaultsAdd.Add = true ∧
      exampleAfterCutoff.handleCutoff exampleEnv exampleFaultsAdd (exampleCutoff 505 1200 80 [3])
        = { om := exampleAfterCutoff, err := none, notified := [], logged := [Err.storeFailed] }) ∧
    (exampleAfterPendingCutoff.rds.GetCutoffEvent
          (exampleCutoffWith types.TxStatus.TX_STATUS_FAILED 504 1200 80 [3]).TxHash
        = some (1, exampleRowPendingCutoff) ∧
      exampleFaultsSave.Save = true ∧
      exampleAfterPendingCutoff.handleCutoff exampleEnv exampleFaultsSave
          (exampleCutoffWith types.TxStatus.TX_STATUS_FAILED 504 1200 80 [3])
        = { om := exampleAfterPendingCutoff, err := none, notified := [],
            logged := [Err.storeFailed] }) ∧
    (exampleAfterCutoffPair.rds.GetCutoffPairEvent (exampleCutoffPair 505 1200 80 [3]).TxHash = none ∧
      exampleAfterCutoffPair.handleCutoffPair exampleEnv exampleFaultsAdd (exampleCutoffPair 505 1200 80 [3])
        = { om := exampleAfterCutoffPair, err := none, notified := [], logged := [Err.storeFailed] }) ∧
    (exampleOm.rds.GetCancelEvent (exampleCancel types.TxStatus.TX_STATUS_SUCCESS).TxHash = none ∧
      exampleOm.handleOrderCancelled exampleEnv exampleFaultsAdd
          (exampleCancel types.TxStatus.TX_STATUS_SUCCESS)
        = { om := exampleOm, err := none, notified := [], logged := [Err.storeFailed] }) :=
  ⟨⟨by decide, by decide,
      ((record_failure_stops_handler exampleEnv exampleFaultsAdd exampleAfterCutoff).1
        (exampleCutoff 505 1200 80 [3])).1 (by decide) (by decide)⟩,
    ⟨by decide, by decide,
      ((record_failure_stops_handler exampleEnv exampleFaultsSave exampleAfterPendingCutoff).1
        (exampleCutoffWith types.TxStatus.TX_STATUS_FAILED 504 1200 80 [3])).2
        1 exampleRowPendingCutoff (by decide) (by decide) (by decide)⟩,
    ⟨by decide,
      ((record_failure_stops_handler exampleEnv exampleFaultsAdd exampleAfterCutoffPair).2.1
        (exampleCutoffPair 505 1200 80 [3])).1 (by decide) (by decide)⟩,
    ⟨by decide,
      ((record_failure_stops_handler exampleEnv exampleFaultsAdd exampleOm).2.2
        (exampleCancel types.TxStatus.TX_STATUS_SUCCESS)).1 (by decide) (by decide)⟩⟩

/-! ## Events that reference a missing order -/

/-- C14 fails as stated: with no order 7 in the store, the first delivery of a cancel event for
order 7 returns an error (after inserting the cancel record), but the second delivery of the
same event returns no error, and so does a delivery whose record cannot be inserted. -/
theorem missing_order_counterexample :
    exampleOmEmpty.rds.GetOrderByHash (exampleCancel types.TxStatus.TX_STATUS_SUCCESS).OrderHash = none ∧
    (exampleOmEmpty.handleOrderCancelled exampleEnv Faults.none
        (exampleCancel types.TxStatus.TX_STATUS_SUCCESS)).err = some Err.notFound ∧
    (exampleOmEmpty.handleOrderCancelled exampleEnv Faults.none
        (exampleCancel types.TxStatus.TX_STATUS_SUCCESS)).om.rds.GetOrderByHash
        (exampleCancel types.TxStatus.TX_STATUS_SUCCESS).OrderHash = none ∧
    ((exampleOmEmpty.handleOrderCancelled exampleEnv Faults.none
        (exampleCancel types.TxStatus.TX_STATUS_SUCCESS)).om.handleOrderCancelled exampleEnv Faults.none
        (exampleCancel types.TxStatus.TX_STATUS_SUCCESS)).err = none ∧
    (exampleOmEmpty.handleOrderCancelled exampleEnv exampleFaultsAdd
        (exampleCancel types.TxStatus.TX_STATUS_SUCCESS)).err = none := by
  decide

/-- C14, amended: when the event's order hash is not in the store, `handleOrderFilled` (for a
successful fill that is not recorded yet) returns an error, publishes nothing and leaves the
manager as it was, so no fill record is inserted; `handleOrderCancelled` returns an error when
its cancel record was inserted or updated, the record staying in the store, and returns no
error when saving the record reported a duplicate or a failed write. -/
theorem missing_order_is_error (env : Env) (f : Faults) (om : OrderManagerImpl) :
    (∀ event : types.OrderFilledEvent,
      event.Status = types.TxStatus.TX_STATUS_SUCCESS →
      om.rds.FindFillEvent event.TxHash (Int64 event.FillIndex) = none →
      om.rds.GetOrderByHash event.OrderHash = none →
      (om.handleOrderFilled env f event).err = some Err.notFound ∧
      (om.handleOrderFilled env f event).om = om ∧
      (om.handleOrderFilled env f event).notified = []) ∧
    (∀ event : types.OrderCancelledEvent,
      om.rds.GetOrderByHash event.OrderHash = none →
      ((om.saveCancelEvent f event).2 = none →
        (om.handleOrderCancelled env f event).err = some Err.notFound ∧
        (om.handleOrderCancelled env f event).om = (om.saveCancelEvent f event).1 ∧
        (om.handleOrderCancelled env f event).notified = []) ∧
      (∀ e : Err, (om.saveCancelEvent f event).2 = some e →
        (om.handleOrderCancelled env f event).err = none ∧
        (om.handleOrderCancelled env f event).om = om)) := by
  refine ⟨fun event hs hnew ho => ?_, fun event ho => ⟨fun hok => ?_, fun e he => ?_⟩⟩
  · simp [OrderManagerImpl.handleOrderFilled, hs, hnew, ho, Result.fail]
  · have hfr := (saveCancelEvent_frame f om event).2
    unfold OrderManagerImpl.handleOrderCancelled
    cases hsv : om.saveCancelEvent f event with
    | mk om1 oe =>
      rw [hsv] at hok hfr
      simp only at hok hfr
      subst hok
      have ho1 : om1.rds.GetOrderByHash event.OrderHash = none := by
        unfold dao.RdsService.GetOrderByHash at ho ⊢
        rw [hfr]
        exact ho
      simp [ho1, Result.fail]
  · rw [handleOrderCancelled_of_error env f om event e he]
    exact ⟨rfl, rfl⟩

/-- C14 amended, at a concrete input: a fill and a cancel for order 7 on an empty store. -/
theorem missing_order_is_error_witness :
    (exampleFill.Status = types.TxStatus.TX_STATUS_SUCCESS ∧
      exampleOmEmpty.rds.FindFillEvent exampleFill.TxHash (Int64 exampleFill.FillIndex) = none ∧
      exampleOmEmpty.rds.GetOrderByHash exampleFill.OrderHash = none) ∧
    ((exampleOmEmpty.handleOrderFilled exampleEnv Faults.none exampleFill).err = some Err.notFound ∧
      (exampleOmEmpty.handleOrderFilled exampleEnv Faults.none exampleFill).om = exampleOmEmpty ∧
      (exampleOmEmpty.handleOrderFilled exampleEnv Faults.none exampleFill).notified = []) ∧
    ((exampleOmEmpty.saveCancelEvent Faults.none (exampleCancel types.TxStatus.TX_STATUS_SUCCESS)).2 = none ∧
      (exampleOmEmpty.handleOrderCancelled exampleEnv Faults.none
          (exampleCancel types.TxStatus.TX_STATUS_SUCCESS)).err = some Err.notFound) ∧
    ((exampleOmEmpty.saveCancelEvent exampleFaultsAdd (exampleCancel types.TxStatus.TX_STATUS_SUCCESS)).2
        = some Err.storeFailed ∧
      (exampleOmEmpty.handleOrderCancelled exampleEnv exampleFaultsAdd
          (exampleCancel types.TxStatus.TX_STATUS_SUCCESS)).err = none) :=
  ⟨⟨by decide, by decide, by decide⟩,
    (missing_order_is_error exampleEnv Faults.none exampleOmEmpty).1 exampleFill
      (by decide) (by decide) (by decide),
    ⟨by decide,
      (((missing_order_is_error exampleEnv Faults.none exampleOmEmpty).2
        (exampleCancel types.TxStatus.TX_STATUS_SUCCESS) (by decide)).1 (by decide)).1⟩,
    ⟨by decide,
      (((missing_order_is_error exampleEnv exampleFaultsAdd exampleOmEmpty).2
        (exampleCancel types.TxStatus.TX_STATUS_SUCCESS) (by decide)).2 Err.storeFailed (by decide)).1⟩⟩

/-! ## Store failures and the returned error -/

/-- C15 fails as stated: when the insert of the ring-mined record fails, `handleRingMined` and
`handleSubmitRingMethod` return no error; the failure is only logged. -/
theorem ring_store_failure_counterexample :
    exampleFaultsAdd.Add = true ∧
    exampleOmEmpty.rds.FindRingMined 77 = none ∧
    (exampleOmEmpty.handleRingMined exampleFaultsAdd
        (exampleRingMined types.TxStatus.TX_STATUS_SUCCESS)).err = none ∧
    (exampleOmEmpty.handleRingMined exampleFaultsAdd
        (exampleRingMined types.TxStatus.TX_STATUS_SUCCESS)).logged = [Err.storeFailed] ∧
    (exampleOmEmpty.handleRingMined exampleFaultsAdd
        (exampleRingMined types.TxStatus.TX_STATUS_SUCCESS)).om.rds.ringMinedEvents = [] ∧
    (exampleOmEmpty.handleSubmitRingMethod exampleFaultsAdd
        (exampleSubmitRing types.TxStatus.TX_STATUS_PENDING)).err = none ∧
    (exampleOmEmpty.handleSubmitRingMethod exampleFaultsAdd
        (exampleSubmitRing types.TxStatus.TX_STATUS_PENDING)).logged = [Err.storeFailed] ∧
    (exampleAfterSubmit.handleRingMined exampleFaultsSave
        (exampleRingMined types.TxStatus.TX_STATUS_SUCCESS)).err = none ∧
    (exampleAfterSubmit.handleRingMined exampleFaultsSave
        (exampleRingMined types.TxStatus.TX_STATUS_SUCCESS)).logged = [Err.storeFailed] := by
  decide

theorem handleRingMined_err (f : Faults) (om : OrderManagerImpl) (event : types.RingMinedEvent) :
    (om.handleRingMined f event).err = none := by
  unfold OrderManagerImpl.handleRingMined
  split
  · rfl
  · split <;> rfl

theorem handleSubmitRingMethod_err (f : Faults) (om : OrderManagerImpl)
    (event : types.SubmitRingMethodEvent) : (om.handleSubmitRingMethod f event).err = none := by
  unfold OrderManagerImpl.handleSubmitRingMethod
  split
  · rfl
  · split <;> rfl

/-- C15, amended: a failed store write is returned to the caller by `handleGatewayOrder` (the
insert of the order), by `handleOrderFilled` (the insert of the fill record and the fill-path
update) and by `handleOrderCancelled` (the cancel-path update), but not by `handleRingMined` and
`handleSubmitRingMethod`: these return no error for every input, and a failed insert or save of
the ring-mined record is logged, like the duplicate condition, the manager staying as it
was. -/
theorem store_failure_propagation (env : Env) (f : Faults) (om : OrderManagerImpl) :
    (∀ event : types.RingMinedEvent,
      (om.handleRingMined f event).err = none ∧
      (event.Status = types.TxStatus.TX_STATUS_SUCCESS → om.rds.FindRingMined event.TxHash = none →
        f.Add = true →
        om.handleRingMined f event
          = { om := om, err := none, notified := [], logged := [Err.storeFailed] }) ∧
      (event.Status = types.TxStatus.TX_STATUS_SUCCESS →
        ∀ (id : Nat) (m : dao.RingMinedEvent), om.rds.FindRingMined event.TxHash = some (id, m) →
        m.Status ≠ event.Status → f.Save = true →
        om.handleRingMined f event
          = { om := om, err := none, notified := [], logged := [Err.storeFailed] })) ∧
    (∀ event : types.SubmitRingMethodEvent,
      (om.handleSubmitRingMethod f event).err = none ∧
      (event.Status = types.TxStatus.TX_STATUS_FAILED ∨ event.Status = types.TxStatus.TX_STATUS_PENDING →
        om.rds.FindRingMined event.TxHash = none → f.Add = true →
        om.handleSubmitRingMethod f event
          = { om := om, err := none, notified := [], logged := [Err.storeFailed] }) ∧
      (event.Status = types.TxStatus.TX_STATUS_FAILED ∨ event.Status = types.TxStatus.TX_STATUS_PENDING →
        ∀ (id : Nat) (m : dao.RingMinedEvent), om.rds.FindRingMined event.TxHash = some (id, m) →
        m.Status ≠ event.Status → f.Save = true →
        om.handleSubmitRingMethod f event
          = { om := om, err := none, notified := [], logged := [Err.storeFailed] })) ∧
    (∀ (state : types.OrderState) (model : dao.Order),
      env.NewOrderEntity state = some model → f.Add = true →
      (om.handleGatewayOrder env f state).err = some Err.storeFailed) ∧
    (∀ (event : types.OrderFilledEvent) (o : dao.Order),
      event.Status = types.TxStatus.TX_STATUS_SUCCESS →
      om.rds.FindFillEvent event.TxHash (Int64 event.FillIndex) = none →
      om.rds.GetOrderByHash event.OrderHash = some o → f.ConvertUp = false →
      (f.Add = true → (om.handleOrderFilled env f event).err = some Err.storeFailed) ∧
      (f.Add = false →
        ¬ (o.Status = types.OrderStatus.ORDER_CUTOFF ∨ o.Status = types.OrderStatus.ORDER_FINISHED
          ∨ o.Status = types.OrderStatus.ORDER_UNKNOWN) →
        f.ConvertDown = false → f.UpdateOrderWhileFill = true →
        (om.handleOrderFilled env f event).err = some Err.storeFailed)) ∧
    (∀ (event : types.OrderCancelledEvent) (o : dao.Order),
      (om.saveCancelEvent f event).2 = none →
      om.rds.GetOrderByHash event.OrderHash = some o → f.ConvertUp = false →
      f.ConvertDown = false → f.UpdateOrderWhileCancel = true →
      (om.handleOrderCancelled env f event).err = some Err.storeFailed) := by
  refine ⟨fun event => ⟨handleRingMined_err f om event, fun hs hnew hadd => ?_,
      fun hs id m hfind hne hsave => ?_⟩,
    fun event => ⟨handleSubmitRingMethod_err f om event, fun hs hnew hadd => ?_,
      fun hs id m hfind hne hsave => ?_⟩,
    fun state model hb hadd => ?_,
    fun event o hs hnew ho hcu => ⟨fun hadd => ?_, fun hadd hterm hcd hupd => ?_⟩,
    fun event o hok ho hcu hcd hupd => ?_⟩
  · simp [OrderManagerImpl.handleRingMined, hs, OrderManagerImpl.saveRingMinedEvent, hnew,
      dao.RdsService.Add, hadd, OrderManagerImpl.written]
  · simp [OrderManagerImpl.handleRingMined, hs, OrderManagerImpl.saveRingMinedEvent, hfind,
      dao.RdsService.Save, hsave, OrderManagerImpl.written]
    rw [hs] at hne
    simp [hne]
  · have hcond : ¬ (event.Status ≠ types.TxStatus.TX_STATUS_FAILED ∧
        event.Status ≠ types.TxStatus.TX_STATUS_PENDING) := by
      rintro ⟨h1, h2⟩
      rcases hs with h | h
      · exact h1 h
      · exact h2 h
    simp only [OrderManagerImpl.handleSubmitRingMethod, if_neg hcond,
      OrderManagerImpl.saveSubmitRingEvent, hnew, dao.RdsService.Add, hadd, if_true,
      OrderManagerImpl.written]
  · have hcond : ¬ (event.Status ≠ types.TxStatus.TX_STATUS_FAILED ∧
        event.Status ≠ types.TxStatus.TX_STATUS_PENDING) := by
      rintro ⟨h1, h2⟩
      rcases hs with h | h
      · exact h1 h
      · exact h2 h
    simp only [OrderManagerImpl.handleSubmitRingMethod, if_neg hcond,
      OrderManagerImpl.saveSubmitRingEvent, hfind, if_pos hne, dao.RdsService.Save, hsave, if_true,
      OrderManagerImpl.written]
  · simp [OrderManagerImpl.handleGatewayOrder, hb, dao.RdsService.Add, hadd, Result.fail]
  · simp [OrderManagerImpl.handleOrderFilled, hs, hnew, ho, dao.Order.ConvertUp, hcu,
      dao.RdsService.Add, hadd, Result.fail]
  · simp [OrderManagerImpl.handleOrderFilled, hs, hnew, ho, dao.Order.ConvertUp, hcu,
      dao.RdsService.Add, hadd, hterm, dao.Order.ConvertDown, hcd,
      dao.RdsService.UpdateOrderWhileFill, hupd, Result.fail]
  · have hfr := (saveCancelEvent_frame f om event).2
    unfold OrderManagerImpl.handleOrderCancelled
    cases hsv : om.saveCancelEvent f event with
    | mk om1 oe =>
      rw [hsv] at hok hfr
      simp only at hok hfr
      subst hok
      have ho1 : om1.rds.GetOrderByHash event.OrderHash = some o := by
        unfold dao.RdsService.GetOrderByHash at ho ⊢
        rw [hfr]
        exact ho
      simp [ho1, dao.Order.ConvertUp, hcu, dao.Order.ConvertDown, hcd,
        dao.RdsService.UpdateOrderWhileCancel, hupd, Result.fail]

/-- C15 amended, at a concrete input: failing inserts and saves in each of the five handlers. -/
theorem store_failure_propagation_witness :
    (((exampleRingMined types.TxStatus.TX_STATUS_SUCCESS).Status = types.TxStatus.TX_STATUS_SUCCESS ∧
        exampleOmEmpty.rds.FindRingMined (exampleRingMined types.TxStatus.TX_STATUS_SUCCESS).TxHash = none ∧
        exampleFaultsAdd.Add = true) ∧
      exampleOmEmpty.handleRingMined exampleFaultsAdd (exampleRingMined types.TxStatus.TX_STATUS_SUCCESS)
        = { om := exampleOmEmpty, err := none, notified := [], logged := [Err.storeFailed] }) ∧
    ((exampleAfterSubmit.rds.FindRingMined (exampleRingMined types.TxStatus.TX_STATUS_SUCCESS).TxHash
          = some (0, exampleRowPending) ∧
        exampleRowPending.Status ≠ (exampleRingMined types.TxStatus.TX_STATUS_SUCCESS).Status ∧
        exampleFaultsSave.Save = true) ∧
      exampleAfterSubmit.handleRingMined exampleFaultsSave (exampleRingMined types.TxStatus.TX_STATUS_SUCCESS)
        = { om := exampleAfterSubmit, err := none, notified := [], logged := [Err.storeFailed] }) ∧
    (exampleOmEmpty.handleSubmitRingMethod exampleFaultsAdd
        (exampleSubmitRing types.TxStatus.TX_STATUS_PENDING)
        = { om := exampleOmEmpty, err := none, notified := [], logged := [Err.storeFailed] }) ∧
    (exampleEnv.NewOrderEntity exampleState = some (exampleOrder 9 types.OrderStatus.ORDER_NEW false) ∧
      (exampleOmEmpty.handleGatewayOrder exampleEnv exampleFaultsAdd exampleState).err
        = some Err.storeFailed) ∧
    ((exampleFill.Status = types.TxStatus.TX_STATUS_SUCCESS ∧
        exampleOm.rds.FindFillEvent exampleFill.TxHash (Int64 exampleFill.FillIndex) = none ∧
        exampleOm.rds.GetOrderByHash exampleFill.OrderHash
          = some (exampleOrder 7 types.OrderStatus.ORDER_NEW false)) ∧
      (exampleOm.handleOrderFilled exampleEnv exampleFaultsAdd exampleFill).err = some Err.storeFailed ∧
      (exampleOm.handleOrderFilled exampleEnv exampleFaultsUpdateFill exampleFill).err
        = some Err.storeFailed) ∧
    ((exampleOm.saveCancelEvent exampleFaultsUpdateCancel (exampleCancel types.TxStatus.TX_STATUS_SUCCESS)).2
        = none ∧
      (exampleOm.handleOrderCancelled exampleEnv exampleFaultsUpdateCancel
          (exampleCancel types.TxStatus.TX_STATUS_SUCCESS)).err = some Err.storeFailed) :=
  ⟨⟨⟨by decide, by decide, by decide⟩,
      ((store_failure_propagation exampleEnv exampleFaultsAdd exampleOmEmpty).1
        (exampleRingMined types.TxStatus.TX_STATUS_SUCCESS)).2.1 (by decide) (by decide) (by decide)⟩,
    ⟨⟨by decide, by decide, by decide⟩,
      ((store_failure_propagation exampleEnv exampleFaultsSave exampleAfterSubmit).1
        (exampleRingMined types.TxStatus.TX_STATUS_SUCCESS)).2.2 (by decide) 0 exampleRowPending
        (by decide) (by decide) (by decide)⟩,
    ((store_failure_propagation exampleEnv exampleFaultsAdd exampleOmEmpty).2.1
      (exampleSubmitRing types.TxStatus.TX_STATUS_PENDING)).2.1 (by decide) (by decide) (by decide),
    ⟨by decide,
      (store_failure_propagation exampleEnv exampleFaultsAdd exampleOmEmpty).2.2.1 exampleState
        (exampleOrder 9 types.OrderStatus.ORDER_NEW false) (by decide) (by decide)⟩,
    ⟨⟨by decide, by decide, by decide⟩,
      ((store_failure_propagation exampleEnv exampleFaultsAdd exampleOm).2.2.2.1 exampleFill
        (exampleOrder 7 types.OrderStatus.ORDER_NEW false) (by decide) (by decide) (by decide)
        (by decide)).1 (by decide),
      ((store_failure_propagation exampleEnv exampleFaultsUpdateFill exampleOm).2.2.2.1 exampleFill
        (exampleOrder 7 types.OrderStatus.ORDER_NEW false) (by decide) (by decide) (by decide)
        (by decide)).2 (by decide) (by decide) (by decide) (by decide)⟩,
    ⟨by decide,
      (store_failure_propagation exampleEnv exampleFaultsUpdateCancel exampleOm).2.2.2.2
        (exampleCancel types.TxStatus.TX_STATUS_SUCCESS) (exampleOrder 7 types.OrderStatus.ORDER_NEW false)
        (by decide) (by decide) (by decide) (by decide) (by decide)⟩⟩

/-! ## New orders from the gateway -/

/-- C16 fails as stated: when the order entity cannot be built from the submission,
`handleGatewayOrder` does return an error to the bus; nothing is inserted and nothing is
published. -/
theorem gateway_build_failure_counterexample :
    exampleEnvNoBuild.NewOrderEntity exampleState = none ∧
    (exampleOmEmpty.handleGatewayOrder exampleEnvNoBuild Faults.none exampleState).err
      = some Err.buildFailed ∧
    (exampleOmEmpty.handleGatewayOrder exampleEnvNoBuild Faults.none exampleState).err ≠ none ∧
    (exampleOmEmpty.handleGatewayOrder exampleEnvNoBuild Faults.none exampleState).om.rds.orders = [] ∧
    (exampleOmEmpty.handleGatewayOrder exampleEnvNoBuild Faults.none exampleState).notified = [] := by
  decide

/-- C16, amended: `handleGatewayOrder` returns an error for both of its failures. When building
the order entity fails, nothing is inserted, nothing is published, the failure is logged and the
build error is returned; when the insert fails, the store's error is returned, the manager stays
as it was and nothing is published; when both succeed, the order is appended to the order table,
no error is returned and exactly one order-updated notification, carrying the submitted state,
is published. -/
theorem handleGatewayOrder_failures (env : Env) (f : Faults) (om : OrderManagerImpl)
    (state : types.OrderState) :
    (env.NewOrderEntity state = none →
      (om.handleGatewayOrder env f state).err = some Err.buildFailed ∧
      (om.handleGatewayOrder env f state).om = om ∧
      (om.handleGatewayOrder env f state).notified = [] ∧
      (om.handleGatewayOrder env f state).logged = [Err.buildFailed]) ∧
    (∀ model : dao.Order, env.NewOrderEntity state = some model → f.Add = true →
      (om.handleGatewayOrder env f state).err = some Err.storeFailed ∧
      (om.handleGatewayOrder env f state).om = om ∧
      (om.handleGatewayOrder env f state).notified = []) ∧
    (∀ model : dao.Order, env.NewOrderEntity state = some model → f.Add = false →
      (om.handleGatewayOrder env f state).err = none ∧
      (om.handleGatewayOrder env f state).om.rds.orders = om.rds.orders ++ [model] ∧
      (om.handleGatewayOrder env f state).notified = [Notification.OrderUpdate state]) := by
  refine ⟨fun hb => ?_, fun model hb hadd => ?_, fun model hb hadd => ?_⟩
  · simp [OrderManagerImpl.handleGatewayOrder, hb]
  · simp [OrderManagerImpl.handleGatewayOrder, hb, dao.RdsService.Add, hadd, Result.fail]
  · simp [OrderManagerImpl.handleGatewayOrder, hb, dao.RdsService.Add, hadd]

/-- C16 amended, at a concrete input: the submission of order 9 with a failing build, a failing
insert, and with both succeeding. -/
theorem handleGatewayOrder_failures_witness :
    (exampleEnvNoBuild.NewOrderEntity exampleState = none ∧
      (exampleOmEmpty.handleGatewayOrder exampleEnvNoBuild Faults.none exampleState).err
        = some Err.buildFailed ∧
      (exampleOmEmpty.handleGatewayOrder exampleEnvNoBuild Faults.none exampleState).om = exampleOmEmpty ∧
      (exampleOmEmpty.handleGatewayOrder exampleEnvNoBuild Faults.none exampleState).notified = [] ∧
      (exampleOmEmpty.handleGatewayOrder exampleEnvNoBuild Faults.none exampleState).logged
        = [Err.buildFailed]) ∧
    (exampleEnv.NewOrderEntity exampleState = some (exampleOrder 9 types.OrderStatus.ORDER_NEW false) ∧
      exampleFaultsAdd.Add = true ∧
      (exampleOmEmpty.handleGatewayOrder exampleEnv exampleFaultsAdd exampleState).err
        = some Err.storeFailed ∧
      (exampleOmEmpty.handleGatewayOrder exampleEnv exampleFaultsAdd exampleState).om = exampleOmEmpty ∧
      (exampleOmEmpty.handleGatewayOrder exampleEnv exampleFaultsAdd exampleState).notified = []) ∧
    ((exampleOmEmpty.handleGatewayOrder exampleEnv Faults.none exampleState).err = none ∧
      (exampleOmEmpty.handleGatewayOrder exampleEnv Faults.none exampleState).om.rds.orders
        = exampleOmEmpty.rds.orders ++ [exampleOrder 9 types.OrderStatus.ORDER_NEW false] ∧
      (exampleOmEmpty.handleGatewayOrder exampleEnv Faults.none exampleState).notified
        = [Notification.OrderUpdate exampleState]) :=
  ⟨⟨by decide,
      (handleGatewayOrder_failures exampleEnvNoBuild Faults.none exampleOmEmpty exampleState).1
        (by decide)⟩,
    ⟨by decide, by decide,
      (handleGatewayOrder_failures exampleEnv exampleFaultsAdd exampleOmEmpty exampleState).2.1
        (exampleOrder 9 types.OrderStatus.ORDER_NEW false) (by decide) (by decide)⟩,
    (handleGatewayOrder_failures exampleEnv Faults.none exampleOmEmpty exampleState).2.2
      (exampleOrder 9 types.OrderStatus.ORDER_NEW false) (by decide) (by decide)⟩

/-! ## One cancel transaction delivered with two statuses -/

/-- A new successful fill on a non-terminal order whose compression or fill-path update fails:
the handler returns an error and publishes nothing, and the store differs from the one before
only by the appended fill record. -/
theorem handleOrderFilled_record_only (env : Env) (f : Faults) (om : OrderManagerImpl)
    (event : types.OrderFilledEvent) (o : dao.Order)
    (hs : event.Status = types.TxStatus.TX_STATUS_SUCCESS)
    (hnew : om.rds.FindFillEvent event.TxHash (Int64 event.FillIndex) = none)
    (ho : om.rds.GetOrderByHash event.OrderHash = some o)
    (hterm : ¬ (o.Status = types.OrderStatus.ORDER_CUTOFF ∨ o.Status = types.OrderStatus.ORDER_FINISHED
      ∨ o.Status = types.OrderStatus.ORDER_UNKNOWN))
    (hcu : f.ConvertUp = false) (hadd : f.Add = false)
    (hfail : f.ConvertDown = true ∨ f.UpdateOrderWhileFill = true) :
    (om.handleOrderFilled env f event).err ≠ none ∧
    (om.handleOrderFilled env f event).notified = [] ∧
    (om.handleOrderFilled env f event).om.rds =
      { om.rds with fillEvents := om.rds.fillEvents ++
          [{ dao.FillEvent.zero.ConvertDown event with
              Fork := false, OrderType := o.OrderType,
              Side := env.GetSide event.TokenS event.TokenB,
              Market := env.WrapMarketByAddress event.TokenB event.TokenS }] } := by
  by_cases hcd : f.ConvertDown = true
  · simp [OrderManagerImpl.handleOrderFilled, hs, hnew, ho, dao.Order.ConvertUp, hcu,
      dao.RdsService.Add, hadd, hterm, dao.Order.ConvertDown, hcd]
  · have hupd : f.UpdateOrderWhileFill = true := by
      rcases hfail with h | h
      · exact absurd h hcd
      · exact h
    simp [OrderManagerImpl.handleOrderFilled, hs, hnew, ho, dao.Order.ConvertUp, hcu,
      dao.RdsService.Add, hadd, hterm, dao.Order.ConvertDown, hcd,
      dao.RdsService.UpdateOrderWhileFill, hupd, Result.fail]

/-- A cancel event whose record was saved, on a missing order or with a failing conversion or
cancel-path update: the handler returns an error, publishes nothing and leaves the order table
as it was. -/
theorem handleOrderCancelled_record_only (env : Env) (f : Faults) (om : OrderManagerImpl)
    (event : types.OrderCancelledEvent)
    (hok : (om.saveCancelEvent f event).2 = none)
    (hfail : om.rds.GetOrderByHash event.OrderHash = none ∨ f.ConvertUp = true ∨
      f.ConvertDown = true ∨ f.UpdateOrderWhileCancel = true) :
    (om.handleOrderCancelled env f event).err ≠ none ∧
    (om.handleOrderCancelled env f event).notified = [] ∧
    (om.handleOrderCancelled env f event).om = (om.saveCancelEvent f event).1 := by
  have hfr := (saveCancelEvent_frame f om event).2
  unfold OrderManagerImpl.handleOrderCancelled
  cases hsv : om.saveCancelEvent f event with
  | mk om1 oe =>
    rw [hsv] at hok hfr
    simp only at hok hfr
    subst hok
    cases ho1 : om1.rds.GetOrderByHash event.OrderHash with
    | none => simp [ho1, Result.fail]
    | some o =>
      have ho : om.rds.GetOrderByHash event.OrderHash = some o := by
        unfold dao.RdsService.GetOrderByHash at ho1 ⊢
        rw [← hfr]
        exact ho1
      by_cases hcu : f.ConvertUp = true
      · simp [ho1, dao.Order.ConvertUp, hcu, Result.fail]
      by_cases hcd : f.ConvertDown = true
      · simp [ho1, dao.Order.ConvertUp, hcu, dao.Order.ConvertDown, hcd, Result.fail]
      have hupd : f.UpdateOrderWhileCancel = true := by
        rcases hfail with h | h | h | h
        · rw [ho] at h; exact absurd h (by simp)
        · exact absurd h hcu
        · exact absurd h hcd
        · exact h
      simp [ho1, dao.Order.ConvertUp, hcu, dao.Order.ConvertDown, hcd,
        dao.RdsService.UpdateOrderWhileCancel, hupd, Result.fail]

theorem OrderManagerImpl.runFills_of_recorded (env : Env) (om : OrderManagerImpl)
    (event : types.OrderFilledEvent)
    (h : (om.rds.FindFillEvent event.TxHash (Int64 event.FillIndex)).isSome = true)
    (fs : List Faults) : om.runFills env (fs.map (fun f => (f, event))) = om := by
  induction fs with
  | nil => rfl
  | cons f rest ih =>
    simp only [List.map_cons, OrderManagerImpl.runFills]
    rw [handleOrderFilled_of_recorded env f om event h]
    exact ih

theorem OrderManagerImpl.runCancels_of_recorded (env : Env) (om : OrderManagerImpl)
    (event : types.OrderCancelledEvent) (h : CancelRecorded om event.TxHash event.Status)
    (fs : List Faults) : om.runCancels env (fs.map (fun f => (f, event))) = om := by
  induction fs with
  | nil => rfl
  | cons f rest ih =>
    simp only [List.map_cons, OrderManagerImpl.runCancels]
    rw [handleOrderCancelled_of_recorded env f om event h]
    exact ih

/-- C18: when a new successful fill on a non-terminal order has its record inserted and the
compression or the fill-path update then fails, `handleOrderFilled` returns an error, the fill
record is in the store, the order is found exactly as before (its dealt amounts do not include
the fill), and every later delivery of the same event, whatever fails or succeeds then, returns
no error, publishes nothing and changes nothing, however often it is repeated. Likewise, when
`handleOrderCancelled` has saved its cancel record and the order is missing or the conversion or
the cancel-path update fails, it returns an error, the record is stored, the order table is as
before, and every later delivery of the same event returns no error and changes nothing. -/
theorem record_before_update_loses_event (env : Env) (f : Faults) (om : OrderManagerImpl) :
    (∀ (event : types.OrderFilledEvent) (o : dao.Order),
      event.Status = types.TxStatus.TX_STATUS_SUCCESS →
      om.rds.FindFillEvent event.TxHash (Int64 event.FillIndex) = none →
      om.rds.GetOrderByHash event.OrderHash = some o →
      ¬ (o.Status = types.OrderStatus.ORDER_CUTOFF ∨ o.Status = types.OrderStatus.ORDER_FINISHED
        ∨ o.Status = types.OrderStatus.ORDER_UNKNOWN) →
      f.ConvertUp = false → f.Add = false →
      (f.ConvertDown = true ∨ f.UpdateOrderWhileFill = true) →
      (om.handleOrderFilled env f event).err ≠ none ∧
      ((om.handleOrderFilled env f event).om.rds.FindFillEvent event.TxHash
        (Int64 event.FillIndex)).isSome = true ∧
      (om.handleOrderFilled env f event).om.rds.GetOrderByHash event.OrderHash = some o ∧
      (∀ f' : Faults,
        (om.handleOrderFilled env f event).om.handleOrderFilled env f' event
          = Result.ok (om.handleOrderFilled env f event).om) ∧
      (∀ fs : List Faults,
        (om.handleOrderFilled env f event).om.runFills env (fs.map (fun f' => (f', event)))
          = (om.handleOrderFilled env f event).om)) ∧
    (∀ event : types.OrderCancelledEvent,
      (om.saveCancelEvent f event).2 = none →
      (om.rds.GetOrderByHash event.OrderHash = none ∨ f.ConvertUp = true ∨
        f.ConvertDown = true ∨ f.UpdateOrderWhileCancel = true) →
      (om.handleOrderCancelled env f event).err ≠ none ∧
      CancelRecorded (om.handleOrderCancelled env f event).om event.TxHash event.Status ∧
      (om.handleOrderCancelled env f event).om.rds.orders = om.rds.orders ∧
      (∀ f' : Faults,
        (om.handleOrderCancelled env f event).om.handleOrderCancelled env f' event
          = { om := (om.handleOrderCancelled env f event).om, err := none, notified := [],
              logged := [Err.alreadyExist] }) ∧
      (∀ fs : List Faults,
        (om.handleOrderCancelled env f event).om.runCancels env (fs.map (fun f' => (f', event)))
          = (om.handleOrderCancelled env f event).om)) := by
  constructor
  · intro event o hs hnew ho hterm hcu hadd hfail
    obtain ⟨herr, _, hrds⟩ :=
      handleOrderFilled_record_only env f om event o hs hnew ho hterm hcu hadd hfail
    have hrec : ((om.handleOrderFilled env f event).om.rds.FindFillEvent event.TxHash
        (Int64 event.FillIndex)).isSome = true := by
      rw [hrds]
      unfold dao.RdsService.FindFillEvent at hnew ⊢
      simp only [Option.map_eq_none'] at hnew
      rw [dao.findRow_append_new _ _ _ hnew (by simp [dao.FillEvent.ConvertDown])]
      rfl
    refine ⟨herr, hrec, ?_, fun f' => handleOrderFilled_of_recorded env f' _ event hrec,
      fun fs => OrderManagerImpl.runFills_of_recorded env _ event hrec fs⟩
    rw [hrds]
    exact ho
  · intro event hok hfail
    obtain ⟨herr, _, hom⟩ := handleOrderCancelled_record_only env f om event hok hfail
    have hrec : CancelRecorded (om.handleOrderCancelled env f event).om event.TxHash event.Status := by
      rw [hom]
      exact saveCancelEvent_recorded_of_ok f om event hok
    refine ⟨herr, hrec, ?_, fun f' => ?_,
      fun fs => OrderManagerImpl.runCancels_of_recorded env _ event hrec fs⟩
    · rw [hom]
      exact (saveCancelEvent_frame f om event).2
    · apply handleOrderCancelled_of_error
      rw [saveCancelEvent_of_recorded f' _ event hrec]

/-- C18, at a concrete input: the fill of 40 on order 7 whose fill-path update fails leaves its
record and an order with nothing dealt, and a redelivery with no failing call still leaves
nothing dealt; the cancel of 30 for the missing order 7, and the one whose cancel-path update
fails, leave their record, and a redelivery adds nothing. -/
theorem record_before_update_loses_event_witness :
    ((exampleFill.Status = types.TxStatus.TX_STATUS_SUCCESS ∧
        exampleOm.rds.FindFillEvent exampleFill.TxHash (Int64 exampleFill.FillIndex) = none ∧
        exampleOm.rds.GetOrderByHash exampleFill.OrderHash
          = some (exampleOrder 7 types.OrderStatus.ORDER_NEW false) ∧
        (exampleFaultsUpdateFill.ConvertDown = true ∨ exampleFaultsUpdateFill.UpdateOrderWhileFill = true)) ∧
      (exampleOm.handleOrderFilled exampleEnv exampleFaultsUpdateFill exampleFill).err ≠ none ∧
      ((exampleOm.handleOrderFilled exampleEnv exampleFaultsUpdateFill exampleFill).om.rds.FindFillEvent
          exampleFill.TxHash (Int64 exampleFill.FillIndex)).isSome = true ∧
      (exampleOm.handleOrderFilled exampleEnv exampleFaultsUpdateFill exampleFill).om.rds.GetOrderByHash
          exampleFill.OrderHash = some (exampleOrder 7 types.OrderStatus.ORDER_NEW false) ∧
      (exampleOm.handleOrderFilled exampleEnv exampleFaultsUpdateFill exampleFill).om.handleOrderFilled
          exampleEnv Faults.none exampleFill
        = Result.ok (exampleOm.handleOrderFilled exampleEnv exampleFaultsUpdateFill exampleFill).om) ∧
    (((exampleOm.handleOrderFilled exampleEnv exampleFaultsConvertDown exampleFill).om.handleOrderFilled
          exampleEnv Faults.none exampleFill).om.rds.GetOrderByHash 7).map
        (fun o => (o.DealtAmountS, o.DealtAmountB)) = some (0, 0) ∧
    (((exampleOmEmpty.saveCancelEvent Faults.none (exampleCancel types.TxStatus.TX_STATUS_SUCCESS)).2 = none ∧
        exampleOmEmpty.rds.GetOrderByHash (exampleCancel types.TxStatus.TX_STATUS_SUCCESS).OrderHash = none) ∧
      (exampleOmEmpty.handleOrderCancelled exampleEnv Faults.none
          (exampleCancel types.TxStatus.TX_STATUS_SUCCESS)).err ≠ none ∧
      CancelRecorded (exampleOmEmpty.handleOrderCancelled exampleEnv Faults.none
          (exampleCancel types.TxStatus.TX_STATUS_SUCCESS)).om
        (exampleCancel types.TxStatus.TX_STATUS_SUCCESS).TxHash
        (exampleCancel types.TxStatus.TX_STATUS_SUCCESS).Status) ∧
    (((exampleOm.saveCancelEvent exampleFaultsUpdateCancel
          (exampleCancel types.TxStatus.TX_STATUS_SUCCESS)).2 = none ∧
        exampleFaultsUpdateCancel.UpdateOrderWhileCancel = true) ∧
      (exampleOm.handleOrderCancelled exampleEnv exampleFaultsUpdateCancel
          (exampleCancel types.TxStatus.TX_STATUS_SUCCESS)).om.rds.orders = exampleOm.rds.orders ∧
      (exampleOm.handleOrderCancelled exampleEnv exampleFaultsUpdateCancel
          (exampleCancel types.TxStatus.TX_STATUS_SUCCESS)).om.handleOrderCancelled exampleEnv Faults.none
          (exampleCancel types.TxStatus.TX_STATUS_SUCCESS)
        = { om := (exampleOm.handleOrderCancelled exampleEnv exampleFaultsUpdateCancel
              (exampleCancel types.TxStatus.TX_STATUS_SUCCESS)).om,
            err := none, notified := [], logged := [Err.alreadyExist] }) :=
  ⟨⟨⟨by decide, by decide, by decide, by decide⟩,
      ((record_before_update_loses_event exampleEnv exampleFaultsUpdateFill exampleOm).1 exampleFill
        (exampleOrder 7 types.OrderStatus.ORDER_NEW false) (by decide) (by decide) (by decide) (by decide)
        (by decide) (by decide) (by decide)).1,
      ((record_before_update_loses_event exampleEnv exampleFaultsUpdateFill exampleOm).1 exampleFill
        (exampleOrder 7 types.OrderStatus.ORDER_NEW false) (by decide) (by decide) (by decide) (by decide)
        (by decide) (by decide) (by decide)).2.1,
      ((record_before_update_loses_event exampleEnv exampleFaultsUpdateFill exampleOm).1 exampleFill
        (exampleOrder 7 types.OrderStatus.ORDER_NEW false) (by decide) (by decide) (by decide) (by decide)
        (by decide) (by decide) (by decide)).2.2.1,
      ((record_before_update_loses_event exampleEnv exampleFaultsUpdateFill exampleOm).1 exampleFill
        (exampleOrder 7 types.OrderStatus.ORDER_NEW false) (by decide) (by decide) (by decide) (by decide)
        (by decide) (by decide) (by decide)).2.2.2.1 Faults.none⟩,
    by decide,
    ⟨⟨by decide, by decide⟩,
      ((record_before_update_loses_event exampleEnv Faults.none exampleOmEmpty).2
        (exampleCancel types.TxStatus.TX_STATUS_SUCCESS) (by decide) (Or.inl (by decide))).1,
      ((record_before_update_loses_event exampleEnv Faults.none exampleOmEmpty).2
        (exampleCancel types.TxStatus.TX_STATUS_SUCCESS) (by decide) (Or.inl (by decide))).2.1⟩,
    ⟨⟨by decide, by decide⟩,
      ((record_before_update_loses_event exampleEnv exampleFaultsUpdateCancel exampleOm).2
        (exampleCancel types.TxStatus.TX_STATUS_SUCCESS) (by decide)
        (Or.inr (Or.inr (Or.inr (by decide))))).2.2.1,
      ((record_before_update_loses_event exampleEnv exampleFaultsUpdateCancel exampleOm).2
        (exampleCancel types.TxStatus.TX_STATUS_SUCCESS) (by decide)
        (Or.inr (Or.inr (Or.inr (by decide))))).2.2.2.1 Faults.none⟩⟩

/-! ## The discarded result of the bulk cutoff update -/

theorem handleCutoff_err (env : Env) (f : Faults) (om : OrderManagerImpl) (event : types.CutoffEvent) :
    (om.handleCutoff env f event).err = none := by
  cases hsave : (om.saveCutoffEvent env f event).2.2 with
  | some e => rw [handleCutoff_of_error env f om event e hsave]
  | none =>
    by_cases hs : event.Status = types.TxStatus.TX_STATUS_SUCCESS
    · by_cases hlt : event.Cutoff < om.cutoffCache.GetCutoff event.Protocol event.Owner
      · rw [handleCutoff_of_older env f om event hsave hs hlt]; rfl
      · rw [handleCutoff_of_accepted env f om event hsave hs (not_lt.mp hlt)]
    · rw [handleCutoff_of_not_success env f om event hsave hs]; rfl

theorem handleCutoffPair_err (env : Env) (f : Faults) (om : OrderManagerImpl)
    (event : types.CutoffPairEvent) : (om.handleCutoffPair env f event).err = none := by
  cases hsave : (om.saveCutoffPairEvent env f event).2.2 with
  | some e => rw [handleCutoffPair_of_error env f om event e hsave]
  | none =>
    by_cases hs : event.Status = types.TxStatus.TX_STATUS_SUCCESS
    · by_cases hlt : event.Cutoff
          < om.cutoffCache.GetCutoffPair event.Protocol event.Owner event.Token1 event.Token2
      · rw [handleCutoffPair_of_older env f om event hsave hs hlt]; rfl
      · rw [handleCutoffPair_of_accepted env f om event hsave hs (not_lt.mp hlt)]
    · rw [handleCutoffPair_of_not_success env f om event hsave hs]; rfl

/-- C19: `handleCutoff` and `handleCutoffPair` return no error for every event, every store and
every combination of failing store calls; and when the record of a successful event that is not
older than the cached cutoff was saved and the bulk update fails, the cache slot already holds
the event's cutoff and the notification is published while the order table is as before. -/
theorem cutoff_handlers_return_nil (env : Env) (f : Faults) (om : OrderManagerImpl) :
    (∀ event : types.CutoffEvent,
      (om.handleCutoff env f event).err = none ∧
      ((om.saveCutoffEvent env f event).2.2 = none →
        event.Status = types.TxStatus.TX_STATUS_SUCCESS →
        om.cutoffCache.GetCutoff event.Protocol event.Owner ≤ event.Cutoff →
        f.SetCutOffOrders = true →
        (om.handleCutoff env f event).om.cutoffCache.GetCutoff event.Protocol event.Owner = event.Cutoff ∧
        (om.handleCutoff env f event).notified
          = [Notification.Cutoff (om.saveCutoffEvent env f event).2.1] ∧
        (om.handleCutoff env f event).om.rds.orders = om.rds.orders)) ∧
    (∀ event : types.CutoffPairEvent,
      (om.handleCutoffPair env f event).err = none ∧
      ((om.saveCutoffPairEvent env f event).2.2 = none →
        event.Status = types.TxStatus.TX_STATUS_SUCCESS →
        om.cutoffCache.GetCutoffPair event.Protocol event.Owner event.Token1 event.Token2 ≤ event.Cutoff →
        f.SetCutOffOrders = true →
        (om.handleCutoffPair env f event).om.cutoffCache.GetCutoffPair event.Protocol event.Owner
          event.Token1 event.Token2 = event.Cutoff ∧
        (om.handleCutoffPair env f event).notified
          = [Notification.CutoffPair (om.saveCutoffPairEvent env f event).2.1] ∧
        (om.handleCutoffPair env f event).om.rds.orders = om.rds.orders)) := by
  refine ⟨fun event => ⟨handleCutoff_err env f om event, fun hok hs hge hset => ?_⟩,
    fun event => ⟨handleCutoffPair_err env f om event, fun hok hs hge hset => ?_⟩⟩
  · rw [handleCutoff_of_accepted env f om event hok hs hge]
    simp [OrderManagerImpl.setCutOffOrders, dao.RdsService.SetCutOffOrders, hset,
      omcm.CutoffCache.GetCutoff, omcm.CutoffCache.UpdateCutoff,
      (saveCutoffEvent_frame env f om event).2]
  · rw [handleCutoffPair_of_accepted env f om event hok hs hge]
    simp [OrderManagerImpl.setCutOffOrders, dao.RdsService.SetCutOffOrders, hset,
      omcm.CutoffCache.GetCutoffPair, omcm.CutoffCache.UpdateCutoffPair,
      (saveCutoffPairEvent_frame env f om event).2]

/-- C19, at a concrete input: with 1000 cached, CutoffAll(cutoff = 1200, order 3) whose bulk
update fails sets the cached value to 1200 and is published, while order 3 stays new; the same
for a token pair. -/
theorem cutoff_handlers_return_nil_witness :
    (((exampleAfterCutoff.saveCutoffEvent exampleEnv exampleFaultsSetCutOff
          (exampleCutoff 505 1200 80 [3])).2.2 = none ∧
        (exampleCutoff 505 1200 80 [3]).Status = types.TxStatus.TX_STATUS_SUCCESS ∧
        exampleAfterCutoff.cutoffCache.GetCutoff 100 1 ≤ (exampleCutoff 505 1200 80 [3]).Cutoff ∧
        exampleFaultsSetCutOff.SetCutOffOrders = true) ∧
      (exampleAfterCutoff.handleCutoff exampleEnv exampleFaultsSetCutOff
          (exampleCutoff 505 1200 80 [3])).err = none ∧
      (exampleAfterCutoff.handleCutoff exampleEnv exampleFaultsSetCutOff
          (exampleCutoff 505 1200 80 [3])).om.cutoffCache.GetCutoff 100 1 = 1200 ∧
      (exampleAfterCutoff.handleCutoff exampleEnv exampleFaultsSetCutOff
          (exampleCutoff 505 1200 80 [3])).notified
        = [Notification.Cutoff (exampleAfterCutoff.saveCutoffEvent exampleEnv exampleFaultsSetCutOff
            (exampleCutoff 505 1200 80 [3])).2.1] ∧
      (exampleAfterCutoff.handleCutoff exampleEnv exampleFaultsSetCutOff
          (exampleCutoff 505 1200 80 [3])).om.rds.orders = exampleAfterCutoff.rds.orders) ∧
    ((exampleAfterCutoff.handleCutoff exampleEnv exampleFaultsSetCutOff
          (exampleCutoff 505 1200 80 [3])).om.rds.GetOrderByHash 3).map (fun o => o.Status)
        = some types.OrderStatus.ORDER_NEW ∧
    ((exampleAfterCutoffPair.handleCutoffPair exampleEnv exampleFaultsSetCutOff
          (exampleCutoffPair 505 1200 80 [3])).err = none ∧
      (exampleAfterCutoffPair.handleCutoffPair exampleEnv exampleFaultsSetCutOff
          (exampleCutoffPair 505 1200 80 [3])).om.cutoffCache.GetCutoffPair 100 1 10 20 = 1200 ∧
      (exampleAfterCutoffPair.handleCutoffPair exampleEnv exampleFaultsSetCutOff
          (exampleCutoffPair 505 1200 80 [3])).om.rds.orders = exampleAfterCutoffPair.rds.orders) :=
  ⟨⟨⟨by decide, by decide, by decide, by decide⟩,
      ((cutoff_handlers_return_nil exampleEnv exampleFaultsSetCutOff exampleAfterCutoff).1
        (exampleCutoff 505 1200 80 [3])).1,
      (((cutoff_handlers_return_nil exampleEnv exampleFaultsSetCutOff exampleAfterCutoff).1
        (exampleCutoff 505 1200 80 [3])).2 (by decide) (by decide) (by decide) (by decide)).1,
      (((cutoff_handlers_return_nil exampleEnv exampleFaultsSetCutOff exampleAfterCutoff).1
        (exampleCutoff 505 1200 80 [3])).2 (by decide) (by decide) (by decide) (by decide)).2.1,
      (((cutoff_handlers_return_nil exampleEnv exampleFaultsSetCutOff exampleAfterCutoff).1
        (exampleCutoff 505 1200 80 [3])).2 (by decide) (by decide) (by decide) (by decide)).2.2⟩,
    by decide,
    ⟨((cutoff_handlers_return_nil exampleEnv exampleFaultsSetCutOff exampleAfterCutoffPair).2
        (exampleCutoffPair 505 1200 80 [3])).1,
      (((cutoff_handlers_return_nil exampleEnv exampleFaultsSetCutOff exampleAfterCutoffPair).2
        (exampleCutoffPair 505 1200 80 [3])).2 (by decide) (by decide) (by decide) (by decide)).1,
      (((cutoff_handlers_return_nil exampleEnv exampleFaultsSetCutOff exampleAfterCutoffPair).2
        (exampleCutoffPair 505 1200 80 [3])).2 (by decide) (by decide) (by decide) (by decide)).2.2⟩⟩

/-! ## The order hash list of a cutoff event -/

/-- The order hash list `saveCutoffEvent` leaves in the event: the hashes of the orders the query
returned, in their order, when a record is inserted and the query returned some; the inbound
list otherwise. -/
theorem saveCutoffEvent_list (env : Env) (f : Faults) (om : OrderManagerImpl) (event : types.CutoffEvent) :
    (om.rds.GetCutoffEvent event.TxHash = none → f.GetCutoffOrders = false →
      env.GetCutoffOrders om.rds.orders event.Owner event.Cutoff ≠ [] →
      (om.saveCutoffEvent env f event).2.1 =
        { event with OrderHashList := (env.GetCutoffOrders om.rds.orders event.Owner event.Cutoff).map (fun v => v.OrderHash) }) ∧
    (om.rds.GetCutoffEvent event.TxHash = none →
      (f.GetCutoffOrders = true ∨ env.GetCutoffOrders om.rds.orders event.Owner event.Cutoff = []) →
      (om.saveCutoffEvent env f event).2.1 = event) ∧
    (∀ (id : Nat) (m : dao.CutOffEvent), om.rds.GetCutoffEvent event.TxHash = some (id, m) →
      (om.saveCutoffEvent env f event).2.1 = event) := by
  refine ⟨fun hnew hq hne => ?_, fun hnew hq => ?_, fun id m hfind => ?_⟩
  · simp [OrderManagerImpl.saveCutoffEvent, hnew, hq, collectCutoffOrders_eq, hne]
  · rcases hq with hq | hq
    · simp [OrderManagerImpl.saveCutoffEvent, hnew, hq, collectCutoffOrders_eq]
    · by_cases hf : f.GetCutoffOrders = true
      · simp [OrderManagerImpl.saveCutoffEvent, hnew, hf, collectCutoffOrders_eq]
      · simp [OrderManagerImpl.saveCutoffEvent, hnew, hf, collectCutoffOrders_eq, hq]
  · by_cases hs : m.Status = event.Status <;> simp [OrderManagerImpl.saveCutoffEvent, hfind, hs]

/-- The record `handleCutoff` persists carries the order hash list `saveCutoffEvent` left in the
event. -/
theorem handleCutoff_persisted_list (env : Env) (f : Faults) (om : OrderManagerImpl)
    (event : types.CutoffEvent) :
    (om.rds.GetCutoffEvent event.TxHash = none → f.Add = false →
      ∃ row : dao.CutOffEvent,
        (om.handleCutoff env f event).om.rds.cutoffEvents = om.rds.cutoffEvents ++ [row] ∧
        row.OrderHashList = (om.saveCutoffEvent env f event).2.1.OrderHashList) ∧
    (∀ (id : Nat) (m : dao.CutOffEvent), om.rds.GetCutoffEvent event.TxHash = some (id, m) →
      m.Status ≠ event.Status → f.Save = false →
      ∃ row : dao.CutOffEvent,
        (om.handleCutoff env f event).om.rds.cutoffEvents = om.rds.cutoffEvents.set id row ∧
        row.OrderHashList = event.OrderHashList) := by
  refine ⟨fun hnew hadd => ?_, fun id m hfind hne hsave => ?_⟩
  · rw [handleCutoff_cutoffEvents]
    refine ⟨{ dao.CutOffEvent.zero.ConvertDown (om.saveCutoffEvent env f event).2.1 with Fork := false }, ?_, rfl⟩
    simp [OrderManagerImpl.saveCutoffEvent, hnew, dao.RdsService.Add, hadd, OrderManagerImpl.written]
  · rw [handleCutoff_cutoffEvents]
    refine ⟨m.ConvertDown event, ?_, rfl⟩
    simp [OrderManagerImpl.saveCutoffEvent, hfind, hne, dao.RdsService.Save, hsave,
      OrderManagerImpl.written]

/-- The order hash list `saveCutoffPairEvent` leaves in the event: the hashes of the orders the query
returned, in their order, when a record is inserted and the query returned some; the inbound
list otherwise. -/
theorem saveCutoffPairEvent_list (env : Env) (f : Faults) (om : OrderManagerImpl) (event : types.CutoffPairEvent) :
    (om.rds.GetCutoffPairEvent event.TxHash = none → f.GetCutoffOrders = false →
      env.GetCutoffPairOrders om.rds.orders event.Owner event.Token1 event.Token2 event.Cutoff ≠ [] →
      (om.saveCutoffPairEvent env f event).2.1 =
        { event with OrderHashList := (env.GetCutoffPairOrders om.rds.orders event.Owner event.Token1 event.Token2 event.Cutoff).map (fun v => v.OrderHash) }) ∧
    (om.rds.GetCutoffPairEvent event.TxHash = none →
      (f.GetCutoffOrders = true ∨ env.GetCutoffPairOrders om.rds.orders event.Owner event.Token1 event.Token2 event.Cutoff = []) →
      (om.saveCutoffPairEvent env f event).2.1 = event) ∧
    (∀ (id : Nat) (m : dao.CutOffPairEvent), om.rds.GetCutoffPairEvent event.TxHash = some (id, m) →
      (om.saveCutoffPairEvent env f event).2.1 = event) := by
  refine ⟨fun hnew hq hne => ?_, fun hnew hq => ?_, fun id m hfind => ?_⟩
  · simp [OrderManagerImpl.saveCutoffPairEvent, hnew, hq, collectCutoffPairOrders_eq, hne]
  · rcases hq with hq | hq
    · simp [OrderManagerImpl.saveCutoffPairEvent, hnew, hq, collectCutoffPairOrders_eq]
    · by_cases hf : f.GetCutoffOrders = true
      · simp [OrderManagerImpl.saveCutoffPairEvent, hnew, hf, collectCutoffPairOrders_eq]
      · simp [OrderManagerImpl.saveCutoffPairEvent, hnew, hf, collectCutoffPairOrders_eq, hq]
  · by_cases hs : m.Status = event.Status <;> simp [OrderManagerImpl.saveCutoffPairEvent, hfind, hs]

/-- The record `handleCutoffPair` persists carries the order hash list `saveCutoffPairEvent` left in the
event. -/
theorem handleCutoffPair_persisted_list (env : Env) (f : Faults) (om : OrderManagerImpl)
    (event : types.CutoffPairEvent) :
    (om.rds.GetCutoffPairEvent event.TxHash = none → f.Add = false →
      ∃ row : dao.CutOffPairEvent,
        (om.handleCutoffPair env f event).om.rds.cutoffPairEvents = om.rds.cutoffPairEvents ++ [row] ∧
        row.OrderHashList = (om.saveCutoffPairEvent env f event).2.1.OrderHashList) ∧
    (∀ (id : Nat) (m : dao.CutOffPairEvent), om.rds.GetCutoffPairEvent event.TxHash = some (id, m) →
      m.Status ≠ event.Status → f.Save = false →
      ∃ row : dao.CutOffPairEvent,
        (om.handleCutoffPair env f event).om.rds.cutoffPairEvents = om.rds.cutoffPairEvents.set id row ∧
        row.OrderHashList = event.OrderHashList) := by
  refine ⟨fun hnew hadd => ?_, fun id m hfind hne hsave => ?_⟩
  · rw [handleCutoffPair_cutoffPairEvents]
    refine ⟨{ dao.CutOffPairEvent.zero.ConvertDown (om.saveCutoffPairEvent env f event).2.1 with Fork := false }, ?_, rfl⟩
    simp [OrderManagerImpl.saveCutoffPairEvent, hnew, dao.RdsService.Add, hadd, OrderManagerImpl.written]
  · rw [handleCutoffPair_cutoffPairEvents]
    refine ⟨m.ConvertDown event, ?_, rfl⟩
    simp [OrderManagerImpl.saveCutoffPairEvent, hfind, hne, dao.RdsService.Save, hsave,
      OrderManagerImpl.written]

/-- C20: when `handleCutoff` (or `handleCutoffPair`) inserts the event record for the first time
and the query `GetCutoffOrders` (or `GetCutoffPairOrders`) returns a non-empty result, the
event's order hash list is replaced by exactly the hashes of the returned orders, in their
order; when the query returns nothing (or fails), or when a record with the transaction hash
exists, the inbound list stays. The list left in the event is the one persisted in the record,
the one published, and the one the bulk cutoff update is applied to. -/
theorem cutoff_order_list (env : Env) (f : Faults) (om : OrderManagerImpl) :
    (∀ event : types.CutoffEvent,
      (om.rds.GetCutoffEvent event.TxHash = none → f.GetCutoffOrders = false →
        env.GetCutoffOrders om.rds.orders event.Owner event.Cutoff ≠ [] →
        (om.saveCutoffEvent env f event).2.1 =
          { event with OrderHashList :=
              (env.GetCutoffOrders om.rds.orders event.Owner event.Cutoff).map (fun v => v.OrderHash) }) ∧
      (om.rds.GetCutoffEvent event.TxHash = none →
        (f.GetCutoffOrders = true ∨ env.GetCutoffOrders om.rds.orders event.Owner event.Cutoff = []) →
        (om.saveCutoffEvent env f event).2.1 = event) ∧
      (∀ (id : Nat) (m : dao.CutOffEvent), om.rds.GetCutoffEvent event.TxHash = some (id, m) →
        (om.saveCutoffEvent env f event).2.1 = event) ∧
      (om.rds.GetCutoffEvent event.TxHash = none → f.Add = false →
        ∃ row : dao.CutOffEvent,
          (om.handleCutoff env f event).om.rds.cutoffEvents = om.rds.cutoffEvents ++ [row] ∧
          row.OrderHashList = (om.saveCutoffEvent env f event).2.1.OrderHashList) ∧
      (∀ (id : Nat) (m : dao.CutOffEvent), om.rds.GetCutoffEvent event.TxHash = some (id, m) →
        m.Status ≠ event.Status → f.Save = false →
        ∃ row : dao.CutOffEvent,
          (om.handleCutoff env f event).om.rds.cutoffEvents = om.rds.cutoffEvents.set id row ∧
          row.OrderHashList = event.OrderHashList) ∧
      ((om.saveCutoffEvent env f event).2.2 = none →
        event.Status = types.TxStatus.TX_STATUS_SUCCESS →
        om.cutoffCache.GetCutoff event.Protocol event.Owner ≤ event.Cutoff →
        (om.handleCutoff env f event).notified
          = [Notification.Cutoff (om.saveCutoffEvent env f event).2.1] ∧
        (f.SetCutOffOrders = false →
          (om.handleCutoff env f event).om.rds.orders =
            om.rds.orders.map (fun o =>
              if o.OrderHash ∈ (om.saveCutoffEvent env f event).2.1.OrderHashList then
                { o with Status := types.OrderStatus.ORDER_CUTOFF, UpdatedBlock := event.BlockNumber }
              else o)))) ∧
    (∀ event : types.CutoffPairEvent,
      (om.rds.GetCutoffPairEvent event.TxHash = none → f.GetCutoffOrders = false →
        env.GetCutoffPairOrders om.rds.orders event.Owner event.Token1 event.Token2 event.Cutoff ≠ [] →
        (om.saveCutoffPairEvent env f event).2.1 =
          { event with OrderHashList :=
              (env.GetCutoffPairOrders om.rds.orders event.Owner event.Token1 event.Token2
                event.Cutoff).map (fun v => v.OrderHash) }) ∧
      (om.rds.GetCutoffPairEvent event.TxHash = none →
        (f.GetCutoffOrders = true ∨
          env.GetCutoffPairOrders om.rds.orders event.Owner event.Token1 event.Token2 event.Cutoff = []) →
        (om.saveCutoffPairEvent env f event).2.1 = event) ∧
      (∀ (id : Nat) (m : dao.CutOffPairEvent), om.rds.GetCutoffPairEvent event.TxHash = some (id, m) →
        (om.saveCutoffPairEvent env f event).2.1 = event) ∧
      (om.rds.GetCutoffPairEvent event.TxHash = none → f.Add = false →
        ∃ row : dao.CutOffPairEvent,
          (om.handleCutoffPair env f event).om.rds.cutoffPairEvents = om.rds.cutoffPairEvents ++ [row] ∧
          row.OrderHashList = (om.saveCutoffPairEvent env f event).2.1.OrderHashList) ∧
      (∀ (id : Nat) (m : dao.CutOffPairEvent), om.rds.GetCutoffPairEvent event.TxHash = some (id, m) →
        m.Status ≠ event.Status → f.Save = false →
        ∃ row : dao.CutOffPairEvent,
          (om.handleCutoffPair env f event).om.rds.cutoffPairEvents = om.rds.cutoffPairEvents.set id row ∧
          row.OrderHashList = event.OrderHashList) ∧
      ((om.saveCutoffPairEvent env f event).2.2 = none →
        event.Status = types.TxStatus.TX_STATUS_SUCCESS →
        om.cutoffCache.GetCutoffPair event.Protocol event.Owner event.Token1 event.Token2 ≤ event.Cutoff →
        (om.handleCutoffPair env f event).notified
          = [Notification.CutoffPair (om.saveCutoffPairEvent env f event).2.1] ∧
        (f.SetCutOffOrders = false →
          (om.handleCutoffPair env f event).om.rds.orders =
            om.rds.orders.map (fun o =>
              if o.OrderHash ∈ (om.saveCutoffPairEvent env f event).2.1.OrderHashList then
                { o with Status := types.OrderStatus.ORDER_CUTOFF, UpdatedBlock := event.BlockNumber }
              else o)))) := by
  refine ⟨fun event => ⟨(saveCutoffEvent_list env f om event).1, (saveCutoffEvent_list env f om event).2.1,
      (saveCutoffEvent_list env f om event).2.2, (handleCutoff_persisted_list env f om event).1,
      (handleCutoff_persisted_list env f om event).2, fun hok hs hge => ⟨?_, fun hset => ?_⟩⟩,
    fun event => ⟨(saveCutoffPairEvent_list env f om event).1,
      (saveCutoffPairEvent_list env f om event).2.1, (saveCutoffPairEvent_list env f om event).2.2,
      (handleCutoffPair_persisted_list env f om event).1,
      (handleCutoffPair_persisted_list env f om event).2, fun hok hs hge => ⟨?_, fun hset => ?_⟩⟩⟩
  · rw [handleCutoff_of_accepted env f om event hok hs hge]
  · exact handleCutoff_orders_of_accepted env f om event hok hs hge hset
  · rw [handleCutoffPair_of_accepted env f om event hok hs hge]
  · exact handleCutoffPair_orders_of_accepted env f om event hok hs hge hset

/-- C20, at a concrete input: CutoffAll of owner 1 with the inbound list [2] on a store with the
orders 1, 2 and 3 of owner 1. When the query returns the three orders, the list becomes
[1, 2, 3], is persisted so, and all three orders are cutoff; when the query returns nothing,
the list stays [2] and only order 2 is cutoff; when the record exists, the inbound list stays. -/
theorem cutoff_order_list_witness :
    ((exampleOmThree.rds.GetCutoffEvent (exampleCutoff 600 1000 50 [2]).TxHash = none ∧
        exampleEnvQuery.GetCutoffOrders exampleOmThree.rds.orders (exampleCutoff 600 1000 50 [2]).Owner
          (exampleCutoff 600 1000 50 [2]).Cutoff ≠ []) ∧
      (exampleOmThree.saveCutoffEvent exampleEnvQuery Faults.none (exampleCutoff 600 1000 50 [2])).2.1 =
        { exampleCutoff 600 1000 50 [2] with OrderHashList :=
            (exampleEnvQuery.GetCutoffOrders exampleOmThree.rds.orders (exampleCutoff 600 1000 50 [2]).Owner
              (exampleCutoff 600 1000 50 [2]).Cutoff).map (fun v => v.OrderHash) }) ∧
    ((exampleOmThree.saveCutoffEvent exampleEnvQuery Faults.none
          (exampleCutoff 600 1000 50 [2])).2.1.OrderHashList = [1, 2, 3] ∧
      (exampleOmThree.handleCutoff exampleEnvQuery Faults.none
          (exampleCutoff 600 1000 50 [2])).om.rds.cutoffEvents.map (fun r => r.OrderHashList) = [[1, 2, 3]] ∧
      (exampleOmThree.handleCutoff exampleEnvQuery Faults.none
          (exampleCutoff 600 1000 50 [2])).om.rds.orders.map (fun o => (o.OrderHash, o.Status, o.UpdatedBlock))
        = [(1, types.OrderStatus.ORDER_CUTOFF, 50), (2, types.OrderStatus.ORDER_CUTOFF, 50),
           (3, types.OrderStatus.ORDER_CUTOFF, 50)]) ∧
    (exampleEnv.GetCutoffOrders exampleOmThree.rds.orders (exampleCutoff 600 1000 50 [2]).Owner
          (exampleCutoff 600 1000 50 [2]).Cutoff = [] ∧
      (exampleOmThree.saveCutoffEvent exampleEnv Faults.none (exampleCutoff 600 1000 50 [2])).2.1
        = exampleCutoff 600 1000 50 [2] ∧
      (exampleOmThree.handleCutoff exampleEnv Faults.none
          (exampleCutoff 600 1000 50 [2])).om.rds.orders.map (fun o => (o.OrderHash, o.Status, o.UpdatedBlock))
        = [(1, types.OrderStatus.ORDER_NEW, 5), (2, types.OrderStatus.ORDER_CUTOFF, 50),
           (3, types.OrderStatus.ORDER_NEW, 5)]) ∧
    (exampleAfterPendingCutoff.rds.GetCutoffEvent (exampleCutoff 504 1200 80 [2]).TxHash
        = some (1, exampleRowPendingCutoff) ∧
      (exampleAfterPendingCutoff.saveCutoffEvent exampleEnvQuery Faults.none
          (exampleCutoff 504 1200 80 [2])).2.1 = exampleCutoff 504 1200 80 [2]) ∧
    ((exampleOmThree.saveCutoffPairEvent exampleEnvQuery Faults.none
          (exampleCutoffPair 600 1000 50 [2])).2.1.OrderHashList = [1, 2, 3] ∧
      (exampleOmThree.saveCutoffPairEvent exampleEnvQuery Faults.none (exampleCutoffPair 600 1000 50 [2])).2.1 =
        { exampleCutoffPair 600 1000 50 [2] with OrderHashList :=
            (exampleEnvQuery.GetCutoffPairOrders exampleOmThree.rds.orders
              (exampleCutoffPair 600 1000 50 [2]).Owner (exampleCutoffPair 600 1000 50 [2]).Token1
              (exampleCutoffPair 600 1000 50 [2]).Token2
              (exampleCutoffPair 600 1000 50 [2]).Cutoff).map (fun v => v.OrderHash) }) :=
  ⟨⟨⟨by decide, by decide⟩,
      ((cutoff_order_list exampleEnvQuery Faults.none exampleOmThree).1 (exampleCutoff 600 1000 50 [2])).1
        (by decide) (by decide) (by decide)⟩,
    ⟨by decide, by decide, by decide⟩,
    ⟨by decide,
      ((cutoff_order_list exampleEnv Faults.none exampleOmThree).1 (exampleCutoff 600 1000 50 [2])).2.1
        (by decide) (Or.inr (by decide)),
      by decide⟩,
    ⟨by decide,
      ((cutoff_order_list exampleEnvQuery Faults.none exampleAfterPendingCutoff).1
        (exampleCutoff 504 1200 80 [2])).2.2.1 1 exampleRowPendingCutoff (by decide)⟩,
    ⟨by decide,
      ((cutoff_order_list exampleEnvQuery Faults.none exampleOmThree).2
        (exampleCutoffPair 600 1000 50 [2])).1 (by decide) (by decide) (by decide)⟩⟩
